import Mathlib

/-!
Accton OMP800 chassis drivers: a shallow embedding

The development embeds the parts of the OMP800 platform drivers that the
specification talks about:

* `accton_omp800_cpld.c`   : the CPLD register broker (`omp800_cpld_read`,
  `omp800_cpld_write`);
* `accton_omp800_fc_fan.c` : the cached fan register group;
* `leds-accton_omp800.c`   : the cached LED register group;
* `accton_omp800_lc_sfp.c` : the transceiver port model (presence, port number,
  port type, QSFP status block and attributes, EEPROM transport and file).

Conventions.  Machine integers are `Nat`/`Int` with an explicit reduction where
the C type truncates (`u8` is `% 256`, `unsigned long` is `% 2 ^ 64`).  The
I2C/SMBus core of the kernel is not part of the repository; it is an oracle
`bus : Nat → Resp` giving the outcome of the k-th transaction issued on the
bus, and every transaction is appended to a log `List BusOp`, so that the
number and the order of the transactions can be stated.  Mutexes are not
modelled: every function is one atomic step.
-/

namespace Omp800

/-! Bus transport (kernel side) -/

/-- An I2C client: `id` stands for the identity of the `struct i2c_client`
(the pointer), `addr` is its bus address. -/
structure i2c_client where
  id : Nat
  addr : Nat
  deriving DecidableEq, Repr

/-- Outcome of one bus transaction: the return value of the kernel call
(negative errno on failure) and, for a block read, the bytes delivered. -/
structure Resp where
  status : Int
  data : List Nat
  deriving DecidableEq, Repr

/-- One transaction issued on the bus. -/
inductive BusOp where
  | read_byte (client : i2c_client) (reg : Nat)
  | write_byte (client : i2c_client) (reg : Nat) (value : Nat)
  | read_block (client : i2c_client) (command : Nat) (length : Nat)
  | write_block (client : i2c_client) (command : Nat) (length : Nat) (values : List Nat)
  deriving DecidableEq, Repr

/-- Kernel `i2c_smbus_read_byte_data(client, reg)`: one single-byte read
transaction; returns the byte or a negative errno. -/
def i2c_smbus_read_byte_data (bus : Nat → Resp) (log : List BusOp)
    (client : i2c_client) (reg : Nat) : Int × List BusOp :=
  ((bus log.length).status, log ++ [BusOp.read_byte client reg])

/-- Copy `src` over the beginning of the buffer `dst` (the `memcpy` into the
caller's buffer done by a block read). -/
def store_bytes (dst src : List Nat) : List Nat :=
  src ++ dst.drop src.length

/-- Kernel `i2c_smbus_read_i2c_block_data(client, command, length, values)`:
one block-read transaction.  On failure the buffer is untouched; on success
the returned count of bytes is copied into the buffer (as `u8`). -/
def i2c_smbus_read_i2c_block_data (bus : Nat → Resp) (log : List BusOp)
    (client : i2c_client) (command length : Nat) (values : List Nat) :
    Int × List Nat × List BusOp :=
  let r := bus log.length
  let log1 := log ++ [BusOp.read_block client command length]
  if r.status < 0 then (r.status, values, log1)
  else (r.status, store_bytes values ((r.data.take r.status.toNat).map (fun b => b % 256)), log1)

/-! Errno values and the tick counter (kernel side) -/

/-- Errno `EPERM`. -/
def EPERM : Int := 1

/-- Errno for an I/O error (`-EIO` is `-5`). -/
def EIO_ERRNO : Int := 5

/-- Errno for "no such device or address" (`-ENXIO` is `-6`). -/
def ENXIO_ERRNO : Int := 6

/-- Errno `ENODEV`. -/
def ENODEV : Int := 19

/-- Width of `unsigned long` (the type of `jiffies`). -/
def BITS_PER_LONG : Nat := 64

/-- Truncation to `unsigned long`. -/
def ulong (x : Nat) : Nat := x % 2 ^ BITS_PER_LONG

/-- The cast `(long)x` of an `unsigned long`. -/
def to_long (x : Nat) : Int :=
  if ulong x < 2 ^ (BITS_PER_LONG - 1) then (ulong x : Int)
  else (ulong x : Int) - 2 ^ BITS_PER_LONG

/-- Kernel `time_after(a, b)`, that is `((long)((b) - (a)) < 0)`, with the
subtraction taken in `unsigned long`. -/
def time_after (a b : Nat) : Bool :=
  decide (to_long (ulong b + 2 ^ BITS_PER_LONG - ulong a) < 0)

/-- Kernel `time_before(a, b)`, that is `time_after(b, a)`. -/
def time_before (a b : Nat) : Bool := time_after b a

/-! `accton_omp800_cpld.c`: the register broker -/

/-- Function `omp800_cpld_read(cpld_addr, reg)`: walk `cpld_client_list`; at the first
node whose client has the address, issue the byte read and stop; `-EPERM` when
no node matches. -/
def omp800_cpld_read (bus : Nat → Resp) (log : List BusOp) :
    List i2c_client → Nat → Nat → Int × List BusOp
  | [], _, _ => (-EPERM, log)
  | c :: rest, cpld_addr, reg =>
    if c.addr = cpld_addr then i2c_smbus_read_byte_data bus log c reg
    else omp800_cpld_read bus log rest cpld_addr reg

/-! `accton_omp800_fc_fan.c`: the cached fan register group -/

/-- The register table `fan_reg[]`. -/
def fan_reg : List Nat :=
  [0x0F, 0x11, 0x01, 0x12, 0x13, 0x14, 0x15, 0x22, 0x23, 0x24, 0x25]

/-- The cache part of `struct omp800_fc_fan_data` (the thermal-sensor fields,
which `omp800_fc_fan_update_device` never touches, are left out). -/
structure omp800_fc_fan_data where
  enable : Nat
  valid : Nat
  last_updated : Nat
  reg_val : List Nat
  deriving DecidableEq, Repr

/-- Function `omp800_fc_fan_read_value(client, reg)`. -/
def omp800_fc_fan_read_value (bus : Nat → Resp) (log : List BusOp)
    (client : i2c_client) (reg : Nat) : Int × List BusOp :=
  i2c_smbus_read_byte_data bus log client reg

/-- The `for` loop of `omp800_fc_fan_update_device`, from index `i` with
`todo` iterations left.  The boolean tells whether the loop ran to its end
(`true`) or left through `goto exit` (`false`). -/
def fan_update_loop (bus : Nat → Resp) (client : i2c_client) :
    Nat → Nat → omp800_fc_fan_data → List BusOp → Bool × omp800_fc_fan_data × List BusOp
  | 0, _, data, log => (true, data, log)
  | todo + 1, i, data, log =>
    let r := omp800_fc_fan_read_value bus log client (fan_reg.getD i 0)
    if r.1 < 0 then (false, data, r.2)
    else fan_update_loop bus client todo (i + 1)
      { data with reg_val := data.reg_val.set i (r.1 % 256).toNat } r.2

/-- Function `omp800_fc_fan_update_device(dev)`, with `jiffies` the value of the tick
counter during the call and `HZ` the kernel tick rate. -/
def omp800_fc_fan_update_device (HZ jiffies : Nat) (bus : Nat → Resp)
    (client : i2c_client) (data : omp800_fc_fan_data) (log : List BusOp) :
    omp800_fc_fan_data × List BusOp :=
  if data.enable = 0 then (data, log)
  else if time_after jiffies (ulong (data.last_updated + HZ + HZ / 2)) || data.valid == 0 then
    match fan_update_loop bus client fan_reg.length 0 { data with valid := 0 } log with
    | (true, data2, log2) => ({ data2 with last_updated := jiffies, valid := 1 }, log2)
    | (false, data2, log2) => (data2, log2)
  else (data, log)

/-! `leds-accton_omp800.c`: the cached LED register group -/

/-- The enumeration `enum omp800_platform`. -/
inductive omp800_platform where
  | OMP800_FC
  | OMP800_LC
  deriving DecidableEq, Repr

/-- The cache part of `struct accton_omp800_led_data` (the global `ledctl`). -/
structure accton_omp800_led_data where
  platform : omp800_platform
  valid : Nat
  last_updated : Nat
  reg_val : List Nat
  deriving DecidableEq, Repr

/-- The register table `led_reg[]`. -/
def led_reg : List Nat := [0x41, 0x43, 0x44, 0x45, 0x42]

/-- Function `accton_omp800_led_read_value(reg)`: a broker read at address `0x60`. -/
def accton_omp800_led_read_value (bus : Nat → Resp) (log : List BusOp)
    (cpld_client_list : List i2c_client) (reg : Nat) : Int × List BusOp :=
  omp800_cpld_read bus log cpld_client_list 0x60 reg

/-- The `for` loop of `accton_omp800_led_update`, from index `i` with `todo`
iterations left; the boolean is `false` when the loop left through
`goto exit`. -/
def led_update_loop (bus : Nat → Resp) (cpld_client_list : List i2c_client) :
    Nat → Nat → accton_omp800_led_data → List BusOp →
    Bool × accton_omp800_led_data × List BusOp
  | 0, _, ledctl, log => (true, ledctl, log)
  | todo + 1, i, ledctl, log =>
    let r := accton_omp800_led_read_value bus log cpld_client_list (led_reg.getD i 0)
    if r.1 < 0 then (false, ledctl, r.2)
    else led_update_loop bus cpld_client_list todo (i + 1)
      { ledctl with reg_val := ledctl.reg_val.set i (r.1 % 256).toNat } r.2

/-- Function `accton_omp800_led_update()`. -/
def accton_omp800_led_update (HZ jiffies : Nat) (bus : Nat → Resp)
    (cpld_client_list : List i2c_client) (ledctl : accton_omp800_led_data)
    (log : List BusOp) : accton_omp800_led_data × List BusOp :=
  if time_after jiffies (ulong (ledctl.last_updated + HZ + HZ / 2)) || ledctl.valid == 0 then
    let nLedRegs := if ledctl.platform = omp800_platform.OMP800_FC then 5 else 4
    match led_update_loop bus cpld_client_list nLedRegs 0 { ledctl with valid := 0 } log with
    | (true, ledctl2, log2) => ({ ledctl2 with last_updated := jiffies, valid := 1 }, log2)
    | (false, ledctl2, log2) => (ledctl2, log2)
  else (ledctl, log)

/-! `accton_omp800_lc_sfp.c`: the transceiver port model -/

/-- The constant `I2C_SMBUS_BLOCK_MAX` of the kernel's I2C interface. -/
def I2C_SMBUS_BLOCK_MAX : Int := 32

/-- The constant `I2C_RW_RETRY_COUNT`. -/
def I2C_RW_RETRY_COUNT : Nat := 3

/-- The constant `SFF8024_PHYSICAL_DEVICE_ID_ADDR`. -/
def SFF8024_PHYSICAL_DEVICE_ID_ADDR : Nat := 0x0

/-- The constant `SFF8024_DEVICE_ID_SFP`. -/
def SFF8024_DEVICE_ID_SFP : Nat := 0x3

/-- The constant `SFF8024_DEVICE_ID_QSFP`. -/
def SFF8024_DEVICE_ID_QSFP : Nat := 0xC

/-- The constant `SFF8024_DEVICE_ID_QSFP_PLUS`. -/
def SFF8024_DEVICE_ID_QSFP_PLUS : Nat := 0xD

/-- The constant `SFF8024_DEVICE_ID_QSFP28`. -/
def SFF8024_DEVICE_ID_QSFP28 : Nat := 0x11

/-- The constant `SFF8472_10G_ETH_COMPLIANCE_ADDR`. -/
def SFF8472_10G_ETH_COMPLIANCE_ADDR : Nat := 0x3

/-- The constant `SFF8472_10G_BASE_MASK`. -/
def SFF8472_10G_BASE_MASK : Nat := 0xF0

/-- The constant `SFF8436_RX_LOS_ADDR`. -/
def SFF8436_RX_LOS_ADDR : Nat := 3

/-- The constant `SFF8436_TX_FAULT_ADDR`. -/
def SFF8436_TX_FAULT_ADDR : Nat := 4

/-- The constant `SFF8436_TX_DISABLE_ADDR`. -/
def SFF8436_TX_DISABLE_ADDR : Nat := 86

/-- The enumeration `oom_driver_port_type_t`, in declaration order. -/
inductive oom_driver_port_type_t where
  | OOM_DRIVER_PORT_TYPE_INVALID
  | OOM_DRIVER_PORT_TYPE_NOT_PRESENT
  | OOM_DRIVER_PORT_TYPE_SFP
  | OOM_DRIVER_PORT_TYPE_SFP_PLUS
  | OOM_DRIVER_PORT_TYPE_QSFP
  | OOM_DRIVER_PORT_TYPE_QSFP_PLUS
  | OOM_DRIVER_PORT_TYPE_QSFP28
  deriving DecidableEq, Repr

open oom_driver_port_type_t

/-- The integer value of an `oom_driver_port_type_t` enumerator. -/
def oom_driver_port_type_t.val : oom_driver_port_type_t → Int
  | OOM_DRIVER_PORT_TYPE_INVALID => 0
  | OOM_DRIVER_PORT_TYPE_NOT_PRESENT => 1
  | OOM_DRIVER_PORT_TYPE_SFP => 2
  | OOM_DRIVER_PORT_TYPE_SFP_PLUS => 3
  | OOM_DRIVER_PORT_TYPE_QSFP => 4
  | OOM_DRIVER_PORT_TYPE_QSFP_PLUS => 5
  | OOM_DRIVER_PORT_TYPE_QSFP28 => 6

/-- The enumeration `enum driver_type_e`. -/
inductive driver_type_e where
  | DRIVER_TYPE_SFP_MSA
  | DRIVER_TYPE_SFP_DDM
  | DRIVER_TYPE_QSFP
  deriving DecidableEq, Repr

open driver_type_e

/-- The cache part of `struct qsfp_data`: `status` has the three entries
tx_fail, tx_disable, rx_loss. -/
structure qsfp_data where
  valid : Nat
  last_updated : Nat
  status : List Nat
  device_id : Nat
  deriving DecidableEq, Repr

/-- The record `struct sfp_port_data`; `qsfp` stands for the block `data->qsfp`
points to. -/
structure sfp_port_data where
  driver_type : driver_type_e
  port : Nat
  port_type : oom_driver_port_type_t
  present : Nat
  qsfp : qsfp_data
  client : i2c_client
  deriving DecidableEq, Repr

/-- What a sysfs `show` callback hands back: a negative errno, or the text
`sprintf(buf, "%d\n", v)` left in the buffer (whose length is returned). -/
inductive ShowResult where
  | error (errno : Int)
  | printed (v : Int)
  deriving DecidableEq, Repr

/-- The loop of `sfp_update_present` over `regs[] = {0x30, 0x31}`, from index
`i` with `todo` iterations left; returns the last `status`. -/
def sfp_update_present_loop (bus : Nat → Resp) (cpld_client_list : List i2c_client) :
    Nat → Nat → Int → sfp_port_data → List BusOp → Int × sfp_port_data × List BusOp
  | 0, _, status, data, log => (status, data, log)
  | todo + 1, i, _, data, log =>
    let r := omp800_cpld_read bus log cpld_client_list 0x62 ([0x30, 0x31].getD i 0)
    if r.1 < 0 then (r.1, data, r.2)
    else sfp_update_present_loop bus cpld_client_list todo (i + 1) r.1
      { data with
        present := data.present ||| (((r.1 % 2 ^ 32).toNat <<< (i * 8)) % 2 ^ 32) } r.2

/-- Function `sfp_update_present(client)`.  The returned pointer is `none` for `data`
and `some status` for `ERR_PTR(status)`; the record is returned as the call
leaves it in both cases. -/
def sfp_update_present (bus : Nat → Resp) (cpld_client_list : List i2c_client)
    (data : sfp_port_data) (log : List BusOp) : Option Int × sfp_port_data × List BusOp :=
  let r := sfp_update_present_loop bus cpld_client_list 2 0 (-1) { data with present := 0 } log
  (if r.1 < 0 then some r.1 else none, r.2.1, r.2.2)

/-- The macro `BIT_INDEX(i)`, that is `1ULL << i`. -/
def BIT_INDEX (i : Nat) : Nat := (1 <<< i) % 2 ^ 64

/-- Function `sfp_is_port_present(client, port)`: the errno of a failed presence
refresh, else `!(data->present & BIT_INDEX(data->port % 16))`.  (`IS_ERR` holds
of every `ERR_PTR(status)` made here, the bus errnos being in the kernel's
errno range.) -/
def sfp_is_port_present (bus : Nat → Resp) (cpld_client_list : List i2c_client)
    (data : sfp_port_data) (log : List BusOp) (_port : Nat) :
    Int × sfp_port_data × List BusOp :=
  match sfp_update_present bus cpld_client_list data log with
  | (some err, data1, log1) => (err, data1, log1)
  | (none, data1, log1) =>
    (if data1.present &&& BIT_INDEX (data1.port % 16) = 0 then 1 else 0, data1, log1)

/-- Result of one `sfp_eeprom_read` call: its return value, the caller's
buffer and the bus log afterwards. -/
structure EepromResult where
  status : Int
  data : List Nat
  log : List BusOp
  deriving DecidableEq, Repr

/-- The retry loop of `sfp_eeprom_read` (`while (retry)`), with `status` the
value of the local variable so far. -/
def sfp_eeprom_read_loop (bus : Nat → Resp) (client : i2c_client) (command : Nat)
    (data_len : Int) : Nat → Int → List Nat → List BusOp → EepromResult
  | 0, status, data, log => { status := status, data := data, log := log }
  | retry + 1, _, data, log =>
    let r := i2c_smbus_read_i2c_block_data bus log client command (data_len % 256).toNat data
    if r.1 < 0 then sfp_eeprom_read_loop bus client command data_len retry r.1 r.2.1 r.2.2
    else { status := r.1, data := r.2.1, log := r.2.2 }

/-- Function `sfp_eeprom_read(client, command, data, data_len)` in the configuration
`USE_I2C_BLOCK_READ == 1`.  The local `status` is uninitialised in the source;
the loop body runs at least once, so its first value is never read. -/
def sfp_eeprom_read (bus : Nat → Resp) (log : List BusOp) (client : i2c_client)
    (command : Nat) (data : List Nat) (data_len : Int) : EepromResult :=
  let data_len := if data_len > I2C_SMBUS_BLOCK_MAX then I2C_SMBUS_BLOCK_MAX else data_len
  let r := sfp_eeprom_read_loop bus client command data_len I2C_RW_RETRY_COUNT 0 data log
  if r.status < 0 then r
  else if r.status ≠ data_len then { r with status := -EIO_ERRNO }
  else r

/-- Function `sfp_update_port_type(dev)`; the local `u8 buf` is the one-byte buffer
`[buf]`. -/
def sfp_update_port_type (bus : Nat → Resp) (data : sfp_port_data) (log : List BusOp) :
    sfp_port_data × List BusOp :=
  match data.driver_type with
  | DRIVER_TYPE_SFP_MSA =>
    let r1 := sfp_eeprom_read bus log data.client SFF8024_PHYSICAL_DEVICE_ID_ADDR [0] 1
    if r1.status < 0 then ({ data with port_type := OOM_DRIVER_PORT_TYPE_INVALID }, r1.log)
    else if r1.data.headD 0 ≠ SFF8024_DEVICE_ID_SFP then
      ({ data with port_type := OOM_DRIVER_PORT_TYPE_INVALID }, r1.log)
    else
      let r2 := sfp_eeprom_read bus r1.log data.client SFF8472_10G_ETH_COMPLIANCE_ADDR r1.data 1
      if r2.status < 0 then ({ data with port_type := OOM_DRIVER_PORT_TYPE_INVALID }, r2.log)
      else
        ({ data with
           port_type := if r2.data.headD 0 &&& SFF8472_10G_BASE_MASK ≠ 0
             then OOM_DRIVER_PORT_TYPE_SFP_PLUS else OOM_DRIVER_PORT_TYPE_SFP }, r2.log)
  | DRIVER_TYPE_QSFP =>
    let r1 := sfp_eeprom_read bus log data.client SFF8024_PHYSICAL_DEVICE_ID_ADDR [0] 1
    if r1.status < 0 then ({ data with port_type := OOM_DRIVER_PORT_TYPE_INVALID }, r1.log)
    else if r1.data.headD 0 = SFF8024_DEVICE_ID_QSFP then
      ({ data with port_type := OOM_DRIVER_PORT_TYPE_QSFP }, r1.log)
    else if r1.data.headD 0 = SFF8024_DEVICE_ID_QSFP_PLUS then
      ({ data with port_type := OOM_DRIVER_PORT_TYPE_QSFP_PLUS }, r1.log)
    else if r1.data.headD 0 = SFF8024_DEVICE_ID_QSFP28 then
      ({ data with port_type := OOM_DRIVER_PORT_TYPE_QSFP_PLUS }, r1.log)
    else ({ data with port_type := OOM_DRIVER_PORT_TYPE_INVALID }, r1.log)
  | DRIVER_TYPE_SFP_DDM => (data, log)

/-- Function `show_port_type(dev, da, buf)`.  (`IS_ERR_VALUE(present)` holds exactly of
the negative values, the bus errnos being in the kernel's errno range.) -/
def show_port_type (bus : Nat → Resp) (cpld_client_list : List i2c_client)
    (data : sfp_port_data) (log : List BusOp) : ShowResult × sfp_port_data × List BusOp :=
  let p := sfp_is_port_present bus cpld_client_list data log data.port
  if p.1 < 0 then (ShowResult.error p.1, p.2.1, p.2.2)
  else if p.1 = 0 then
    (ShowResult.printed OOM_DRIVER_PORT_TYPE_NOT_PRESENT.val, p.2.1, p.2.2)
  else
    let u := sfp_update_port_type bus p.2.1 p.2.2
    (ShowResult.printed u.1.port_type.val, u.1, u.2)

/-- The first loop of `qsfp_update_tx_rx_status` (the reads that make the
module latch its status), from index `i` with `todo` iterations left; returns
the last `status` and the local `buf`. -/
def qsfp_latch_loop (bus : Nat → Resp) (client : i2c_client) :
    Nat → Nat → Int → List Nat → List BusOp → EepromResult
  | 0, _, status, buf, log => { status := status, data := buf, log := log }
  | todo + 1, i, _, buf, log =>
    let r := sfp_eeprom_read bus log client
      ([SFF8436_TX_FAULT_ADDR, SFF8436_TX_DISABLE_ADDR, SFF8436_RX_LOS_ADDR].getD i 0) buf 1
    if r.status < 0 then r
    else qsfp_latch_loop bus client todo (i + 1) r.status r.data r.log

/-- The second loop of `qsfp_update_tx_rx_status` (the reads whose low nibble
is stored in `status[i]`), from index `i` with `todo` iterations left. -/
def qsfp_store_loop (bus : Nat → Resp) (client : i2c_client) :
    Nat → Nat → Int → List Nat → qsfp_data → List BusOp → Int × qsfp_data × List BusOp
  | 0, _, status, _, qsfp, log => (status, qsfp, log)
  | todo + 1, i, _, buf, qsfp, log =>
    let r := sfp_eeprom_read bus log client
      ([SFF8436_TX_FAULT_ADDR, SFF8436_TX_DISABLE_ADDR, SFF8436_RX_LOS_ADDR].getD i 0) buf 1
    if r.status < 0 then (r.status, qsfp, r.log)
    else qsfp_store_loop bus client todo (i + 1) r.status r.data
      { qsfp with status := qsfp.status.set i (r.data.headD 0 &&& 0xF) } r.log

/-- Function `qsfp_update_tx_rx_status(dev)`, with `jiffies` the value of the tick
counter during the call.  The returned pointer is `none` for `data` and
`some status` for `ERR_PTR(status)`. -/
def qsfp_update_tx_rx_status (HZ jiffies : Nat) (bus : Nat → Resp) (data : sfp_port_data)
    (log : List BusOp) : Option Int × sfp_port_data × List BusOp :=
  if time_before jiffies (ulong (data.qsfp.last_updated + HZ + HZ / 2)) && data.qsfp.valid != 0 then
    (none, data, log)
  else
    let qsfp0 : qsfp_data := { data.qsfp with valid := 0, status := [0, 0, 0] }
    let r1 := qsfp_latch_loop bus data.client 3 0 (-1) [0] log
    if r1.status < 0 then (some r1.status, { data with qsfp := qsfp0 }, r1.log)
    else
      let r2 := qsfp_store_loop bus data.client 3 0 r1.status r1.data qsfp0 r1.log
      if r2.1 < 0 then (some r2.1, { data with qsfp := r2.2.1 }, r2.2.2)
      else
        (none, { data with qsfp := { r2.2.1 with valid := 1, last_updated := jiffies } }, r2.2.2)

/-! Bus writes (kernel side) and the write half of the register broker -/

/-- Kernel `i2c_smbus_write_byte_data(client, reg, value)`: one single-byte
write transaction; returns 0 or a negative errno. -/
def i2c_smbus_write_byte_data (bus : Nat → Resp) (log : List BusOp)
    (client : i2c_client) (reg value : Nat) : Int × List BusOp :=
  ((bus log.length).status, log ++ [BusOp.write_byte client reg value])

/-- Kernel `i2c_smbus_write_i2c_block_data(client, command, length, values)`:
one block-write transaction of the first `length` bytes of `values`; returns 0
or a negative errno. -/
def i2c_smbus_write_i2c_block_data (bus : Nat → Resp) (log : List BusOp)
    (client : i2c_client) (command length : Nat) (values : List Nat) : Int × List BusOp :=
  ((bus log.length).status,
    log ++ [BusOp.write_block client command length (values.take length)])

/-- Function `omp800_cpld_write(cpld_addr, reg, value)`: walk `cpld_client_list`;
at the first node whose client has the address, issue the byte write and stop;
`-EIO` when no node matches. -/
def omp800_cpld_write (bus : Nat → Resp) (log : List BusOp) :
    List i2c_client → Nat → Nat → Nat → Int × List BusOp
  | [], _, _, _ => (-EIO_ERRNO, log)
  | c :: rest, cpld_addr, reg, value =>
    if c.addr = cpld_addr then i2c_smbus_write_byte_data bus log c reg value
    else omp800_cpld_write bus log rest cpld_addr reg value

/-! `accton_omp800_lc_sfp.c`: port number, EEPROM transfers, QSFP attributes -/

/-- The enumeration `enum sfp_sysfs_attributes`, in declaration order. -/
inductive sfp_sysfs_attributes where
  | PRESENT
  | PRESENT_ALL
  | PORT_NUMBER
  | PORT_TYPE
  | DDM_IMPLEMENTED
  | TX_FAULT
  | TX_FAULT1
  | TX_FAULT2
  | TX_FAULT3
  | TX_FAULT4
  | TX_DISABLE
  | TX_DISABLE1
  | TX_DISABLE2
  | TX_DISABLE3
  | TX_DISABLE4
  | RX_LOS
  | RX_LOS1
  | RX_LOS2
  | RX_LOS3
  | RX_LOS4
  | RX_LOS_ALL
  deriving DecidableEq, Repr

open sfp_sysfs_attributes

/-- The integer value of a `sfp_sysfs_attributes` enumerator (`attr->index`). -/
def sfp_sysfs_attributes.val : sfp_sysfs_attributes → Nat
  | PRESENT => 0
  | PRESENT_ALL => 1
  | PORT_NUMBER => 2
  | PORT_TYPE => 3
  | DDM_IMPLEMENTED => 4
  | TX_FAULT => 5
  | TX_FAULT1 => 6
  | TX_FAULT2 => 7
  | TX_FAULT3 => 8
  | TX_FAULT4 => 9
  | TX_DISABLE => 10
  | TX_DISABLE1 => 11
  | TX_DISABLE2 => 12
  | TX_DISABLE3 => 13
  | TX_DISABLE4 => 14
  | RX_LOS => 15
  | RX_LOS1 => 16
  | RX_LOS2 => 17
  | RX_LOS3 => 18
  | RX_LOS4 => 19
  | RX_LOS_ALL => 20

/-- Reduction of an integer to the range of `int` (32 bits, two's complement). -/
def to_int (x : Int) : Int := (x + 2 ^ 31) % 2 ^ 32 - 2 ^ 31

/-- The macro `CPLD_PORT_TO_FRONT_PORT(port)`, that is `(port+1)`, in `int`. -/
def CPLD_PORT_TO_FRONT_PORT (port : Int) : Int := to_int (port + 1)

/-- Function `show_port_number(dev, da, buf)`. -/
def show_port_number (data : sfp_port_data) : ShowResult :=
  ShowResult.printed (CPLD_PORT_TO_FRONT_PORT data.port)

/-- The retry loop of `sfp_eeprom_write` (`while (retry)`), with `status` the
value of the local variable so far. -/
def sfp_eeprom_write_loop (bus : Nat → Resp) (client : i2c_client) (command : Nat)
    (data : List Nat) (data_len : Int) : Nat → Int → List BusOp → Int × List BusOp
  | 0, status, log => (status, log)
  | retry + 1, _, log =>
    let r := i2c_smbus_write_i2c_block_data bus log client command (data_len % 256).toNat data
    if r.1 < 0 then sfp_eeprom_write_loop bus client command data data_len retry r.1 r.2
    else r

/-- Function `sfp_eeprom_write(client, command, data, data_len)` in the
configuration `USE_I2C_BLOCK_READ == 1`.  The local `status` is uninitialised
in the source; the loop body runs at least once, so its first value is never
read. -/
def sfp_eeprom_write (bus : Nat → Resp) (log : List BusOp) (client : i2c_client)
    (command : Nat) (data : List Nat) (data_len : Int) : Int × List BusOp :=
  let data_len := if data_len > I2C_SMBUS_BLOCK_MAX then I2C_SMBUS_BLOCK_MAX else data_len
  let r := sfp_eeprom_write_loop bus client command data data_len I2C_RW_RETRY_COUNT 0 log
  if r.1 < 0 then r
  else (data_len, r.2)

/-- The conversion of a `size_t` to `int` (the argument `data_len`). -/
def size_to_int (count : Nat) : Int :=
  if count % 2 ^ 32 < 2 ^ 31 then ((count % 2 ^ 32 : Nat) : Int)
  else ((count % 2 ^ 32 : Nat) : Int) - 2 ^ 32

/-- Result of `sfp_port_read` and `sfp_port_write`: the return value, the whole
buffer, the bus log, and, as a record for the statements, the return values of
the successive block transactions (`sfp_eeprom_read`/`sfp_eeprom_write` calls)
of the loop. -/
structure PortIoResult where
  retval : Int
  buf : List Nat
  statuses : List Int
  log : List BusOp
  deriving DecidableEq, Repr

/-- The loop `while (count)` of `sfp_port_read`.  `done` holds the bytes before
the pointer `buf`, `buf` the buffer from the pointer on.  The first argument
bounds the number of iterations; `sfp_port_read` passes the initial `count`,
which suffices because an iteration that goes on transfers at least one byte. -/
def sfp_port_read_loop (bus : Nat → Resp) (client : i2c_client) :
    Nat → Nat → Int → List Nat → List Nat → Int → List Int → List BusOp → PortIoResult
  | 0, _, _, done, buf, retval, statuses, log =>
    { retval := retval, buf := done ++ buf, statuses := statuses, log := log }
  | fuel + 1, count, off, done, buf, retval, statuses, log =>
    if count = 0 then
      { retval := retval, buf := done ++ buf, statuses := statuses, log := log }
    else
      let r := sfp_eeprom_read bus log client (off % 256).toNat buf (size_to_int count)
      if r.status ≤ 0 then
        { retval := if retval = 0 then r.status else retval, buf := done ++ r.data,
          statuses := statuses ++ [r.status], log := r.log }
      else
        sfp_port_read_loop bus client fuel
          (ulong (count + 2 ^ BITS_PER_LONG - r.status.toNat)) (off + r.status)
          (done ++ r.data.take r.status.toNat) (r.data.drop r.status.toNat)
          (retval + r.status) (statuses ++ [r.status]) r.log

/-- Function `sfp_port_read(data, buf, off, count)`. -/
def sfp_port_read (bus : Nat → Resp) (data : sfp_port_data) (buf : List Nat) (off : Int)
    (count : Nat) (log : List BusOp) : PortIoResult :=
  if count = 0 then { retval := 0, buf := buf, statuses := [], log := log }
  else sfp_port_read_loop bus data.client count count off [] buf 0 [] log

/-- The loop `while (count)` of `sfp_port_write`, with the same conventions as
`sfp_port_read_loop`. -/
def sfp_port_write_loop (bus : Nat → Resp) (client : i2c_client) :
    Nat → Nat → Int → List Nat → List Nat → Int → List Int → List BusOp → PortIoResult
  | 0, _, _, done, buf, retval, statuses, log =>
    { retval := retval, buf := done ++ buf, statuses := statuses, log := log }
  | fuel + 1, count, off, done, buf, retval, statuses, log =>
    if count = 0 then
      { retval := retval, buf := done ++ buf, statuses := statuses, log := log }
    else
      let r := sfp_eeprom_write bus log client (off % 256).toNat buf (size_to_int count)
      if r.1 ≤ 0 then
        { retval := if retval = 0 then r.1 else retval, buf := done ++ buf,
          statuses := statuses ++ [r.1], log := r.2 }
      else
        sfp_port_write_loop bus client fuel
          (ulong (count + 2 ^ BITS_PER_LONG - r.1.toNat)) (off + r.1)
          (done ++ buf.take r.1.toNat) (buf.drop r.1.toNat)
          (retval + r.1) (statuses ++ [r.1]) r.2

/-- Function `sfp_port_write(data, buf, off, count)`. -/
def sfp_port_write (bus : Nat → Resp) (data : sfp_port_data) (buf : List Nat) (off : Int)
    (count : Nat) (log : List BusOp) : PortIoResult :=
  if count = 0 then { retval := 0, buf := buf, statuses := [], log := log }
  else sfp_port_write_loop bus data.client count count off [] buf 0 [] log

/-- Function `sfp_bin_read(filp, kobj, attr, buf, off, count)`. -/
def sfp_bin_read (bus : Nat → Resp) (cpld_client_list : List i2c_client)
    (data : sfp_port_data) (buf : List Nat) (off : Int) (count : Nat) (log : List BusOp) :
    PortIoResult × sfp_port_data :=
  let p := sfp_is_port_present bus cpld_client_list data log data.port
  if p.1 < 0 then ({ retval := p.1, buf := buf, statuses := [], log := p.2.2 }, p.2.1)
  else if p.1 = 0 then
    ({ retval := -ENODEV, buf := buf, statuses := [], log := p.2.2 }, p.2.1)
  else (sfp_port_read bus p.2.1 buf off count p.2.2, p.2.1)

/-- Function `sfp_bin_write(filp, kobj, attr, buf, off, count)`. -/
def sfp_bin_write (bus : Nat → Resp) (cpld_client_list : List i2c_client)
    (data : sfp_port_data) (buf : List Nat) (off : Int) (count : Nat) (log : List BusOp) :
    PortIoResult × sfp_port_data :=
  let p := sfp_is_port_present bus cpld_client_list data log data.port
  if p.1 < 0 then ({ retval := p.1, buf := buf, statuses := [], log := p.2.2 }, p.2.1)
  else if p.1 = 0 then
    ({ retval := -ENODEV, buf := buf, statuses := [], log := p.2.2 }, p.2.1)
  else (sfp_port_write bus p.2.1 buf off count p.2.2, p.2.1)

/-- The C idiom `!!(x)` stored in a `u8`. -/
def bang_bang (x : Nat) : Int := if x = 0 then 0 else 1

/-- The `switch (attr->index)` of `qsfp_show_tx_rx_status`: the value `val`
computed from the cached status block. -/
def qsfp_show_val (status : List Nat) : sfp_sysfs_attributes → Int
  | TX_FAULT => bang_bang (status.getD 2 0 &&& 0xF)
  | TX_FAULT1 => bang_bang (status.getD 2 0 &&& BIT_INDEX (TX_FAULT1.val - TX_FAULT1.val))
  | TX_FAULT2 => bang_bang (status.getD 2 0 &&& BIT_INDEX (TX_FAULT2.val - TX_FAULT1.val))
  | TX_FAULT3 => bang_bang (status.getD 2 0 &&& BIT_INDEX (TX_FAULT3.val - TX_FAULT1.val))
  | TX_FAULT4 => bang_bang (status.getD 2 0 &&& BIT_INDEX (TX_FAULT4.val - TX_FAULT1.val))
  | TX_DISABLE => bang_bang (status.getD 1 0 &&& 0xF)
  | TX_DISABLE1 => bang_bang (status.getD 1 0 &&& BIT_INDEX (TX_DISABLE1.val - TX_DISABLE1.val))
  | TX_DISABLE2 => bang_bang (status.getD 1 0 &&& BIT_INDEX (TX_DISABLE2.val - TX_DISABLE1.val))
  | TX_DISABLE3 => bang_bang (status.getD 1 0 &&& BIT_INDEX (TX_DISABLE3.val - TX_DISABLE1.val))
  | TX_DISABLE4 => bang_bang (status.getD 1 0 &&& BIT_INDEX (TX_DISABLE4.val - TX_DISABLE1.val))
  | RX_LOS => bang_bang (status.getD 0 0 &&& 0xF)
  | RX_LOS1 => bang_bang (status.getD 0 0 &&& BIT_INDEX (RX_LOS1.val - RX_LOS1.val))
  | RX_LOS2 => bang_bang (status.getD 0 0 &&& BIT_INDEX (RX_LOS2.val - RX_LOS1.val))
  | RX_LOS3 => bang_bang (status.getD 0 0 &&& BIT_INDEX (RX_LOS3.val - RX_LOS1.val))
  | RX_LOS4 => bang_bang (status.getD 0 0 &&& BIT_INDEX (RX_LOS4.val - RX_LOS1.val))
  | _ => 0

/-- Function `qsfp_show_tx_rx_status(dev, da, buf)`, for the attribute `attr`. -/
def qsfp_show_tx_rx_status (HZ jiffies : Nat) (bus : Nat → Resp)
    (cpld_client_list : List i2c_client) (data : sfp_port_data) (log : List BusOp)
    (attr : sfp_sysfs_attributes) : ShowResult × sfp_port_data × List BusOp :=
  let p := sfp_is_port_present bus cpld_client_list data log data.port
  if p.1 < 0 then (ShowResult.error p.1, p.2.1, p.2.2)
  else if p.1 = 0 then (ShowResult.error (-ENXIO_ERRNO), p.2.1, p.2.2)
  else
    match qsfp_update_tx_rx_status HZ jiffies bus p.2.1 p.2.2 with
    | (some err, data1, log1) => (ShowResult.error err, data1, log1)
    | (none, data1, log1) =>
      (ShowResult.printed (qsfp_show_val data1.qsfp.status attr), data1, log1)

/-- The `int` operand `~x`, as the 32-bit pattern it is and-ed with. -/
def int_not (x : Nat) : Nat := 2 ^ 32 - 1 - x % 2 ^ 32

/-- The new value of `status[1]` computed by `qsfp_set_tx_disable` from the old
one: all four lanes for `TX_DISABLE`, else the lane
`attr->index - TX_DISABLE1` (the callback is registered for `TX_DISABLE` and
`TX_DISABLE1` to `TX_DISABLE4` only); the result is stored in a `u8`. -/
def qsfp_tx_disable_value (old : Nat) (attr : sfp_sysfs_attributes) (disable : Int) : Nat :=
  if attr = TX_DISABLE then
    if disable ≠ 0 then (old ||| 0xF) % 256 else (old &&& int_not 0xF) % 256
  else
    if disable ≠ 0 then (old ||| (1 <<< (attr.val - TX_DISABLE1.val)) % 2 ^ 32) % 256
    else (old &&& int_not (1 <<< (attr.val - TX_DISABLE1.val))) % 256

/-- Function `qsfp_set_tx_disable(dev, da, buf, count)`, for the attribute `attr`.
The text `buf` is given by the outcome of the kernel parser
`kstrtol(buf, 10, &disable)`: its return value `kstrtol_status` and the parsed
number `disable`. -/
def qsfp_set_tx_disable (HZ jiffies : Nat) (bus : Nat → Resp)
    (cpld_client_list : List i2c_client) (data : sfp_port_data) (log : List BusOp)
    (attr : sfp_sysfs_attributes) (kstrtol_status disable : Int) (count : Nat) :
    Int × sfp_port_data × List BusOp :=
  let p := sfp_is_port_present bus cpld_client_list data log data.port
  if p.1 < 0 then (p.1, p.2.1, p.2.2)
  else if p.1 = 0 then (-ENXIO_ERRNO, p.2.1, p.2.2)
  else if kstrtol_status ≠ 0 then (kstrtol_status, p.2.1, p.2.2)
  else
    match qsfp_update_tx_rx_status HZ jiffies bus p.2.1 p.2.2 with
    | (some err, data1, log1) => (err, data1, log1)
    | (none, data1, log1) =>
      let value := qsfp_tx_disable_value (data1.qsfp.status.getD 1 0) attr disable
      let data2 : sfp_port_data :=
        { data1 with qsfp := { data1.qsfp with status := data1.qsfp.status.set 1 value } }
      let w := sfp_eeprom_write bus log1 data2.client SFF8436_TX_DISABLE_ADDR [value] 1
      (if w.1 < 0 then w.1 else (count : Int), data2, w.2)

/-! `accton_omp800_cpld.c`: attaching and detaching endpoints -/

/-- Function `omp800_cpld_add_client(client)`: allocate a node and `list_add`
it at the head of `cpld_client_list`; when the allocation fails (`kzalloc_ok`
false) the function returns without a change.  It returns `void`. -/
def omp800_cpld_add_client (kzalloc_ok : Bool) (client : i2c_client)
    (cpld_client_list : List i2c_client) : List i2c_client :=
  if kzalloc_ok then client :: cpld_client_list else cpld_client_list

/-- Function `reg_val_to_duty_cycle(reg_val)`; the `u32` arithmetic does not
wrap for a masked register value. -/
def reg_val_to_duty_cycle (reg_val : Nat) : Nat :=
  if reg_val % 256 &&& 0xF = 0 then 0
  else (((reg_val % 256 &&& 0xF) + 1) * 625 + 75) % 2 ^ 32 / 100

/-- Function `duty_cycle_to_reg_val(duty_cycle)`, the parameter and the result
being `u8`. -/
def duty_cycle_to_reg_val (duty_cycle : Nat) : Nat :=
  if duty_cycle % 256 ≤ 6 then 0
  else ((duty_cycle % 256 * 100 / 625 + 2 ^ 32 - 1) % 2 ^ 32) % 256

/-! `leds-accton_omp800.c`: LED mode conversion -/

/-- The enumeration `enum led_type`. -/
inductive led_type where
  | LED_TYPE_RLS
  | LED_TYPE_DIAG
  | LED_TYPE_SYS
  | LED_TYPE_PSU
  | LED_TYPE_FAN
  deriving DecidableEq, Repr

/-- The enumeration `enum led_light_mode`, in declaration order. -/
inductive led_light_mode where
  | LED_MODE_OFF
  | LED_MODE_GREEN
  | LED_MODE_GREEN_BLINK
  | LED_MODE_AMBER
  | LED_MODE_AMBER_BLINK
  | LED_MODE_RED
  | LED_MODE_RED_BLINK
  | LED_MODE_BLUE
  | LED_MODE_BLUE_BLINK
  | LED_MODE_AUTO
  | LED_MODE_UNKNOWN
  deriving DecidableEq, Repr

open led_type led_light_mode

/-- The record `struct led_type_mode`. -/
structure led_type_mode where
  type : led_type
  type_mask : Nat
  mode : led_light_mode
  mode_mask : Nat
  deriving DecidableEq, Repr

/-- The constant `LED_TYPE_REG_MASK`. -/
def LED_TYPE_REG_MASK : Nat := 0x07

/-- The constant `LED_MODE_GREEN_MASK`. -/
def LED_MODE_GREEN_MASK : Nat := 0x01

/-- The constant `LED_MODE_RED_MASK`. -/
def LED_MODE_RED_MASK : Nat := 0x02

/-- The constant `LED_MODE_BLUE_MASK`. -/
def LED_MODE_BLUE_MASK : Nat := 0x04

/-- The constant `LED_MODE_OFF_MASK`. -/
def LED_MODE_OFF_MASK : Nat := 0x00

/-- The table `led_type_mode_data[]`. -/
def led_type_mode_data : List led_type_mode :=
  [ { type := LED_TYPE_PSU, type_mask := LED_TYPE_REG_MASK <<< 4,
      mode := LED_MODE_OFF, mode_mask := LED_MODE_OFF_MASK <<< 4 },
    { type := LED_TYPE_PSU, type_mask := LED_TYPE_REG_MASK <<< 4,
      mode := LED_MODE_GREEN, mode_mask := LED_MODE_GREEN_MASK <<< 4 },
    { type := LED_TYPE_PSU, type_mask := LED_TYPE_REG_MASK <<< 4,
      mode := LED_MODE_RED, mode_mask := LED_MODE_RED_MASK <<< 4 },
    { type := LED_TYPE_PSU, type_mask := LED_TYPE_REG_MASK <<< 4,
      mode := LED_MODE_BLUE, mode_mask := LED_MODE_BLUE_MASK <<< 4 },
    { type := LED_TYPE_FAN, type_mask := LED_TYPE_REG_MASK,
      mode := LED_MODE_OFF, mode_mask := LED_MODE_OFF_MASK },
    { type := LED_TYPE_FAN, type_mask := LED_TYPE_REG_MASK,
      mode := LED_MODE_GREEN, mode_mask := LED_MODE_GREEN_MASK },
    { type := LED_TYPE_FAN, type_mask := LED_TYPE_REG_MASK,
      mode := LED_MODE_RED, mode_mask := LED_MODE_RED_MASK },
    { type := LED_TYPE_FAN, type_mask := LED_TYPE_REG_MASK,
      mode := LED_MODE_BLUE, mode_mask := LED_MODE_BLUE_MASK },
    { type := LED_TYPE_RLS, type_mask := LED_TYPE_REG_MASK <<< 4,
      mode := LED_MODE_OFF, mode_mask := LED_MODE_OFF_MASK <<< 4 },
    { type := LED_TYPE_RLS, type_mask := LED_TYPE_REG_MASK <<< 4,
      mode := LED_MODE_GREEN, mode_mask := LED_MODE_GREEN_MASK <<< 4 },
    { type := LED_TYPE_RLS, type_mask := LED_TYPE_REG_MASK <<< 4,
      mode := LED_MODE_RED, mode_mask := LED_MODE_RED_MASK <<< 4 },
    { type := LED_TYPE_RLS, type_mask := LED_TYPE_REG_MASK <<< 4,
      mode := LED_MODE_BLUE, mode_mask := LED_MODE_BLUE_MASK <<< 4 },
    { type := LED_TYPE_DIAG, type_mask := LED_TYPE_REG_MASK,
      mode := LED_MODE_OFF, mode_mask := LED_MODE_OFF_MASK },
    { type := LED_TYPE_DIAG, type_mask := LED_TYPE_REG_MASK,
      mode := LED_MODE_GREEN, mode_mask := LED_MODE_GREEN_MASK },
    { type := LED_TYPE_DIAG, type_mask := LED_TYPE_REG_MASK,
      mode := LED_MODE_RED, mode_mask := LED_MODE_RED_MASK },
    { type := LED_TYPE_DIAG, type_mask := LED_TYPE_REG_MASK,
      mode := LED_MODE_BLUE, mode_mask := LED_MODE_BLUE_MASK } ]

/-- The loop of `led_reg_val_to_light_mode` over the rest of the table: the
mode of the first entry of the type with
`(type_mask & ~reg_val) == mode_mask`, else `LED_MODE_UNKNOWN`. -/
def led_reg_val_to_light_mode_loop (type : led_type) (reg_val : Nat) :
    List led_type_mode → led_light_mode
  | [] => LED_MODE_UNKNOWN
  | e :: rest =>
    if type ≠ e.type then led_reg_val_to_light_mode_loop type reg_val rest
    else if e.type_mask &&& int_not reg_val = e.mode_mask then e.mode
    else led_reg_val_to_light_mode_loop type reg_val rest

/-- Function `led_reg_val_to_light_mode(type, reg_val)`. -/
def led_reg_val_to_light_mode (type : led_type) (reg_val : Nat) : led_light_mode :=
  led_reg_val_to_light_mode_loop type reg_val led_type_mode_data

/-- The loop of `led_light_mode_to_reg_val` over the rest of the table: every
entry of the type and mode rewrites `reg_val` (a `u8`). -/
def led_light_mode_to_reg_val_loop (type : led_type) (mode : led_light_mode) :
    List led_type_mode → Nat → Nat
  | [], reg_val => reg_val
  | e :: rest, reg_val =>
    if type ≠ e.type then led_light_mode_to_reg_val_loop type mode rest reg_val
    else if mode ≠ e.mode then led_light_mode_to_reg_val_loop type mode rest reg_val
    else led_light_mode_to_reg_val_loop type mode rest
      (((int_not e.mode_mask &&& e.type_mask) ||| (reg_val &&& int_not e.type_mask)) % 256)

/-- Function `led_light_mode_to_reg_val(type, mode, reg_val)`. -/
def led_light_mode_to_reg_val (type : led_type) (mode : led_light_mode) (reg_val : Nat) : Nat :=
  led_light_mode_to_reg_val_loop type mode led_type_mode_data reg_val

/-! Auxiliary definitions used in the statements and proofs -/

/-- Write the values `vals` into the list at the consecutive indices
`i, i + 1, ...` (what a run of successful loop iterations does to `reg_val`). -/
def set_from : Nat → List Nat → List Nat → List Nat
  | _, [], l => l
  | i, v :: vs, l => set_from (i + 1) vs (l.set i v)

/-- The `u8` values of the `k` bus responses that follow the first `n`. -/
def read_values (bus : Nat → Resp) (n k : Nat) : List Nat :=
  (List.range k).map (fun j => ((bus (n + j)).status % 256).toNat)

/-- The byte reads of the registers `regs[i], ..., regs[i + k - 1]` on `client`. -/
def read_ops (client : i2c_client) (regs : List Nat) (i k : Nat) : List BusOp :=
  (List.range k).map (fun j => BusOp.read_byte client (regs.getD (i + j) 0))

/-- The common shape of the two refresh loops: read `regs[i]` on `client`,
leave at the first negative status, else store the byte at index `i`. -/
def reg_loop (bus : Nat → Resp) (client : i2c_client) (regs : List Nat) :
    Nat → Nat → List Nat → List BusOp → Bool × List Nat × List BusOp
  | 0, _, rv, log => (true, rv, log)
  | todo + 1, i, rv, log =>
    if (bus log.length).status < 0 then (false, rv, log ++ [BusOp.read_byte client (regs.getD i 0)])
    else reg_loop bus client regs todo (i + 1)
      (rv.set i ((bus log.length).status % 256).toNat)
      (log ++ [BusOp.read_byte client (regs.getD i 0)])

/-- The first node of the registry with the given address, if any. -/
def cpld_find : List i2c_client → Nat → Option i2c_client
  | [], _ => none
  | c :: rest, cpld_addr => if c.addr = cpld_addr then some c else cpld_find rest cpld_addr

/-- Some EEPROM read issued by `sfp_update_port_type` on `(data, log)` fails:
the device-identifier read at offset 0, or, on the SFP-MSA path after the
identifier `0x3`, the compliance read at offset 3. -/
abbrev classification_read_fails (bus : Nat → Resp) (data : sfp_port_data)
    (log : List BusOp) : Prop :=
  (sfp_eeprom_read bus log data.client 0 [0] 1).status < 0 ∨
  (data.driver_type = DRIVER_TYPE_SFP_MSA ∧
    0 ≤ (sfp_eeprom_read bus log data.client 0 [0] 1).status ∧
    (sfp_eeprom_read bus log data.client 0 [0] 1).data.headD 0 = 0x3 ∧
    (sfp_eeprom_read bus (sfp_eeprom_read bus log data.client 0 [0] 1).log data.client 3
      (sfp_eeprom_read bus log data.client 0 [0] 1).data 1).status < 0)

/-- One call that touches the QSFP status block of a port: a status refresh,
a `show` of a status attribute, or a store to a tx-disable attribute.  Each call
comes with the tick counter and the behaviour of the bus during it. -/
inductive qsfp_call where
  | refresh (HZ jiffies : Nat) (bus : Nat → Resp)
  | show_status (HZ jiffies : Nat) (bus : Nat → Resp) (cpld_client_list : List i2c_client)
      (attr : sfp_sysfs_attributes)
  | set_tx_disable (HZ jiffies : Nat) (bus : Nat → Resp) (cpld_client_list : List i2c_client)
      (attr : sfp_sysfs_attributes) (kstrtol_status disable : Int) (count : Nat)

/-- The attribute of a store is one of those `qsfp_set_tx_disable` is registered
for: `TX_DISABLE` and `TX_DISABLE1` to `TX_DISABLE4`. -/
def qsfp_call.registered : qsfp_call → Bool
  | qsfp_call.set_tx_disable _ _ _ _ attr _ _ _ =>
    decide (attr ∈ [TX_DISABLE, TX_DISABLE1, TX_DISABLE2, TX_DISABLE3, TX_DISABLE4])
  | _ => true

/-- The port record and the bus log after one call. -/
def qsfp_call.run (c : qsfp_call) (s : sfp_port_data × List BusOp) :
    sfp_port_data × List BusOp :=
  match c with
  | qsfp_call.refresh HZ jiffies bus => (qsfp_update_tx_rx_status HZ jiffies bus s.1 s.2).2
  | qsfp_call.show_status HZ jiffies bus cpld_client_list attr =>
    (qsfp_show_tx_rx_status HZ jiffies bus cpld_client_list s.1 s.2 attr).2
  | qsfp_call.set_tx_disable HZ jiffies bus cpld_client_list attr kstrtol_status disable count =>
    (qsfp_set_tx_disable HZ jiffies bus cpld_client_list s.1 s.2 attr kstrtol_status disable
      count).2

/-- The port record and the bus log after a sequence of calls. -/
def qsfp_run_calls (calls : List qsfp_call) (s : sfp_port_data × List BusOp) :
    sfp_port_data × List BusOp :=
  calls.foldl (fun s c => c.run s) s

/-! Concrete scenarios -/

/-- The fan board client of the scenarios. -/
def fanClient : i2c_client := { id := 1, addr := 0x66 }

/-- The CPLD at address `0x60` of the scenarios. -/
def cpld1Client : i2c_client := { id := 2, addr := 0x60 }

/-- The CPLD at address `0x62` of the scenarios. -/
def cpld2Client : i2c_client := { id := 3, addr := 0x62 }

/-- A valid fan cache last refreshed at tick 0. -/
def fanCacheOld : omp800_fc_fan_data :=
  { enable := 1, valid := 1, last_updated := 0, reg_val := [1, 2, 3, 4, 5, 6, 7, 8, 9, 10, 11] }

/-- A valid LED cache of a fabric card last refreshed at tick 0. -/
def ledCacheOld : accton_omp800_led_data :=
  { platform := omp800_platform.OMP800_FC, valid := 1, last_updated := 0,
    reg_val := [1, 2, 3, 4, 5] }

/-- A bus on which the k-th transaction returns `0x20 + k`. -/
def busAllGood : Nat → Resp := fun k => { status := 0x20 + (k : Int), data := [] }

/-- A bus whose second transaction fails with `-EIO` and whose other
transactions return `0x20 + k`. -/
def busSecondFails : Nat → Resp := fun k =>
  if k = 1 then { status := -5, data := [] } else { status := 0x20 + (k : Int), data := [] }

/-- A bus whose first transaction fails with `-EIO`. -/
def busFirstFails : Nat → Resp := fun k =>
  if k = 0 then { status := -5, data := [] } else { status := 0x20 + (k : Int), data := [] }

/-- The transceiver client (EEPROM at `0x50`) of the scenarios. -/
def sfpClient : i2c_client := { id := 4, addr := 0x50 }

/-- A QSFP port (CPLD index 0) whose status block has never been refreshed. -/
def qsfpPortFresh : sfp_port_data :=
  { driver_type := DRIVER_TYPE_QSFP, port := 0,
    port_type := OOM_DRIVER_PORT_TYPE_INVALID, present := 0,
    qsfp := { valid := 0, last_updated := 0, status := [0, 0, 0], device_id := 0 },
    client := sfpClient }

/-- A bus on which every block read delivers one byte, `0x35`. -/
def busBlockGood : Nat → Resp := fun _ => { status := 1, data := [0x35] }

/-- An SFP-MSA port (CPLD index 0). -/
def msaPort : sfp_port_data := { qsfpPortFresh with driver_type := DRIVER_TYPE_SFP_MSA }

/-- A QSFP port with CPLD index 16 and a stale presence bitmap. -/
def qsfpPort16 : sfp_port_data := { qsfpPortFresh with port := 16, present := 0xFFFF }

/-- A bus whose block reads deliver `0x3`, then `0x10`. -/
def busSfpPlus : Nat → Resp := fun k =>
  if k = 0 then { status := 1, data := [0x3] } else { status := 1, data := [0x10] }

/-- A bus whose first block read fails and whose second delivers `0xC`. -/
def busQsfpRetry : Nat → Resp := fun k =>
  if k = 0 then { status := -5, data := [] } else { status := 1, data := [0xC] }

/-- A bus whose block reads deliver the identifier `0x11` (QSFP28). -/
def busQsfp28 : Nat → Resp := fun _ => { status := 1, data := [0x11] }

/-- A bus whose two first transactions (the presence registers) return 0 and
whose later transactions all fail with `-EIO`. -/
def busPresentThenFail : Nat → Resp := fun k =>
  if k < 2 then { status := 0, data := [] } else { status := -5, data := [] }

/-- A bus on which every transaction fails with `-EIO`. -/
def busAllFail : Nat → Resp := fun _ => { status := -5, data := [] }

/-- A bus whose presence registers read `0x34` and `0x12`. -/
def busPresence1234 : Nat → Resp := fun k =>
  if k = 0 then { status := 0x34, data := [] } else { status := 0x12, data := [] }

/-- A bus whose presence registers read `0x01` and `0x00`. -/
def busPresence0001 : Nat → Resp := fun k =>
  if k = 0 then { status := 0x01, data := [] } else { status := 0x00, data := [] }

/-- A QSFP port with CPLD index 5. -/
def qsfpPort5 : sfp_port_data := { qsfpPortFresh with port := 5 }

/-- A QSFP port (CPLD index 0) holding an earlier classification and a valid
status block. -/
def qsfpPortCached : sfp_port_data :=
  { qsfpPortFresh with
    port_type := OOM_DRIVER_PORT_TYPE_QSFP_PLUS,
    qsfp := { valid := 1, last_updated := 900, status := [1, 2, 4], device_id := 0 } }

/-- A bus whose presence registers read `0x01` and `0x00` (port 0 absent) and
whose later transactions would all succeed. -/
def busAbsent : Nat → Resp := fun k =>
  if k = 0 then { status := 0x01, data := [] } else { status := 0x00, data := [0x35] }

/-- A bus on which every transaction returns 0 (a block read delivers no
byte, a write succeeds). -/
def busZero : Nat → Resp := fun _ => { status := 0, data := [] }

/-- A bus whose two first transactions fail with `-EIO` and `-ENXIO` and whose
later transactions return 1 with the byte `0x35`. -/
def busTwoFailures : Nat → Resp := fun k =>
  if k = 0 then { status := -5, data := [] }
  else if k = 1 then { status := -6, data := [] }
  else { status := 1, data := [0x35] }

/-- A bus whose transactions fail with the errnos `-5`, `-6`, `-7`, ... in turn. -/
def busFailCounting : Nat → Resp := fun k => { status := -5 - (k : Int), data := [] }

/-- A bus whose presence registers read 0 (every port present) and whose later
transactions return 1 with the byte `0x30` (low nibble 0). -/
def busPresentNibbleZero : Nat → Resp := fun k =>
  if k < 2 then { status := 0, data := [] } else { status := 1, data := [0x30] }

/-- A transport that returns in full the ten chunks of a 300-byte read: nine
of 32 bytes, then one of 12. -/
def busFull300 : Nat → Resp := fun k =>
  if k < 9 then { status := 32, data := List.replicate 32 0xAB }
  else { status := 12, data := List.replicate 12 0xAB }

/-- A transport that returns in full the four chunks of a 100-byte read: three
of 32 bytes, then one of 4. -/
def busFull100 : Nat → Resp := fun k =>
  if k < 3 then { status := 32, data := List.replicate 32 0xAB }
  else { status := 4, data := List.replicate 4 0xAB }

/-- A transport for reads that returns two chunks of 32 bytes in full and then
fails every attempt with `-ENXIO`. -/
def busReadThirdFails : Nat → Resp := fun k =>
  if k < 2 then { status := 32, data := List.replicate 32 0xAB }
  else { status := -6, data := [] }

/-- A second endpoint that claims the address `0x60`. -/
def cpld1Twin : i2c_client := { id := 9, addr := 0x60 }

/-- A bus whose presence registers read 0 (every port present), whose three
next transactions (the latch pass) deliver the byte `0xFF`, and whose later
transactions deliver `0x01` (EEPROM address 4, tx-fault), `0x02` (address 86,
tx-disable) and `0x04` (address 3, rx-loss). -/
def busQsfpStatus : Nat → Resp := fun k =>
  if k < 2 then { status := 0, data := [] }
  else if k < 5 then { status := 1, data := [0xFF] }
  else if k = 5 then { status := 1, data := [0x01] }
  else if k = 6 then { status := 1, data := [0x02] }
  else { status := 1, data := [0x04] }

/-- A sequence of calls on a port: a refresh that succeeds, a refresh that
fails, a refresh that succeeds, a store that disables all lanes, a store that
enables lane 3 and a `show`. -/
def qsfpCalls : List qsfp_call :=
  [qsfp_call.refresh 100 1000 busBlockGood,
   qsfp_call.refresh 100 5000 busAllFail,
   qsfp_call.refresh 100 9000 busBlockGood,
   qsfp_call.set_tx_disable 100 9010 busZero [cpld2Client] TX_DISABLE 0 1 2,
   qsfp_call.set_tx_disable 100 9020 busZero [cpld2Client] TX_DISABLE3 0 0 2,
   qsfp_call.show_status 100 9030 busZero [cpld2Client] RX_LOS]

/-- A bus whose presence registers read 0 (every port present) and whose later
transactions return 1 with the byte `0x05` (lanes 1 and 3 set). -/
def busPresentNibbleFive : Nat → Resp := fun k =>
  if k < 2 then { status := 0, data := [] } else { status := 1, data := [0x05] }

/-- A QSFP port (CPLD index 0) whose status block is valid, all zero and was
last refreshed at tick 0. -/
def qsfpPortZeroValid : sfp_port_data :=
  { qsfpPortFresh with
    qsfp := { valid := 1, last_updated := 0, status := [0, 0, 0], device_id := 0 } }

/-- A bus whose first transaction fails with `-EIO`, whose three next
transactions (the retry and the rest of the latch pass) deliver the byte
`0xFF`, and whose later transactions deliver `0x01`, `0x02` and `0x04`. -/
def busQsfpStatusRetry : Nat → Resp := fun k =>
  if k = 0 then { status := -5, data := [] }
  else if k < 4 then { status := 1, data := [0xFF] }
  else if k = 4 then { status := 1, data := [0x01] }
  else if k = 5 then { status := 1, data := [0x02] }
  else { status := 1, data := [0x04] }

/-! Lemmas -/

theorem set_from_eq (vals : List Nat) : ∀ (i : Nat) (l : List Nat), i + vals.length ≤ l.length →
    set_from i vals l = l.take i ++ vals ++ l.drop (i + vals.length) := by
  induction vals with
  | nil => intro i l _; simp [set_from]
  | cons v vs ih =>
    intro i l h
    simp only [List.length_cons] at h
    have hi : i < l.length := by omega
    rw [set_from, ih (i + 1) (l.set i v) (by simp; omega)]
    have e1 : List.take (i + 1) (l.set i v) = List.take i l ++ [v] := by
      rw [List.take_succ, List.set_take, List.set_eq_of_length_le (by simp)]
      simp [hi]
    have e2 : List.drop (i + 1 + vs.length) (l.set i v) = List.drop (i + (vs.length + 1)) l := by
      rw [List.drop_set_of_lt v l (by omega)]
      congr 1
      omega
    rw [e1, e2]
    simp

theorem set_from_zero (vals l : List Nat) (h : vals.length ≤ l.length) :
    set_from 0 vals l = vals ++ l.drop vals.length := by
  rw [set_from_eq vals 0 l (by omega)]
  simp

theorem read_values_succ (bus : Nat → Resp) (n k : Nat) :
    read_values bus n (k + 1) = ((bus n).status % 256).toNat :: read_values bus (n + 1) k := by
  simp only [read_values, List.range_succ_eq_map, List.map_cons, List.map_map, Nat.add_zero]
  congr 1
  apply List.map_congr_left
  intro j _
  simp only [Function.comp, Nat.succ_eq_add_one]
  rw [show n + (j + 1) = n + 1 + j by omega]

theorem read_ops_succ (client : i2c_client) (regs : List Nat) (i k : Nat) :
    read_ops client regs i (k + 1)
      = BusOp.read_byte client (regs.getD i 0) :: read_ops client regs (i + 1) k := by
  simp only [read_ops, List.range_succ_eq_map, List.map_cons, List.map_map, Nat.add_zero]
  congr 1
  apply List.map_congr_left
  intro j _
  simp only [Function.comp, Nat.succ_eq_add_one]
  rw [show i + (j + 1) = i + 1 + j by omega]

/-- A run of `k` good reads followed by a failing one. -/
theorem reg_loop_fail (bus : Nat → Resp) (client : i2c_client) (regs : List Nat) :
    ∀ (k todo i : Nat) (rv : List Nat) (log : List BusOp), k < todo →
      (∀ j, j < k → 0 ≤ (bus (log.length + j)).status) →
      (bus (log.length + k)).status < 0 →
      reg_loop bus client regs todo i rv log
        = (false, set_from i (read_values bus log.length k) rv,
            log ++ read_ops client regs i (k + 1)) := by
  intro k
  induction k with
  | zero =>
    intro todo i rv log hk _ hfail
    obtain ⟨t, rfl⟩ : ∃ t, todo = t + 1 := ⟨todo - 1, by omega⟩
    simp only [Nat.add_zero] at hfail
    rw [show (0 : Nat) + 1 = 0 + 1 from rfl, read_ops_succ]
    simp [reg_loop, hfail, read_values, set_from, read_ops]
  | succ k ih =>
    intro todo i rv log hk hok hfail
    obtain ⟨t, rfl⟩ : ∃ t, todo = t + 1 := ⟨todo - 1, by omega⟩
    have h0 : ¬ (bus log.length).status < 0 := by
      have := hok 0 (by omega)
      simp only [Nat.add_zero] at this
      omega
    rw [reg_loop, if_neg h0]
    rw [ih t (i + 1) _ _ (by omega)
      (by
        intro j hj
        have := hok (j + 1) (by omega)
        simpa [Nat.add_assoc, Nat.add_comm 1 j] using this)
      (by simpa [Nat.add_assoc, Nat.add_comm 1 k] using hfail)]
    rw [read_values_succ, read_ops_succ client regs i (k + 1)]
    simp [set_from]

/-- A run of good reads to the end of the loop. -/
theorem reg_loop_ok (bus : Nat → Resp) (client : i2c_client) (regs : List Nat) :
    ∀ (todo i : Nat) (rv : List Nat) (log : List BusOp),
      (∀ j, j < todo → 0 ≤ (bus (log.length + j)).status) →
      reg_loop bus client regs todo i rv log
        = (true, set_from i (read_values bus log.length todo) rv,
            log ++ read_ops client regs i todo) := by
  intro todo
  induction todo with
  | zero =>
    intro i rv log _
    simp [reg_loop, read_values, set_from, read_ops]
  | succ t ih =>
    intro i rv log hok
    have h0 : ¬ (bus log.length).status < 0 := by
      have := hok 0 (by omega)
      simp only [Nat.add_zero] at this
      omega
    rw [reg_loop, if_neg h0]
    rw [ih (i + 1) _ _
      (by
        intro j hj
        have := hok (j + 1) (by omega)
        simpa [Nat.add_assoc, Nat.add_comm 1 j] using this)]
    rw [read_values_succ, read_ops_succ client regs i t]
    simp [set_from]

theorem fan_update_loop_eq (bus : Nat → Resp) (client : i2c_client) :
    ∀ (todo i : Nat) (data : omp800_fc_fan_data) (log : List BusOp),
      fan_update_loop bus client todo i data log
        = ((reg_loop bus client fan_reg todo i data.reg_val log).1,
           { data with reg_val := (reg_loop bus client fan_reg todo i data.reg_val log).2.1 },
           (reg_loop bus client fan_reg todo i data.reg_val log).2.2) := by
  intro todo
  induction todo with
  | zero => intro i data log; simp [fan_update_loop, reg_loop]
  | succ t ih =>
    intro i data log
    rw [fan_update_loop, reg_loop]
    simp only [omp800_fc_fan_read_value, i2c_smbus_read_byte_data]
    by_cases h : (bus log.length).status < 0
    · simp [h]
    · simp only [h, if_false]
      rw [ih]

theorem omp800_cpld_read_eq (bus : Nat → Resp) (log : List BusOp) (reg : Nat) :
    ∀ (l : List i2c_client) (cpld_addr : Nat),
      omp800_cpld_read bus log l cpld_addr reg
        = match cpld_find l cpld_addr with
          | some c => i2c_smbus_read_byte_data bus log c reg
          | none => (-EPERM, log) := by
  intro l
  induction l with
  | nil => intro a; simp [omp800_cpld_read, cpld_find]
  | cons c rest ih =>
    intro a
    rw [omp800_cpld_read, cpld_find]
    by_cases h : c.addr = a
    · simp [h]
    · simp only [h, if_false]
      exact ih a

theorem led_update_loop_eq (bus : Nat → Resp) (cpld_client_list : List i2c_client)
    (c : i2c_client) (hc : cpld_find cpld_client_list 0x60 = some c) :
    ∀ (todo i : Nat) (ledctl : accton_omp800_led_data) (log : List BusOp),
      led_update_loop bus cpld_client_list todo i ledctl log
        = ((reg_loop bus c led_reg todo i ledctl.reg_val log).1,
           { ledctl with reg_val := (reg_loop bus c led_reg todo i ledctl.reg_val log).2.1 },
           (reg_loop bus c led_reg todo i ledctl.reg_val log).2.2) := by
  intro todo
  induction todo with
  | zero => intro i ledctl log; simp [led_update_loop, reg_loop]
  | succ t ih =>
    intro i ledctl log
    rw [led_update_loop, reg_loop]
    simp only [accton_omp800_led_read_value, omp800_cpld_read_eq, hc, i2c_smbus_read_byte_data]
    by_cases h : (bus log.length).status < 0
    · simp [h]
    · simp only [h, if_false]
      rw [ih]

theorem time_after_iff (a b : Nat) :
    time_after a b = true ↔ 2 ^ 63 ≤ (b % 2 ^ 64 + 2 ^ 64 - a % 2 ^ 64) % 2 ^ 64 := by
  unfold time_after to_long ulong BITS_PER_LONG
  simp only [decide_eq_true_eq]
  norm_num
  split_ifs with h
  · constructor
    · intro h'; omega
    · intro h'; omega
  · constructor
    · intro _; omega
    · intro _; omega

/-- More than a window, and at most a window plus `2 ^ 63` ticks, after `t1`:
the deadline has passed. -/
theorem time_after_of_gap (HZ t1 t2 : Nat) (h1 : t1 + (HZ + HZ / 2) < t2)
    (h2 : t2 ≤ t1 + (HZ + HZ / 2) + 2 ^ 63) :
    time_after (ulong t2) (ulong (ulong t1 + HZ + HZ / 2)) = true := by
  rw [time_after_iff]
  unfold ulong BITS_PER_LONG
  norm_num at *
  omega

/-- At most a window after `t1`: the deadline has not passed. -/
theorem time_after_of_near (HZ t1 t2 : Nat) (h1 : t1 ≤ t2) (h2 : t2 ≤ t1 + (HZ + HZ / 2))
    (h3 : HZ + HZ / 2 ≤ 2 ^ 63) :
    time_after (ulong t2) (ulong (ulong t1 + HZ + HZ / 2)) = false := by
  rw [Bool.eq_false_iff, Ne, time_after_iff]
  unfold ulong BITS_PER_LONG
  norm_num at *
  omega

/-- Less than a window after `t1`: the tick counter is before the deadline. -/
theorem time_before_of_near (HZ t1 t2 : Nat) (h1 : t1 ≤ t2) (h2 : t2 < t1 + (HZ + HZ / 2))
    (h3 : HZ + HZ / 2 ≤ 2 ^ 63) :
    time_before (ulong t2) (ulong (ulong t1 + HZ + HZ / 2)) = true := by
  unfold time_before
  rw [time_after_iff]
  unfold ulong BITS_PER_LONG
  norm_num at *
  omega

/-- The fan refresh, once it is due on an enabled board, in terms of `reg_loop`. -/
theorem fan_update_due (HZ jiffies : Nat) (bus : Nat → Resp) (client : i2c_client)
    (data : omp800_fc_fan_data) (log : List BusOp) (henable : data.enable ≠ 0)
    (hdue : time_after jiffies (ulong (data.last_updated + HZ + HZ / 2)) = true ∨ data.valid = 0) :
    omp800_fc_fan_update_device HZ jiffies bus client data log
      = if (reg_loop bus client fan_reg fan_reg.length 0 data.reg_val log).1 = true then
          ({ data with
             valid := 1, last_updated := jiffies,
             reg_val := (reg_loop bus client fan_reg fan_reg.length 0 data.reg_val log).2.1 },
           (reg_loop bus client fan_reg fan_reg.length 0 data.reg_val log).2.2)
        else
          ({ data with
             valid := 0,
             reg_val := (reg_loop bus client fan_reg fan_reg.length 0 data.reg_val log).2.1 },
           (reg_loop bus client fan_reg fan_reg.length 0 data.reg_val log).2.2) := by
  have hc : (time_after jiffies (ulong (data.last_updated + HZ + HZ / 2)) || data.valid == 0)
      = true := by
    rcases hdue with h | h
    · simp [h]
    · simp [h]
  unfold omp800_fc_fan_update_device
  rw [if_neg henable, if_pos hc, fan_update_loop_eq]
  cases hb : (reg_loop bus client fan_reg fan_reg.length 0 data.reg_val log).1 <;> simp

/-- The LED refresh, once it is due, when the registry has a node at `0x60`. -/
theorem led_update_due (HZ jiffies : Nat) (bus : Nat → Resp) (cpld_client_list : List i2c_client)
    (c : i2c_client) (hc : cpld_find cpld_client_list 0x60 = some c)
    (ledctl : accton_omp800_led_data) (log : List BusOp)
    (hdue : time_after jiffies (ulong (ledctl.last_updated + HZ + HZ / 2)) = true
      ∨ ledctl.valid = 0) :
    accton_omp800_led_update HZ jiffies bus cpld_client_list ledctl log
      = if (reg_loop bus c led_reg (if ledctl.platform = omp800_platform.OMP800_FC then 5 else 4)
              0 ledctl.reg_val log).1 = true then
          ({ ledctl with
             valid := 1, last_updated := jiffies,
             reg_val := (reg_loop bus c led_reg
               (if ledctl.platform = omp800_platform.OMP800_FC then 5 else 4)
               0 ledctl.reg_val log).2.1 },
           (reg_loop bus c led_reg (if ledctl.platform = omp800_platform.OMP800_FC then 5 else 4)
               0 ledctl.reg_val log).2.2)
        else
          ({ ledctl with
             valid := 0,
             reg_val := (reg_loop bus c led_reg
               (if ledctl.platform = omp800_platform.OMP800_FC then 5 else 4)
               0 ledctl.reg_val log).2.1 },
           (reg_loop bus c led_reg (if ledctl.platform = omp800_platform.OMP800_FC then 5 else 4)
               0 ledctl.reg_val log).2.2) := by
  have hd : (time_after jiffies (ulong (ledctl.last_updated + HZ + HZ / 2)) || ledctl.valid == 0)
      = true := by
    rcases hdue with h | h
    · simp [h]
    · simp [h]
  unfold accton_omp800_led_update
  rw [if_pos hd]
  simp only [led_update_loop_eq bus cpld_client_list c hc]
  cases hb : (reg_loop bus c led_reg (if ledctl.platform = omp800_platform.OMP800_FC then 5 else 4)
    0 ledctl.reg_val log).1 <;> simp

/-- The LED refresh, once it is due, when the registry has no node at `0x60`:
the first read fails without a transaction. -/
theorem led_update_due_unregistered (HZ jiffies : Nat) (bus : Nat → Resp)
    (cpld_client_list : List i2c_client) (hc : cpld_find cpld_client_list 0x60 = none)
    (ledctl : accton_omp800_led_data) (log : List BusOp)
    (hdue : time_after jiffies (ulong (ledctl.last_updated + HZ + HZ / 2)) = true
      ∨ ledctl.valid = 0) :
    accton_omp800_led_update HZ jiffies bus cpld_client_list ledctl log
      = ({ ledctl with valid := 0 }, log) := by
  have hd : (time_after jiffies (ulong (ledctl.last_updated + HZ + HZ / 2)) || ledctl.valid == 0)
      = true := by
    rcases hdue with h | h
    · simp [h]
    · simp [h]
  unfold accton_omp800_led_update
  rw [if_pos hd]
  by_cases hp : ledctl.platform = omp800_platform.OMP800_FC
  · simp [hp, led_update_loop, accton_omp800_led_read_value, omp800_cpld_read_eq, hc, EPERM]
  · simp [hp, led_update_loop, accton_omp800_led_read_value, omp800_cpld_read_eq, hc, EPERM]

theorem read_values_length (bus : Nat → Resp) (n k : Nat) :
    (read_values bus n k).length = k := by
  simp [read_values]

theorem read_ops_fan (client : i2c_client) (n : Nat) (hn : n ≤ fan_reg.length) :
    read_ops client fan_reg 0 n = (fan_reg.take n).map (BusOp.read_byte client) := by
  have h : n ≤ 11 := hn
  interval_cases n <;> rfl

theorem read_values_get (bus : Nat → Resp) (n k i : Nat) (hi : i < k) :
    (read_values bus n k)[i]? = some ((bus (n + i)).status % 256).toNat := by
  simp [read_values, List.getElem?_range hi]

/-- A performed fan refresh that ends with `valid` set has stamped the cache. -/
theorem fan_update_success_fields (HZ jiffies : Nat) (bus : Nat → Resp) (client : i2c_client)
    (data : omp800_fc_fan_data) (log : List BusOp) (henable : data.enable ≠ 0)
    (hdue : time_after jiffies (ulong (data.last_updated + HZ + HZ / 2)) = true ∨ data.valid = 0)
    (hvalid : (omp800_fc_fan_update_device HZ jiffies bus client data log).1.valid ≠ 0) :
    (omp800_fc_fan_update_device HZ jiffies bus client data log).1.valid = 1 ∧
    (omp800_fc_fan_update_device HZ jiffies bus client data log).1.last_updated = jiffies := by
  rw [fan_update_due HZ jiffies bus client data log henable hdue] at hvalid ⊢
  by_cases hb : (reg_loop bus client fan_reg fan_reg.length 0 data.reg_val log).1 = true
  · simp [hb]
  · simp [hb] at hvalid

/-- A performed QSFP status refresh that returns `data` has stamped the block. -/
theorem qsfp_update_success_fields (HZ jiffies : Nat) (bus : Nat → Resp) (data : sfp_port_data)
    (log : List BusOp)
    (hdue : (time_before jiffies (ulong (data.qsfp.last_updated + HZ + HZ / 2))
      && data.qsfp.valid != 0) = false)
    (hok : (qsfp_update_tx_rx_status HZ jiffies bus data log).1 = none) :
    (qsfp_update_tx_rx_status HZ jiffies bus data log).2.1.qsfp.valid = 1 ∧
    (qsfp_update_tx_rx_status HZ jiffies bus data log).2.1.qsfp.last_updated = jiffies := by
  unfold qsfp_update_tx_rx_status at hok ⊢
  rw [hdue] at hok ⊢
  simp only [Bool.false_eq_true, if_false] at hok ⊢
  split_ifs at hok ⊢ with h1 h2
  exact ⟨rfl, rfl⟩

/-- The transactions of the retry loop: at most `retry` attempts of one and
the same block read, at least one when `retry` is not 0. -/
theorem sfp_eeprom_read_loop_log (bus : Nat → Resp) (client : i2c_client) (command : Nat)
    (data_len : Int) :
    ∀ (retry : Nat) (status : Int) (data : List Nat) (log : List BusOp),
      ∃ n, n ≤ retry ∧ (retry ≠ 0 → 1 ≤ n) ∧
        (sfp_eeprom_read_loop bus client command data_len retry status data log).log
          = log ++ List.replicate n (BusOp.read_block client command (data_len % 256).toNat) := by
  intro retry
  induction retry with
  | zero =>
    intro status data log
    exact ⟨0, Nat.le_refl _, by simp, by simp [sfp_eeprom_read_loop]⟩
  | succ r ih =>
    intro status data log
    rw [sfp_eeprom_read_loop]
    by_cases h : (bus log.length).status < 0
    · obtain ⟨n, hn, _, hlog⟩ := ih (bus log.length).status data
        (log ++ [BusOp.read_block client command (data_len % 256).toNat])
      refine ⟨n + 1, by omega, by omega, ?_⟩
      simp only [i2c_smbus_read_i2c_block_data, h, if_true]
      rw [hlog, List.replicate_succ]
      simp
    · refine ⟨1, by omega, by omega, ?_⟩
      simp [i2c_smbus_read_i2c_block_data, h]

/-- The transactions of one single-byte `sfp_eeprom_read`: between 1 and
`I2C_RW_RETRY_COUNT` attempts of the one-byte block read at `command`. -/
theorem sfp_eeprom_read_log (bus : Nat → Resp) (log : List BusOp) (client : i2c_client)
    (command : Nat) (data : List Nat) :
    ∃ n, 1 ≤ n ∧ n ≤ 3 ∧
      (sfp_eeprom_read bus log client command data 1).log
        = log ++ List.replicate n (BusOp.read_block client command 1) := by
  obtain ⟨n, hn, h1, hlog⟩ := sfp_eeprom_read_loop_log bus client command 1 3 0 data log
  refine ⟨n, h1 (by omega), hn, ?_⟩
  have hl : ((1 : Int) % 256).toNat = 1 := by decide
  rw [hl] at hlog
  unfold sfp_eeprom_read
  simp only [I2C_SMBUS_BLOCK_MAX, I2C_RW_RETRY_COUNT, show ¬ ((1 : Int) > 32) by decide, if_false]
  split_ifs <;> exact hlog

/-- The presence refresh leaves the driver type, the port index, the port
type and the client of the record alone. -/
theorem sfp_is_port_present_frame (bus : Nat → Resp) (cpld_client_list : List i2c_client)
    (data : sfp_port_data) (log : List BusOp) (port : Nat) :
    (sfp_is_port_present bus cpld_client_list data log port).2.1.driver_type = data.driver_type ∧
    (sfp_is_port_present bus cpld_client_list data log port).2.1.client = data.client ∧
    (sfp_is_port_present bus cpld_client_list data log port).2.1.port = data.port ∧
    (sfp_is_port_present bus cpld_client_list data log port).2.1.port_type = data.port_type := by
  unfold sfp_is_port_present sfp_update_present
  simp only [sfp_update_present_loop]
  split_ifs <;> simp

/-- A failing EEPROM read makes `sfp_update_port_type` store `Invalid`. -/
theorem sfp_update_port_type_invalid (bus : Nat → Resp) (data : sfp_port_data)
    (log : List BusOp)
    (hdrv : data.driver_type = DRIVER_TYPE_SFP_MSA ∨ data.driver_type = DRIVER_TYPE_QSFP)
    (hfail : classification_read_fails bus data log) :
    (sfp_update_port_type bus data log).1.port_type = OOM_DRIVER_PORT_TYPE_INVALID := by
  unfold sfp_update_port_type
  rcases hdrv with hd | hd
  · simp only [hd, SFF8024_PHYSICAL_DEVICE_ID_ADDR, SFF8024_DEVICE_ID_SFP,
      SFF8472_10G_ETH_COMPLIANCE_ADDR]
    rcases hfail with h | ⟨_, h1, h2, h3⟩
    · rw [if_pos h]
    · rw [if_neg (by omega), if_neg (by rw [h2]; simp), if_pos h3]
  · simp only [hd, SFF8024_PHYSICAL_DEVICE_ID_ADDR]
    rcases hfail with h | ⟨hm, _⟩
    · rw [if_pos h]
    · rw [hd] at hm
      cases hm

/-! The claims -/

/-- C1 (as stated, refuted): a refresh whose second read fails leaves `valid`
at 0 but has already overwritten the first cached register, in the fan group
and in the LED group alike. -/
theorem refresh_failure_changes_cache :
    (omp800_fc_fan_update_device 100 1000 busSecondFails fanClient fanCacheOld []).1.valid = 0 ∧
    (omp800_fc_fan_update_device 100 1000 busSecondFails fanClient fanCacheOld []).1.reg_val
      = [0x20, 2, 3, 4, 5, 6, 7, 8, 9, 10, 11] ∧
    (omp800_fc_fan_update_device 100 1000 busSecondFails fanClient fanCacheOld []).1.reg_val
      ≠ fanCacheOld.reg_val ∧
    (accton_omp800_led_update 100 1000 busSecondFails [cpld1Client] ledCacheOld []).1.valid = 0 ∧
    (accton_omp800_led_update 100 1000 busSecondFails [cpld1Client] ledCacheOld []).1.reg_val
      ≠ ledCacheOld.reg_val := by
  decide

/-- C1 (amended): when a refresh of the fan group (enabled board) or of the LED
group is performed and the first failing register read is the one of index `k`,
then afterwards `valid` is 0, `last_updated` is unchanged, the registers of
index `k` and above keep their values, and the registers below `k` hold the
low 8 bits of the values just read. -/
theorem refresh_failure_keeps_tail
    (HZ jiffies : Nat) (bus : Nat → Resp) (client : i2c_client)
    (data : omp800_fc_fan_data) (log : List BusOp) (k : Nat)
    (busL : Nat → Resp) (cpld_client_list : List i2c_client)
    (ledctl : accton_omp800_led_data) (logL : List BusOp) (kL : Nat)
    (henable : data.enable ≠ 0)
    (hdue : time_after jiffies (ulong (data.last_updated + HZ + HZ / 2)) = true ∨ data.valid = 0)
    (hlen : data.reg_val.length = fan_reg.length)
    (hk : k < fan_reg.length)
    (hok : ∀ j, j < k → 0 ≤ (bus (log.length + j)).status)
    (hfail : (bus (log.length + k)).status < 0)
    (hdueL : time_after jiffies (ulong (ledctl.last_updated + HZ + HZ / 2)) = true
      ∨ ledctl.valid = 0)
    (hlenL : ledctl.reg_val.length = led_reg.length)
    (hkL : kL < (if ledctl.platform = omp800_platform.OMP800_FC then 5 else 4))
    (hfirstL : (cpld_find cpld_client_list 0x60 = none ∧ kL = 0) ∨
      (∃ c, cpld_find cpld_client_list 0x60 = some c ∧
        (∀ j, j < kL → 0 ≤ (busL (logL.length + j)).status) ∧
        (busL (logL.length + kL)).status < 0)) :
    ((omp800_fc_fan_update_device HZ jiffies bus client data log).1.valid = 0 ∧
      (omp800_fc_fan_update_device HZ jiffies bus client data log).1.last_updated
        = data.last_updated ∧
      (omp800_fc_fan_update_device HZ jiffies bus client data log).1.reg_val
        = read_values bus log.length k ++ data.reg_val.drop k) ∧
    ((accton_omp800_led_update HZ jiffies busL cpld_client_list ledctl logL).1.valid = 0 ∧
      (accton_omp800_led_update HZ jiffies busL cpld_client_list ledctl logL).1.last_updated
        = ledctl.last_updated ∧
      (accton_omp800_led_update HZ jiffies busL cpld_client_list ledctl logL).1.reg_val
        = read_values busL logL.length kL ++ ledctl.reg_val.drop kL) := by
  constructor
  · rw [fan_update_due HZ jiffies bus client data log henable hdue,
      reg_loop_fail bus client fan_reg k fan_reg.length 0 data.reg_val log hk hok hfail]
    simp only [Bool.false_eq_true, if_false, true_and]
    rw [set_from_zero _ _ (by rw [read_values_length]; omega), read_values_length]
  · rcases hfirstL with ⟨hnone, rfl⟩ | ⟨c, hc, hokL, hfailL⟩
    · rw [led_update_due_unregistered HZ jiffies busL cpld_client_list hnone ledctl logL hdueL]
      simp [read_values]
    · have hkL5 : kL < 5 := by
        split_ifs at hkL <;> omega
      have hl5 : ledctl.reg_val.length = 5 := hlenL
      rw [led_update_due HZ jiffies busL cpld_client_list c hc ledctl logL hdueL,
        reg_loop_fail busL c led_reg kL _ 0 ledctl.reg_val logL hkL hokL hfailL]
      simp only [Bool.false_eq_true, if_false, true_and]
      rw [set_from_zero _ _ (by rw [read_values_length]; omega), read_values_length]

/-- C1 (amended), at a concrete input: the second read fails (`k = 1`) in both
groups. -/
theorem refresh_failure_keeps_tail_witness :
    ((omp800_fc_fan_update_device 100 1000 busSecondFails fanClient fanCacheOld []).1.valid = 0 ∧
      (omp800_fc_fan_update_device 100 1000 busSecondFails fanClient fanCacheOld []).1.last_updated
        = fanCacheOld.last_updated ∧
      (omp800_fc_fan_update_device 100 1000 busSecondFails fanClient fanCacheOld []).1.reg_val
        = read_values busSecondFails 0 1 ++ fanCacheOld.reg_val.drop 1) ∧
    ((accton_omp800_led_update 100 1000 busSecondFails [cpld1Client] ledCacheOld []).1.valid = 0 ∧
      (accton_omp800_led_update 100 1000 busSecondFails [cpld1Client] ledCacheOld []).1.last_updated
        = ledCacheOld.last_updated ∧
      (accton_omp800_led_update 100 1000 busSecondFails [cpld1Client] ledCacheOld []).1.reg_val
        = read_values busSecondFails 0 1 ++ ledCacheOld.reg_val.drop 1) :=
  refresh_failure_keeps_tail 100 1000 busSecondFails fanClient fanCacheOld [] 1
    busSecondFails [cpld1Client] ledCacheOld [] 1
    (by decide) (by decide) (by decide) (by decide) (by decide) (by decide)
    (by decide) (by decide) (by decide)
    (Or.inr ⟨cpld1Client, by decide, by decide, by decide⟩)

/-- C2: with window `HZ + HZ / 2`, a refresh call at `t2`, less than a window
after a performed and successful refresh at `t1 < t2`, issues no bus
transaction and returns the cache exactly as the refresh at `t1` left it, for
the fan group and for the QSFP status block. -/
theorem refresh_within_window_unchanged
    (HZ t1 t2 : Nat) (bus1 bus2 : Nat → Resp) (client : i2c_client)
    (data0 : omp800_fc_fan_data) (log0 : List BusOp)
    (busQ1 busQ2 : Nat → Resp) (port0 : sfp_port_data) (logQ0 : List BusOp)
    (hlt : t1 < t2) (hwin : t2 - t1 < HZ + HZ / 2) (hHZ : HZ + HZ / 2 ≤ 2 ^ 63)
    (henable : data0.enable ≠ 0)
    (hdue : time_after (ulong t1) (ulong (data0.last_updated + HZ + HZ / 2)) = true
      ∨ data0.valid = 0)
    (hvalid : (omp800_fc_fan_update_device HZ (ulong t1) bus1 client data0 log0).1.valid ≠ 0)
    (hdueQ : (time_before (ulong t1) (ulong (port0.qsfp.last_updated + HZ + HZ / 2))
      && port0.qsfp.valid != 0) = false)
    (hokQ : (qsfp_update_tx_rx_status HZ (ulong t1) busQ1 port0 logQ0).1 = none) :
    omp800_fc_fan_update_device HZ (ulong t2) bus2 client
        (omp800_fc_fan_update_device HZ (ulong t1) bus1 client data0 log0).1
        (omp800_fc_fan_update_device HZ (ulong t1) bus1 client data0 log0).2
      = omp800_fc_fan_update_device HZ (ulong t1) bus1 client data0 log0 ∧
    qsfp_update_tx_rx_status HZ (ulong t2) busQ2
        (qsfp_update_tx_rx_status HZ (ulong t1) busQ1 port0 logQ0).2.1
        (qsfp_update_tx_rx_status HZ (ulong t1) busQ1 port0 logQ0).2.2
      = (none, (qsfp_update_tx_rx_status HZ (ulong t1) busQ1 port0 logQ0).2.1,
          (qsfp_update_tx_rx_status HZ (ulong t1) busQ1 port0 logQ0).2.2) := by
  constructor
  · obtain ⟨hv, hl⟩ := fan_update_success_fields HZ (ulong t1) bus1 client data0 log0
      henable hdue hvalid
    generalize omp800_fc_fan_update_device HZ (ulong t1) bus1 client data0 log0 = r1 at hv hl ⊢
    have hta := time_after_of_near HZ t1 t2 (by omega) (by omega) hHZ
    unfold omp800_fc_fan_update_device
    by_cases he : r1.1.enable = 0
    · simp [he]
    · simp [he, hl, hta, hv]
  · obtain ⟨hv, hl⟩ := qsfp_update_success_fields HZ (ulong t1) busQ1 port0 logQ0 hdueQ hokQ
    generalize qsfp_update_tx_rx_status HZ (ulong t1) busQ1 port0 logQ0 = r1 at hv hl ⊢
    have htb := time_before_of_near HZ t1 t2 (by omega) (by omega) hHZ
    unfold qsfp_update_tx_rx_status
    simp [hl, htb, hv]

/-- C2, at a concrete input: `HZ = 100` (window 150), refreshes at tick 1000,
calls at tick 1100. -/
theorem refresh_within_window_unchanged_witness :
    omp800_fc_fan_update_device 100 (ulong 1100) busFirstFails fanClient
        (omp800_fc_fan_update_device 100 (ulong 1000) busAllGood fanClient fanCacheOld []).1
        (omp800_fc_fan_update_device 100 (ulong 1000) busAllGood fanClient fanCacheOld []).2
      = omp800_fc_fan_update_device 100 (ulong 1000) busAllGood fanClient fanCacheOld [] ∧
    qsfp_update_tx_rx_status 100 (ulong 1100) busFirstFails
        (qsfp_update_tx_rx_status 100 (ulong 1000) busBlockGood qsfpPortFresh []).2.1
        (qsfp_update_tx_rx_status 100 (ulong 1000) busBlockGood qsfpPortFresh []).2.2
      = (none, (qsfp_update_tx_rx_status 100 (ulong 1000) busBlockGood qsfpPortFresh []).2.1,
          (qsfp_update_tx_rx_status 100 (ulong 1000) busBlockGood qsfpPortFresh []).2.2) :=
  refresh_within_window_unchanged 100 1000 1100 busAllGood busFirstFails fanClient fanCacheOld []
    busBlockGood busFirstFails qsfpPortFresh []
    (by decide) (by decide) (by decide) (by decide) (by decide) (by decide) (by decide)
    (by decide)

/-- C3 (as stated, refuted): with `HZ = 100` (window 150) and a valid cache
stamped at tick 0, the call at tick 150 (`t2 - t1 = W` exactly) reads nothing;
the call at tick 151 on a bus whose first read fails reads `fan_reg[0]` only;
and the call `2 ^ 64` ticks after the stamp, when the tick counter has wrapped
to the same value, reads nothing. -/
theorem fan_refresh_not_every_register :
    (omp800_fc_fan_update_device 100 (ulong 150) busAllGood fanClient fanCacheOld []).2 = [] ∧
    (omp800_fc_fan_update_device 100 (ulong 151) busFirstFails fanClient fanCacheOld []).2
      = [BusOp.read_byte fanClient 0x0F] ∧
    (omp800_fc_fan_update_device 100 (ulong (2 ^ 64)) busAllGood fanClient fanCacheOld []).2
      = [] := by
  decide

/-- C3 (amended): with window `W = HZ + HZ / 2`, for `W < t2 - t1 ≤ W + 2 ^ 63`,
a call of `omp800_fc_fan_update_device` at `t2` on an enabled board whose cache
was stamped at `t1` reads the registers of `fan_reg` in declaration order, each
once, up to and including the first read that fails (index `k`); when no read
fails it reads every register of `fan_reg` exactly once. -/
theorem fan_refresh_reads_until_failure
    (HZ t1 t2 : Nat) (bus : Nat → Resp) (client : i2c_client)
    (data : omp800_fc_fan_data) (log : List BusOp) (k : Nat)
    (henable : data.enable ≠ 0)
    (hlast : data.last_updated = ulong t1)
    (hgap : t1 + (HZ + HZ / 2) < t2)
    (hwrap : t2 ≤ t1 + (HZ + HZ / 2) + 2 ^ 63)
    (hk : k ≤ fan_reg.length)
    (hok : ∀ j, j < k → 0 ≤ (bus (log.length + j)).status)
    (hstop : k < fan_reg.length → (bus (log.length + k)).status < 0) :
    (omp800_fc_fan_update_device HZ (ulong t2) bus client data log).2
      = log ++ (fan_reg.take (k + 1)).map (BusOp.read_byte client) ∧
    (k = fan_reg.length →
      (omp800_fc_fan_update_device HZ (ulong t2) bus client data log).2
        = log ++ fan_reg.map (BusOp.read_byte client)) := by
  have hdue : time_after (ulong t2) (ulong (data.last_updated + HZ + HZ / 2)) = true
      ∨ data.valid = 0 := by
    left
    rw [hlast]
    exact time_after_of_gap HZ t1 t2 hgap hwrap
  have hmain : (omp800_fc_fan_update_device HZ (ulong t2) bus client data log).2
      = log ++ (fan_reg.take (k + 1)).map (BusOp.read_byte client) := by
    rw [fan_update_due HZ (ulong t2) bus client data log henable hdue]
    by_cases hlt : k < fan_reg.length
    · rw [reg_loop_fail bus client fan_reg k fan_reg.length 0 data.reg_val log hlt hok
        (hstop hlt)]
      simp only [Bool.false_eq_true, if_false]
      rw [read_ops_fan client (k + 1) hlt]
    · have hkeq : k = fan_reg.length := by omega
      subst hkeq
      rw [reg_loop_ok bus client fan_reg fan_reg.length 0 data.reg_val log hok]
      simp only [if_true]
      rw [read_ops_fan client fan_reg.length (Nat.le_refl _)]
      rfl
  refine ⟨hmain, ?_⟩
  intro hkeq
  rw [hmain, hkeq]
  rfl

/-- C3 (amended), at a concrete input: `HZ = 100`, stamp at tick 0, call at
tick 151, the second read fails (`k = 1`). -/
theorem fan_refresh_reads_until_failure_witness :
    (omp800_fc_fan_update_device 100 (ulong 151) busSecondFails fanClient fanCacheOld []).2
      = [] ++ (fan_reg.take (1 + 1)).map (BusOp.read_byte fanClient) ∧
    (1 = fan_reg.length →
      (omp800_fc_fan_update_device 100 (ulong 151) busSecondFails fanClient fanCacheOld []).2
        = [] ++ fan_reg.map (BusOp.read_byte fanClient)) :=
  fan_refresh_reads_until_failure 100 0 151 busSecondFails fanClient fanCacheOld [] 1
    (by decide) (by decide) (by decide) (by decide) (by decide) (by decide) (by decide)

/-- C4: when `omp800_fc_fan_update_device` performs a refresh at tick `jiffies`
and every register read succeeds, then afterwards `valid = 1`,
`last_updated = jiffies`, every `reg_val[i]` is the low 8 bits of the value the
bus returned for the i-th read, and the i-th read is the one of `fan_reg[i]`. -/
theorem fan_refresh_success_state
    (HZ jiffies : Nat) (bus : Nat → Resp) (client : i2c_client)
    (data : omp800_fc_fan_data) (log : List BusOp)
    (henable : data.enable ≠ 0)
    (hdue : time_after jiffies (ulong (data.last_updated + HZ + HZ / 2)) = true ∨ data.valid = 0)
    (hlen : data.reg_val.length = fan_reg.length)
    (hall : ∀ j, j < fan_reg.length → 0 ≤ (bus (log.length + j)).status) :
    (omp800_fc_fan_update_device HZ jiffies bus client data log).1.valid = 1 ∧
    (omp800_fc_fan_update_device HZ jiffies bus client data log).1.last_updated = jiffies ∧
    (∀ i, i < fan_reg.length →
      (omp800_fc_fan_update_device HZ jiffies bus client data log).1.reg_val[i]?
        = some ((bus (log.length + i)).status % 256).toNat) ∧
    (omp800_fc_fan_update_device HZ jiffies bus client data log).2
      = log ++ fan_reg.map (BusOp.read_byte client) := by
  rw [fan_update_due HZ jiffies bus client data log henable hdue,
    reg_loop_ok bus client fan_reg fan_reg.length 0 data.reg_val log hall]
  simp only [if_true, true_and]
  refine ⟨?_, ?_⟩
  · intro i hi
    rw [set_from_zero _ _ (by rw [read_values_length]; omega), read_values_length,
      List.getElem?_append_left (by rw [read_values_length]; exact hi)]
    exact read_values_get bus log.length fan_reg.length i hi
  · rw [read_ops_fan client fan_reg.length (Nat.le_refl _)]
    simp

/-- C4, at a concrete input: an invalid cache refreshed at tick 1000 on a bus
whose k-th transaction returns `0x20 + k`. -/
theorem fan_refresh_success_state_witness :
    (omp800_fc_fan_update_device 100 1000 busAllGood fanClient
        { fanCacheOld with valid := 0 } []).1.valid = 1 ∧
    (omp800_fc_fan_update_device 100 1000 busAllGood fanClient
        { fanCacheOld with valid := 0 } []).1.last_updated = 1000 ∧
    (∀ i, i < fan_reg.length →
      (omp800_fc_fan_update_device 100 1000 busAllGood fanClient
          { fanCacheOld with valid := 0 } []).1.reg_val[i]?
        = some ((busAllGood (([] : List BusOp).length + i)).status % 256).toNat) ∧
    (omp800_fc_fan_update_device 100 1000 busAllGood fanClient
        { fanCacheOld with valid := 0 } []).2
      = [] ++ fan_reg.map (BusOp.read_byte fanClient) :=
  fan_refresh_success_state 100 1000 busAllGood fanClient { fanCacheOld with valid := 0 } []
    (by decide) (by decide) (by decide) (by decide)

/-- C6: on a QSFP-driver port, when the identifier byte read at offset 0 is
`0xC` the resulting `port_type` is QSFP and when it is `0xD` it is QSFP+; in
both cases the transactions of the classification are those of the one
identifier read, that is 1 to 3 attempts of the one-byte block read at
offset 0, with no read at any other offset. -/
theorem qsfp_classification_single_read (bus : Nat → Resp) (data : sfp_port_data)
    (log : List BusOp) (id : Nat)
    (hdrv : data.driver_type = DRIVER_TYPE_QSFP)
    (hread : 0 ≤ (sfp_eeprom_read bus log data.client 0 [0] 1).status ∧
      (sfp_eeprom_read bus log data.client 0 [0] 1).data.headD 0 = id)
    (hid : id = 0xC ∨ id = 0xD) :
    (sfp_update_port_type bus data log).1.port_type
      = (if id = 0xC then OOM_DRIVER_PORT_TYPE_QSFP else OOM_DRIVER_PORT_TYPE_QSFP_PLUS) ∧
    (sfp_update_port_type bus data log).2 = (sfp_eeprom_read bus log data.client 0 [0] 1).log ∧
    ∃ n, 1 ≤ n ∧ n ≤ 3 ∧
      (sfp_update_port_type bus data log).2
        = log ++ List.replicate n (BusOp.read_block data.client 0 1) := by
  obtain ⟨h1, h2⟩ := hread
  have hlog : (sfp_update_port_type bus data log).2
      = (sfp_eeprom_read bus log data.client 0 [0] 1).log := by
    unfold sfp_update_port_type
    simp only [hdrv, SFF8024_PHYSICAL_DEVICE_ID_ADDR]
    split_ifs <;> rfl
  refine ⟨?_, hlog, ?_⟩
  · unfold sfp_update_port_type
    simp only [hdrv, SFF8024_PHYSICAL_DEVICE_ID_ADDR, SFF8024_DEVICE_ID_QSFP,
      SFF8024_DEVICE_ID_QSFP_PLUS, SFF8024_DEVICE_ID_QSFP28]
    rw [if_neg (by omega), h2]
    rcases hid with rfl | rfl <;> simp
  · rw [hlog]
    exact sfp_eeprom_read_log bus log data.client 0 [0]

/-- C6, at a concrete input: the first attempt fails, the retry delivers `0xC`. -/
theorem qsfp_classification_single_read_witness :
    (sfp_update_port_type busQsfpRetry qsfpPortFresh []).1.port_type
      = (if 0xC = 0xC then OOM_DRIVER_PORT_TYPE_QSFP else OOM_DRIVER_PORT_TYPE_QSFP_PLUS) ∧
    (sfp_update_port_type busQsfpRetry qsfpPortFresh []).2
      = (sfp_eeprom_read busQsfpRetry [] qsfpPortFresh.client 0 [0] 1).log ∧
    ∃ n, 1 ≤ n ∧ n ≤ 3 ∧
      (sfp_update_port_type busQsfpRetry qsfpPortFresh []).2
        = [] ++ List.replicate n (BusOp.read_block qsfpPortFresh.client 0 1) :=
  qsfp_classification_single_read busQsfpRetry qsfpPortFresh [] 0xC (by decide) (by decide)
    (by decide)

/-- C7 (the code at the failing input): on a QSFP-driver port whose identifier
byte reads `0x11`, `sfp_update_port_type` stores QSFP+, not QSFP28, after a
single read. -/
theorem qsfp28_stored_as_qsfp_plus :
    (sfp_update_port_type busQsfp28 qsfpPortFresh []).1.port_type
      = OOM_DRIVER_PORT_TYPE_QSFP_PLUS ∧
    (sfp_update_port_type busQsfp28 qsfpPortFresh []).1.port_type
      ≠ OOM_DRIVER_PORT_TYPE_QSFP28 ∧
    (sfp_update_port_type busQsfp28 qsfpPortFresh []).2
      = [BusOp.read_block sfpClient 0 1] := by
  decide

/-- C8: for the SFP-MSA and QSFP driver types, if an EEPROM read issued by the
classification fails, `sfp_update_port_type` sets `port_type` to Invalid; and
`show_port_type` on a present port whose classification reads fail returns the
printed port type (Invalid, printed as 0), not an error code. -/
theorem classification_failure_reports_invalid
    (bus : Nat → Resp) (data : sfp_port_data) (log : List BusOp)
    (busS : Nat → Resp) (cpld_client_list : List i2c_client)
    (dataS : sfp_port_data) (logS : List BusOp)
    (hdrv : data.driver_type = DRIVER_TYPE_SFP_MSA ∨ data.driver_type = DRIVER_TYPE_QSFP)
    (hfail : classification_read_fails bus data log)
    (hdrvS : dataS.driver_type = DRIVER_TYPE_SFP_MSA ∨ dataS.driver_type = DRIVER_TYPE_QSFP)
    (hpresent : (sfp_is_port_present busS cpld_client_list dataS logS dataS.port).1 = 1)
    (hfailS : classification_read_fails busS
      (sfp_is_port_present busS cpld_client_list dataS logS dataS.port).2.1
      (sfp_is_port_present busS cpld_client_list dataS logS dataS.port).2.2) :
    (sfp_update_port_type bus data log).1.port_type = OOM_DRIVER_PORT_TYPE_INVALID ∧
    (show_port_type busS cpld_client_list dataS logS).1
      = ShowResult.printed OOM_DRIVER_PORT_TYPE_INVALID.val ∧
    (show_port_type busS cpld_client_list dataS logS).2.1.port_type
      = OOM_DRIVER_PORT_TYPE_INVALID := by
  refine ⟨sfp_update_port_type_invalid bus data log hdrv hfail, ?_⟩
  have hfr := sfp_is_port_present_frame busS cpld_client_list dataS logS dataS.port
  have hinv := sfp_update_port_type_invalid busS
    (sfp_is_port_present busS cpld_client_list dataS logS dataS.port).2.1
    (sfp_is_port_present busS cpld_client_list dataS logS dataS.port).2.2
    (by rw [hfr.1]; exact hdrvS) hfailS
  unfold show_port_type
  simp only [hpresent, show ¬ ((1 : Int) < 0) by decide, show ¬ ((1 : Int) = 0) by decide,
    if_false]
  exact ⟨by rw [hinv], hinv⟩

/-- C8, at a concrete input: a QSFP port alone and a present SFP-MSA port (the
presence registers read 0), every EEPROM attempt failing with `-EIO`. -/
theorem classification_failure_reports_invalid_witness :
    (sfp_update_port_type busAllFail
        { qsfpPortFresh with port_type := OOM_DRIVER_PORT_TYPE_QSFP } []).1.port_type
      = OOM_DRIVER_PORT_TYPE_INVALID ∧
    (show_port_type busPresentThenFail [cpld2Client]
        { msaPort with port_type := OOM_DRIVER_PORT_TYPE_SFP } []).1
      = ShowResult.printed OOM_DRIVER_PORT_TYPE_INVALID.val ∧
    (show_port_type busPresentThenFail [cpld2Client]
        { msaPort with port_type := OOM_DRIVER_PORT_TYPE_SFP } []).2.1.port_type
      = OOM_DRIVER_PORT_TYPE_INVALID :=
  classification_failure_reports_invalid busAllFail
    { qsfpPortFresh with port_type := OOM_DRIVER_PORT_TYPE_QSFP } []
    busPresentThenFail [cpld2Client] { msaPort with port_type := OOM_DRIVER_PORT_TYPE_SFP } []
    (by decide) (by decide) (by decide) (by decide) (by decide)

/-- C10 (as stated, refuted): for the port of CPLD index 16, with registers
reading `0x01` and `0x00`, the combined bitmap is 1, its bit 16 is clear, and
yet `sfp_is_port_present` returns 0 (it tests bit `16 % 16 = 0`). -/
theorem port_present_tests_index_mod_16 :
    (sfp_update_present busPresence0001 [cpld2Client] qsfpPort16 []).1 = none ∧
    (sfp_update_present busPresence0001 [cpld2Client] qsfpPort16 []).2.1.present = 1 ∧
    Nat.testBit 1 qsfpPort16.port = false ∧
    (sfp_is_port_present busPresence0001 [cpld2Client] qsfpPort16 [] qsfpPort16.port).1 = 0 := by
  decide

/-- C10 (amended): for every port, with CPLD index `i`, and every successfully
read presence bitmap, `sfp_is_port_present` returns 1 exactly when bit
`i % 16` of the bitmap is clear and 0 exactly when bit `i % 16` is set. -/
theorem port_present_iff_bit_clear (bus : Nat → Resp) (cpld_client_list : List i2c_client)
    (data : sfp_port_data) (log : List BusOp)
    (hok : (sfp_update_present bus cpld_client_list data log).1 = none) :
    ((sfp_is_port_present bus cpld_client_list data log data.port).1 = 1 ↔
      Nat.testBit (sfp_update_present bus cpld_client_list data log).2.1.present
        (data.port % 16) = false) ∧
    ((sfp_is_port_present bus cpld_client_list data log data.port).1 = 0 ↔
      Nat.testBit (sfp_update_present bus cpld_client_list data log).2.1.present
        (data.port % 16) = true) := by
  have hport : (sfp_update_present bus cpld_client_list data log).2.1.port = data.port := by
    unfold sfp_update_present
    simp only [sfp_update_present_loop]
    split_ifs <;> rfl
  have hbit : BIT_INDEX (data.port % 16) = 2 ^ (data.port % 16) := by
    unfold BIT_INDEX
    rw [Nat.one_shiftLeft]
    apply Nat.mod_eq_of_lt
    apply Nat.pow_lt_pow_right (by omega)
    omega
  unfold sfp_is_port_present
  generalize sfp_update_present bus cpld_client_list data log = r at hok hport ⊢
  obtain ⟨e, d, l⟩ := r
  simp only at hok hport
  subst hok
  simp only [hport, hbit, Nat.and_two_pow]
  cases hb : d.present.testBit (data.port % 16) <;> simp

/-- C10 (amended), at a concrete input: port 16, registers reading `0x01` and
`0x00`. -/
theorem port_present_iff_bit_clear_witness :
    ((sfp_is_port_present busPresence0001 [cpld2Client] qsfpPort16 [] qsfpPort16.port).1 = 1 ↔
      Nat.testBit (sfp_update_present busPresence0001 [cpld2Client] qsfpPort16 []).2.1.present
        (qsfpPort16.port % 16) = false) ∧
    ((sfp_is_port_present busPresence0001 [cpld2Client] qsfpPort16 [] qsfpPort16.port).1 = 0 ↔
      Nat.testBit (sfp_update_present busPresence0001 [cpld2Client] qsfpPort16 []).2.1.present
        (qsfpPort16.port % 16) = true) :=
  port_present_iff_bit_clear busPresence0001 [cpld2Client] qsfpPort16 [] (by decide)

/-! Lemmas for the port number, the absent port and the register broker -/

/-- A presence query that does not fail has found the CPLD at `0x62` and has
issued its two register reads, and nothing else. -/
theorem sfp_is_port_present_log (bus : Nat → Resp) (cpld_client_list : List i2c_client)
    (data : sfp_port_data) (log : List BusOp) (port : Nat)
    (h : 0 ≤ (sfp_is_port_present bus cpld_client_list data log port).1) :
    ∃ c, cpld_find cpld_client_list 0x62 = some c ∧
      (sfp_is_port_present bus cpld_client_list data log port).2.2
        = log ++ [BusOp.read_byte c 0x30, BusOp.read_byte c 0x31] := by
  unfold sfp_is_port_present sfp_update_present at h ⊢
  simp only [sfp_update_present_loop, omp800_cpld_read_eq, List.getD_cons_zero,
    List.getD_cons_succ] at h ⊢
  cases hc : cpld_find cpld_client_list 0x62 with
  | none =>
    simp only [hc, EPERM] at h
    simp at h
  | some c =>
    refine ⟨c, rfl, ?_⟩
    simp only [hc, i2c_smbus_read_byte_data] at h ⊢
    split_ifs at h ⊢ <;> first | (simp at h; omega) | simp

/-- The presence query leaves the QSFP status block alone. -/
theorem sfp_is_port_present_qsfp (bus : Nat → Resp) (cpld_client_list : List i2c_client)
    (data : sfp_port_data) (log : List BusOp) (port : Nat) :
    (sfp_is_port_present bus cpld_client_list data log port).2.1.qsfp = data.qsfp := by
  unfold sfp_is_port_present sfp_update_present
  simp only [sfp_update_present_loop]
  split_ifs <;> simp

/-- A registry without the address: the lookup finds nothing. -/
theorem cpld_find_none (l : List i2c_client) (cpld_addr : Nat)
    (h : ∀ c, c ∈ l → c.addr ≠ cpld_addr) : cpld_find l cpld_addr = none := by
  induction l with
  | nil => rfl
  | cons c rest ih =>
    rw [cpld_find, if_neg (h c (List.mem_cons_self c rest))]
    exact ih (fun d hd => h d (List.mem_cons_of_mem c hd))

/-- A registry with the address: the lookup finds a node of the registry that
has it. -/
theorem cpld_find_some (l : List i2c_client) (cpld_addr : Nat)
    (h : ∃ c, c ∈ l ∧ c.addr = cpld_addr) :
    ∃ c, cpld_find l cpld_addr = some c ∧ c ∈ l ∧ c.addr = cpld_addr := by
  induction l with
  | nil =>
    obtain ⟨c, hc, _⟩ := h
    cases hc
  | cons d rest ih =>
    by_cases hd : d.addr = cpld_addr
    · exact ⟨d, by rw [cpld_find, if_pos hd], List.mem_cons_self d rest, hd⟩
    · obtain ⟨c, hc, hca⟩ := h
      have hrest : ∃ c, c ∈ rest ∧ c.addr = cpld_addr := by
        rcases List.mem_cons.mp hc with rfl | hmem
        · exact absurd hca hd
        · exact ⟨c, hmem, hca⟩
      obtain ⟨e, he, hemem, hea⟩ := ih hrest
      exact ⟨e, by rw [cpld_find, if_neg hd]; exact he, List.mem_cons_of_mem d hemem, hea⟩

theorem omp800_cpld_write_eq (bus : Nat → Resp) (log : List BusOp) (reg value : Nat) :
    ∀ (l : List i2c_client) (cpld_addr : Nat),
      omp800_cpld_write bus log l cpld_addr reg value
        = match cpld_find l cpld_addr with
          | some c => i2c_smbus_write_byte_data bus log c reg value
          | none => (-EIO_ERRNO, log) := by
  intro l
  induction l with
  | nil => intro a; simp [omp800_cpld_write, cpld_find]
  | cons c rest ih =>
    intro a
    rw [omp800_cpld_write, cpld_find]
    by_cases h : c.addr = a
    · simp [h]
    · simp only [h, if_false]
      exact ih a

/-! The claims, continued -/

/-- C11: for every valid CPLD port index `p` (`0 <= p < 32`), the front port
number printed by `show_port_number` is `p + 1`. -/
theorem front_port_number (data : sfp_port_data) (hport : data.port < 32) :
    show_port_number data = ShowResult.printed ((data.port : Int) + 1) := by
  have h : to_int ((data.port : Int) + 1) = (data.port : Int) + 1 := by
    simp only [to_int]
    norm_num
    omega
  simp only [show_port_number, CPLD_PORT_TO_FRONT_PORT, h]

/-- C11, at a concrete input: the port of CPLD index 5 is front port 6. -/
theorem front_port_number_witness :
    show_port_number qsfpPort5 = ShowResult.printed ((qsfpPort5.port : Int) + 1) :=
  front_port_number qsfpPort5 (by decide)

/-- C17: whenever the presence query reports the port absent, `show_port_type`
prints the value of `OOM_DRIVER_PORT_TYPE_NOT_PRESENT`, leaves the stored
`port_type` unchanged, and its only bus transactions are the two CPLD register
reads of the presence query (no EEPROM read). -/
theorem show_port_type_absent (bus : Nat → Resp) (cpld_client_list : List i2c_client)
    (data : sfp_port_data) (log : List BusOp)
    (habsent : (sfp_is_port_present bus cpld_client_list data log data.port).1 = 0) :
    (show_port_type bus cpld_client_list data log).1
      = ShowResult.printed OOM_DRIVER_PORT_TYPE_NOT_PRESENT.val ∧
    (show_port_type bus cpld_client_list data log).2.1.port_type = data.port_type ∧
    ∃ c, c.addr = 0x62 ∧
      (show_port_type bus cpld_client_list data log).2.2
        = log ++ [BusOp.read_byte c 0x30, BusOp.read_byte c 0x31] := by
  obtain ⟨c, hc, hlog⟩ := sfp_is_port_present_log bus cpld_client_list data log data.port
    (by rw [habsent])
  have hfr := sfp_is_port_present_frame bus cpld_client_list data log data.port
  have haddr : c.addr = 0x62 := by
    by_contra hne
    have hex : ∃ d, d ∈ cpld_client_list ∧ d.addr = 0x62 := by
      by_contra hno
      rw [cpld_find_none cpld_client_list 0x62
        (fun d hd hda => hno ⟨d, hd, hda⟩)] at hc
      cases hc
    obtain ⟨e, he, _, hea⟩ := cpld_find_some cpld_client_list 0x62 hex
    rw [hc] at he
    cases he
    exact hne hea
  unfold show_port_type
  simp only [habsent, show ¬ ((0 : Int) < 0) by decide, if_false, if_true]
  exact ⟨trivial, hfr.2.2.2, c, haddr, hlog⟩

/-- C17, at a concrete input: port 0 absent (bit 0 of the bitmap set), with an
earlier classification stored. -/
theorem show_port_type_absent_witness :
    (show_port_type busAbsent [cpld2Client] qsfpPortCached []).1
      = ShowResult.printed OOM_DRIVER_PORT_TYPE_NOT_PRESENT.val ∧
    (show_port_type busAbsent [cpld2Client] qsfpPortCached []).2.1.port_type
      = qsfpPortCached.port_type ∧
    ∃ c, c.addr = 0x62 ∧
      (show_port_type busAbsent [cpld2Client] qsfpPortCached []).2.2
        = [] ++ [BusOp.read_byte c 0x30, BusOp.read_byte c 0x31] :=
  show_port_type_absent busAbsent [cpld2Client] qsfpPortCached [] (by decide)

/-- C18: for every registry and every address that matches no registered
endpoint, `omp800_cpld_read` returns the error `-EPERM` (its "no such
endpoint" result) and issues no bus transaction. -/
theorem cpld_read_unregistered (bus : Nat → Resp) (log : List BusOp)
    (cpld_client_list : List i2c_client) (cpld_addr reg : Nat)
    (hno : ∀ c, c ∈ cpld_client_list → c.addr ≠ cpld_addr) :
    omp800_cpld_read bus log cpld_client_list cpld_addr reg = (-EPERM, log) := by
  rw [omp800_cpld_read_eq, cpld_find_none cpld_client_list cpld_addr hno]

/-- C18, at a concrete input: address `0x66` with the two CPLDs registered. -/
theorem cpld_read_unregistered_witness :
    omp800_cpld_read busAllGood [] [cpld1Client, cpld2Client] 0x66 0x30 = (-EPERM, []) :=
  cpld_read_unregistered busAllGood [] [cpld1Client, cpld2Client] 0x66 0x30 (by decide)

/-- C19 (as stated, refuted): for the unregistered address `0x66` the read
returns -1 (`-EPERM`) and the write returns -5 (`-EIO`), two different error
codes; neither issues a transaction. -/
theorem cpld_write_error_differs_from_read :
    omp800_cpld_read busAllGood [] [cpld1Client, cpld2Client] 0x66 0x30 = (-1, []) ∧
    omp800_cpld_write busAllGood [] [cpld1Client, cpld2Client] 0x66 0x30 0xFF = (-5, []) ∧
    (omp800_cpld_write busAllGood [] [cpld1Client, cpld2Client] 0x66 0x30 0xFF).1
      ≠ (omp800_cpld_read busAllGood [] [cpld1Client, cpld2Client] 0x66 0x30).1 := by
  decide

/-- C19 (amended): for every registry and every address that matches no
registered endpoint, `omp800_cpld_write` issues no bus transaction and returns
the negative errno `-EIO`, where `omp800_cpld_read` returns the negative errno
`-EPERM`. -/
theorem cpld_write_unregistered (bus : Nat → Resp) (log : List BusOp)
    (cpld_client_list : List i2c_client) (cpld_addr reg value : Nat)
    (hno : ∀ c, c ∈ cpld_client_list → c.addr ≠ cpld_addr) :
    omp800_cpld_write bus log cpld_client_list cpld_addr reg value = (-EIO_ERRNO, log) ∧
    omp800_cpld_read bus log cpld_client_list cpld_addr reg = (-EPERM, log) ∧
    (omp800_cpld_write bus log cpld_client_list cpld_addr reg value).1 < 0 ∧
    (omp800_cpld_read bus log cpld_client_list cpld_addr reg).1 < 0 := by
  have hw : omp800_cpld_write bus log cpld_client_list cpld_addr reg value
      = (-EIO_ERRNO, log) := by
    rw [omp800_cpld_write_eq, cpld_find_none cpld_client_list cpld_addr hno]
  have hr : omp800_cpld_read bus log cpld_client_list cpld_addr reg = (-EPERM, log) := by
    rw [omp800_cpld_read_eq, cpld_find_none cpld_client_list cpld_addr hno]
  refine ⟨hw, hr, ?_, ?_⟩
  · rw [hw]
    show -EIO_ERRNO < 0
    decide
  · rw [hr]
    show -EPERM < 0
    decide

/-- C19 (amended), at a concrete input: address `0x66` with the two CPLDs
registered. -/
theorem cpld_write_unregistered_witness :
    omp800_cpld_write busAllGood [] [cpld1Client, cpld2Client] 0x66 0x30 0xFF
      = (-EIO_ERRNO, []) ∧
    omp800_cpld_read busAllGood [] [cpld1Client, cpld2Client] 0x66 0x30 = (-EPERM, []) ∧
    (omp800_cpld_write busAllGood [] [cpld1Client, cpld2Client] 0x66 0x30 0xFF).1 < 0 ∧
    (omp800_cpld_read busAllGood [] [cpld1Client, cpld2Client] 0x66 0x30).1 < 0 :=
  cpld_write_unregistered busAllGood [] [cpld1Client, cpld2Client] 0x66 0x30 0xFF (by decide)

/-- C20: for every registry containing an endpoint with the requested address,
`omp800_cpld_read` issues exactly one single-byte read, on a registered
endpoint with that address, and returns the result of that transaction
unchanged; a second read of the same register issues a second transaction and
returns its result (nothing is cached). -/
theorem cpld_read_registered (bus : Nat → Resp) (log : List BusOp)
    (cpld_client_list : List i2c_client) (cpld_addr reg : Nat)
    (hreg : ∃ c, c ∈ cpld_client_list ∧ c.addr = cpld_addr) :
    ∃ c, c ∈ cpld_client_list ∧ c.addr = cpld_addr ∧
      omp800_cpld_read bus log cpld_client_list cpld_addr reg
        = ((bus log.length).status, log ++ [BusOp.read_byte c reg]) ∧
      omp800_cpld_read bus (omp800_cpld_read bus log cpld_client_list cpld_addr reg).2
          cpld_client_list cpld_addr reg
        = ((bus (log.length + 1)).status,
            log ++ [BusOp.read_byte c reg, BusOp.read_byte c reg]) := by
  obtain ⟨c, hfind, hmem, haddr⟩ := cpld_find_some cpld_client_list cpld_addr hreg
  refine ⟨c, hmem, haddr, ?_, ?_⟩
  · rw [omp800_cpld_read_eq, hfind]
    rfl
  · simp only [omp800_cpld_read_eq, hfind, i2c_smbus_read_byte_data]
    simp

/-- C20, at a concrete input: address `0x62` with the two CPLDs registered, on
a bus whose second transaction fails. -/
theorem cpld_read_registered_witness :
    ∃ c, c ∈ [cpld1Client, cpld2Client] ∧ c.addr = 0x62 ∧
      omp800_cpld_read busSecondFails [] [cpld1Client, cpld2Client] 0x62 0x30
        = ((busSecondFails ([] : List BusOp).length).status, [] ++ [BusOp.read_byte c 0x30]) ∧
      omp800_cpld_read busSecondFails
          (omp800_cpld_read busSecondFails [] [cpld1Client, cpld2Client] 0x62 0x30).2
          [cpld1Client, cpld2Client] 0x62 0x30
        = ((busSecondFails (([] : List BusOp).length + 1)).status,
            [] ++ [BusOp.read_byte c 0x30, BusOp.read_byte c 0x30]) :=
  cpld_read_registered busSecondFails [] [cpld1Client, cpld2Client] 0x62 0x30
    ⟨cpld2Client, by decide, by decide⟩

/-! Lemmas for the block transactions -/

/-- The retry loop of the read after `m` failing attempts and a good one. -/
theorem sfp_eeprom_read_loop_ok (bus : Nat → Resp) (client : i2c_client) (command : Nat)
    (data_len : Int) :
    ∀ (m retry : Nat) (status : Int) (data : List Nat) (log : List BusOp), m < retry →
      (∀ j, j < m → (bus (log.length + j)).status < 0) →
      0 ≤ (bus (log.length + m)).status →
      (sfp_eeprom_read_loop bus client command data_len retry status data log).status
          = (bus (log.length + m)).status ∧
        (sfp_eeprom_read_loop bus client command data_len retry status data log).log
          = log ++ List.replicate (m + 1)
              (BusOp.read_block client command (data_len % 256).toNat) := by
  intro m
  induction m with
  | zero =>
    intro retry status data log hm _ hok
    obtain ⟨r, rfl⟩ : ∃ r, retry = r + 1 := ⟨retry - 1, by omega⟩
    simp only [Nat.add_zero] at hok
    have h0 : ¬ (bus log.length).status < 0 := by omega
    simp [sfp_eeprom_read_loop, i2c_smbus_read_i2c_block_data, h0]
  | succ m ih =>
    intro retry status data log hm hfail hok
    obtain ⟨r, rfl⟩ : ∃ r, retry = r + 1 := ⟨retry - 1, by omega⟩
    have h0 : (bus log.length).status < 0 := by
      have := hfail 0 (by omega)
      simpa using this
    rw [sfp_eeprom_read_loop]
    simp only [i2c_smbus_read_i2c_block_data, h0, if_true]
    obtain ⟨hs, hl⟩ := ih r (bus log.length).status data
      (log ++ [BusOp.read_block client command (data_len % 256).toNat]) (by omega)
      (by
        intro j hj
        have := hfail (j + 1) (by omega)
        simpa [Nat.add_assoc, Nat.add_comm 1 j] using this)
      (by simpa [Nat.add_assoc, Nat.add_comm 1 m] using hok)
    refine ⟨?_, ?_⟩
    · rw [hs]
      simp [Nat.add_assoc, Nat.add_comm 1 m]
    · rw [hl, List.replicate_succ (n := m + 1)]
      simp

/-- The retry loop of the read when every attempt fails. -/
theorem sfp_eeprom_read_loop_fail (bus : Nat → Resp) (client : i2c_client) (command : Nat)
    (data_len : Int) :
    ∀ (retry : Nat) (status : Int) (data : List Nat) (log : List BusOp),
      (∀ j, j < retry → (bus (log.length + j)).status < 0) →
      sfp_eeprom_read_loop bus client command data_len retry status data log
        = { status := if retry = 0 then status else (bus (log.length + (retry - 1))).status,
            data := data,
            log := log ++ List.replicate retry
              (BusOp.read_block client command (data_len % 256).toNat) } := by
  intro retry
  induction retry with
  | zero =>
    intro status data log _
    simp [sfp_eeprom_read_loop]
  | succ r ih =>
    intro status data log hfail
    have h0 : (bus log.length).status < 0 := by
      have := hfail 0 (by omega)
      simpa using this
    rw [sfp_eeprom_read_loop]
    simp only [i2c_smbus_read_i2c_block_data, h0, if_true]
    rw [ih (bus log.length).status data _
      (by
        intro j hj
        have := hfail (j + 1) (by omega)
        simpa [Nat.add_assoc, Nat.add_comm 1 j] using this)]
    rw [List.replicate_succ (n := r)]
    by_cases hr : r = 0
    · subst hr
      simp
    · have e : log.length + 1 + (r - 1) = log.length + r := by omega
      simp [hr, e]

/-- The retry loop of the write after `m` failing attempts and a good one. -/
theorem sfp_eeprom_write_loop_ok (bus : Nat → Resp) (client : i2c_client) (command : Nat)
    (data : List Nat) (data_len : Int) :
    ∀ (m retry : Nat) (status : Int) (log : List BusOp), m < retry →
      (∀ j, j < m → (bus (log.length + j)).status < 0) →
      0 ≤ (bus (log.length + m)).status →
      sfp_eeprom_write_loop bus client command data data_len retry status log
        = ((bus (log.length + m)).status,
            log ++ List.replicate (m + 1)
              (BusOp.write_block client command (data_len % 256).toNat
                (data.take (data_len % 256).toNat))) := by
  intro m
  induction m with
  | zero =>
    intro retry status log hm _ hok
    obtain ⟨r, rfl⟩ : ∃ r, retry = r + 1 := ⟨retry - 1, by omega⟩
    simp only [Nat.add_zero] at hok
    have h0 : ¬ (bus log.length).status < 0 := by omega
    simp [sfp_eeprom_write_loop, i2c_smbus_write_i2c_block_data, h0]
  | succ m ih =>
    intro retry status log hm hfail hok
    obtain ⟨r, rfl⟩ : ∃ r, retry = r + 1 := ⟨retry - 1, by omega⟩
    have h0 : (bus log.length).status < 0 := by
      have := hfail 0 (by omega)
      simpa using this
    rw [sfp_eeprom_write_loop]
    simp only [i2c_smbus_write_i2c_block_data, h0, if_true]
    rw [ih r (bus log.length).status _ (by omega)
      (by
        intro j hj
        have := hfail (j + 1) (by omega)
        simpa [Nat.add_assoc, Nat.add_comm 1 j] using this)
      (by simpa [Nat.add_assoc, Nat.add_comm 1 m] using hok)]
    rw [List.replicate_succ (n := m + 1)]
    simp [Nat.add_assoc, Nat.add_comm 1 m]

/-- The retry loop of the write when every attempt fails. -/
theorem sfp_eeprom_write_loop_fail (bus : Nat → Resp) (client : i2c_client) (command : Nat)
    (data : List Nat) (data_len : Int) :
    ∀ (retry : Nat) (status : Int) (log : List BusOp),
      (∀ j, j < retry → (bus (log.length + j)).status < 0) →
      sfp_eeprom_write_loop bus client command data data_len retry status log
        = (if retry = 0 then status else (bus (log.length + (retry - 1))).status,
            log ++ List.replicate retry
              (BusOp.write_block client command (data_len % 256).toNat
                (data.take (data_len % 256).toNat))) := by
  intro retry
  induction retry with
  | zero =>
    intro status log _
    simp [sfp_eeprom_write_loop]
  | succ r ih =>
    intro status log hfail
    have h0 : (bus log.length).status < 0 := by
      have := hfail 0 (by omega)
      simpa using this
    rw [sfp_eeprom_write_loop]
    simp only [i2c_smbus_write_i2c_block_data, h0, if_true]
    rw [ih (bus log.length).status _
      (by
        intro j hj
        have := hfail (j + 1) (by omega)
        simpa [Nat.add_assoc, Nat.add_comm 1 j] using this)]
    rw [List.replicate_succ (n := r)]
    by_cases hr : r = 0
    · subst hr
      simp
    · have e : log.length + 1 + (r - 1) = log.length + r := by omega
      simp [hr, e]

/-- The return value and the log of `sfp_eeprom_read` from those of its loop. -/
theorem sfp_eeprom_read_fields (bus : Nat → Resp) (log : List BusOp) (client : i2c_client)
    (command : Nat) (data : List Nat) (data_len : Int) :
    (sfp_eeprom_read bus log client command data data_len).log
        = (sfp_eeprom_read_loop bus client command (min data_len I2C_SMBUS_BLOCK_MAX)
            I2C_RW_RETRY_COUNT 0 data log).log ∧
      (sfp_eeprom_read bus log client command data data_len).status
        = if (sfp_eeprom_read_loop bus client command (min data_len I2C_SMBUS_BLOCK_MAX)
              I2C_RW_RETRY_COUNT 0 data log).status < 0 then
            (sfp_eeprom_read_loop bus client command (min data_len I2C_SMBUS_BLOCK_MAX)
              I2C_RW_RETRY_COUNT 0 data log).status
          else if (sfp_eeprom_read_loop bus client command (min data_len I2C_SMBUS_BLOCK_MAX)
              I2C_RW_RETRY_COUNT 0 data log).status = min data_len I2C_SMBUS_BLOCK_MAX then
            min data_len I2C_SMBUS_BLOCK_MAX
          else -EIO_ERRNO := by
  have hmin : (if data_len > I2C_SMBUS_BLOCK_MAX then I2C_SMBUS_BLOCK_MAX else data_len)
      = min data_len I2C_SMBUS_BLOCK_MAX := by
    rw [min_def]
    split_ifs <;> omega
  unfold sfp_eeprom_read
  simp only [hmin]
  split_ifs <;> simp_all

/-- The return value and the log of `sfp_eeprom_write` from those of its loop. -/
theorem sfp_eeprom_write_fields (bus : Nat → Resp) (log : List BusOp) (client : i2c_client)
    (command : Nat) (data : List Nat) (data_len : Int) :
    sfp_eeprom_write bus log client command data data_len
      = (if (sfp_eeprom_write_loop bus client command data (min data_len I2C_SMBUS_BLOCK_MAX)
              I2C_RW_RETRY_COUNT 0 log).1 < 0 then
            (sfp_eeprom_write_loop bus client command data (min data_len I2C_SMBUS_BLOCK_MAX)
              I2C_RW_RETRY_COUNT 0 log).1
          else min data_len I2C_SMBUS_BLOCK_MAX,
          (sfp_eeprom_write_loop bus client command data (min data_len I2C_SMBUS_BLOCK_MAX)
              I2C_RW_RETRY_COUNT 0 log).2) := by
  have hmin : (if data_len > I2C_SMBUS_BLOCK_MAX then I2C_SMBUS_BLOCK_MAX else data_len)
      = min data_len I2C_SMBUS_BLOCK_MAX := by
    rw [min_def]
    split_ifs <;> omega
  unfold sfp_eeprom_write
  simp only [hmin]
  split_ifs <;> rfl

/-- C15 (as stated, refuted): a one-byte `sfp_eeprom_read` whose first attempt
returns the count 0 reports `-EIO` after that single attempt, although the
attempt did not fail; and `sfp_eeprom_write` asked for the length -1 returns -1
although its single attempt succeeded. -/
theorem block_read_short_count_is_failure :
    0 ≤ (busZero 0).status ∧
    (sfp_eeprom_read busZero [] sfpClient 0 [0] 1).status = -5 ∧
    (sfp_eeprom_read busZero [] sfpClient 0 [0] 1).log = [BusOp.read_block sfpClient 0 1] ∧
    sfp_eeprom_write busZero [] sfpClient 86 [1] (-1)
      = (-1, [BusOp.write_block sfpClient 86 255 [1]]) := by
  decide

/-- C15 (amended): let `m` be the number of leading transport attempts that
fail (at most 3).  One block transaction of `sfp_eeprom_read`, and of
`sfp_eeprom_write`, makes `min (m + 1) 3` attempts, all of the same transfer: it
stops at the first attempt that does not fail and never makes more than
`I2C_RW_RETRY_COUNT = 3`.  When all 3 fail it returns the error of the last
attempt.  Otherwise the write returns the (clamped) length, so that for a
length that is not negative it reports failure exactly when all 3 attempts
fail; and the read returns the count of the attempt if it equals the (clamped)
length and `-EIO` if it does not, so that it reports failure exactly when all 3
attempts fail or the first attempt that does not fail returns another count. -/
theorem block_transaction_attempts
    (bus : Nat → Resp) (log : List BusOp) (client : i2c_client) (command : Nat)
    (data : List Nat) (data_len : Int) (m : Nat)
    (busW : Nat → Resp) (logW : List BusOp) (clientW : i2c_client) (commandW : Nat)
    (dataW : List Nat) (data_lenW : Int) (mW : Nat)
    (hm : m ≤ 3)
    (hfail : ∀ j, j < m → (bus (log.length + j)).status < 0)
    (hstop : m < 3 → 0 ≤ (bus (log.length + m)).status)
    (hmW : mW ≤ 3)
    (hfailW : ∀ j, j < mW → (busW (logW.length + j)).status < 0)
    (hstopW : mW < 3 → 0 ≤ (busW (logW.length + mW)).status)
    (hlenW : 0 ≤ data_lenW) :
    ((sfp_eeprom_read bus log client command data data_len).log
        = log ++ List.replicate (min (m + 1) 3)
            (BusOp.read_block client command
              (min data_len I2C_SMBUS_BLOCK_MAX % 256).toNat) ∧
      (sfp_eeprom_read bus log client command data data_len).status
        = (if m = 3 then (bus (log.length + 2)).status
           else if (bus (log.length + m)).status = min data_len I2C_SMBUS_BLOCK_MAX then
             min data_len I2C_SMBUS_BLOCK_MAX
           else -EIO_ERRNO) ∧
      ((sfp_eeprom_read bus log client command data data_len).status < 0 ↔
        (m = 3 ∨ (bus (log.length + m)).status ≠ min data_len I2C_SMBUS_BLOCK_MAX))) ∧
    ((sfp_eeprom_write busW logW clientW commandW dataW data_lenW).2
        = logW ++ List.replicate (min (mW + 1) 3)
            (BusOp.write_block clientW commandW
              (min data_lenW I2C_SMBUS_BLOCK_MAX % 256).toNat
              (dataW.take (min data_lenW I2C_SMBUS_BLOCK_MAX % 256).toNat)) ∧
      (sfp_eeprom_write busW logW clientW commandW dataW data_lenW).1
        = (if mW = 3 then (busW (logW.length + 2)).status
           else min data_lenW I2C_SMBUS_BLOCK_MAX) ∧
      ((sfp_eeprom_write busW logW clientW commandW dataW data_lenW).1 < 0 ↔ mW = 3)) := by
  have hc0 : 0 ≤ min data_lenW I2C_SMBUS_BLOCK_MAX := by
    rw [min_def, I2C_SMBUS_BLOCK_MAX]
    split_ifs <;> omega
  constructor
  · obtain ⟨hlog, hstatus⟩ := sfp_eeprom_read_fields bus log client command data data_len
    by_cases h3 : m = 3
    · subst h3
      have hloop := sfp_eeprom_read_loop_fail bus client command
        (min data_len I2C_SMBUS_BLOCK_MAX) 3 0 data log hfail
      have hneg : (bus (log.length + 2)).status < 0 := hfail 2 (by omega)
      simp only [I2C_RW_RETRY_COUNT, hloop] at hlog hstatus
      simp only [show ¬ (3 = 0) by decide, if_false, show 3 - 1 = 2 by decide, hneg,
        if_true] at hstatus
      refine ⟨by rw [hlog]; rfl, by rw [hstatus]; simp, ?_⟩
      rw [hstatus]
      simp [hneg]
    · have hlt : m < 3 := by omega
      obtain ⟨hs, hl⟩ := sfp_eeprom_read_loop_ok bus client command
        (min data_len I2C_SMBUS_BLOCK_MAX) m 3 0 data log hlt hfail (hstop hlt)
      simp only [I2C_RW_RETRY_COUNT, hl, hs] at hlog hstatus
      have hnn : ¬ (bus (log.length + m)).status < 0 := by
        have := hstop hlt
        omega
      simp only [hnn, if_false] at hstatus
      have hmin : min (m + 1) 3 = m + 1 := by omega
      refine ⟨by rw [hlog, hmin], by rw [hstatus]; simp [h3], ?_⟩
      rw [hstatus]
      by_cases heq : (bus (log.length + m)).status = min data_len I2C_SMBUS_BLOCK_MAX
      · simp only [heq, if_true, h3, false_or, ne_eq, not_true_eq_false, iff_false, not_lt]
        rw [← heq]
        exact hstop hlt
      · simp [heq, h3, EIO_ERRNO]
  · rw [sfp_eeprom_write_fields]
    by_cases h3 : mW = 3
    · subst h3
      have hloop := sfp_eeprom_write_loop_fail busW clientW commandW dataW
        (min data_lenW I2C_SMBUS_BLOCK_MAX) 3 0 logW hfailW
      have hneg : (busW (logW.length + 2)).status < 0 := hfailW 2 (by omega)
      simp only [I2C_RW_RETRY_COUNT]
      rw [hloop]
      simp [hneg]
    · have hlt : mW < 3 := by omega
      have hloop := sfp_eeprom_write_loop_ok busW clientW commandW dataW
        (min data_lenW I2C_SMBUS_BLOCK_MAX) mW 3 0 logW hlt hfailW (hstopW hlt)
      have hnn : ¬ (busW (logW.length + mW)).status < 0 := by
        have := hstopW hlt
        omega
      have hmin : min (mW + 1) 3 = mW + 1 := by omega
      simp only [I2C_RW_RETRY_COUNT]
      rw [hloop]
      simp only [hnn, if_false, hmin, h3, true_and, iff_false, not_lt]
      exact hc0

/-- C15 (amended), at a concrete input: a read that succeeds at its third
attempt (`m = 2`) and a write whose three attempts fail with -5, -6, -7
(`m = 3`). -/
theorem block_transaction_attempts_witness :
    ((sfp_eeprom_read busTwoFailures [] sfpClient 0 [0] 1).log
        = [] ++ List.replicate (min (2 + 1) 3)
            (BusOp.read_block sfpClient 0 (min 1 I2C_SMBUS_BLOCK_MAX % 256).toNat) ∧
      (sfp_eeprom_read busTwoFailures [] sfpClient 0 [0] 1).status
        = (if 2 = 3 then (busTwoFailures (([] : List BusOp).length + 2)).status
           else if (busTwoFailures (([] : List BusOp).length + 2)).status
               = min 1 I2C_SMBUS_BLOCK_MAX then
             min 1 I2C_SMBUS_BLOCK_MAX
           else -EIO_ERRNO) ∧
      ((sfp_eeprom_read busTwoFailures [] sfpClient 0 [0] 1).status < 0 ↔
        (2 = 3 ∨ (busTwoFailures (([] : List BusOp).length + 2)).status
          ≠ min 1 I2C_SMBUS_BLOCK_MAX))) ∧
    ((sfp_eeprom_write busFailCounting [] sfpClient 86 [4] 1).2
        = [] ++ List.replicate (min (3 + 1) 3)
            (BusOp.write_block sfpClient 86 (min 1 I2C_SMBUS_BLOCK_MAX % 256).toNat
              ([4].take (min 1 I2C_SMBUS_BLOCK_MAX % 256).toNat)) ∧
      (sfp_eeprom_write busFailCounting [] sfpClient 86 [4] 1).1
        = (if 3 = 3 then (busFailCounting (([] : List BusOp).length + 2)).status
           else min 1 I2C_SMBUS_BLOCK_MAX) ∧
      ((sfp_eeprom_write busFailCounting [] sfpClient 86 [4] 1).1 < 0 ↔ 3 = 3)) :=
  block_transaction_attempts busTwoFailures [] sfpClient 0 [0] 1 2
    busFailCounting [] sfpClient 86 [4] 1 3
    (by decide) (by decide) (by decide) (by decide) (by decide) (by decide) (by decide)

/-! Lemmas for the QSFP attributes -/

/-- The transactions of the retry loop of the write: at most `retry` attempts
of one and the same block write, at least one when `retry` is not 0. -/
theorem sfp_eeprom_write_loop_log (bus : Nat → Resp) (client : i2c_client) (command : Nat)
    (data : List Nat) (data_len : Int) :
    ∀ (retry : Nat) (status : Int) (log : List BusOp),
      ∃ n, n ≤ retry ∧ (retry ≠ 0 → 1 ≤ n) ∧
        (sfp_eeprom_write_loop bus client command data data_len retry status log).2
          = log ++ List.replicate n
              (BusOp.write_block client command (data_len % 256).toNat
                (data.take (data_len % 256).toNat)) := by
  intro retry
  induction retry with
  | zero =>
    intro status log
    exact ⟨0, Nat.le_refl _, by simp, by simp [sfp_eeprom_write_loop]⟩
  | succ r ih =>
    intro status log
    rw [sfp_eeprom_write_loop]
    by_cases h : (bus log.length).status < 0
    · obtain ⟨n, hn, _, hlog⟩ := ih (bus log.length).status
        (log ++ [BusOp.write_block client command (data_len % 256).toNat
          (data.take (data_len % 256).toNat)])
      refine ⟨n + 1, by omega, by omega, ?_⟩
      simp only [i2c_smbus_write_i2c_block_data, h, if_true]
      rw [hlog, List.replicate_succ]
      simp
    · refine ⟨1, by omega, by omega, ?_⟩
      simp [i2c_smbus_write_i2c_block_data, h]

/-- The transactions of a one-byte `sfp_eeprom_write`: between 1 and
`I2C_RW_RETRY_COUNT` attempts of the one-byte block write of that byte. -/
theorem sfp_eeprom_write_log (bus : Nat → Resp) (log : List BusOp) (client : i2c_client)
    (command : Nat) (value : Nat) :
    ∃ n, 1 ≤ n ∧ n ≤ 3 ∧
      (sfp_eeprom_write bus log client command [value] 1).2
        = log ++ List.replicate n (BusOp.write_block client command 1 [value]) := by
  obtain ⟨n, hn, h1, hlog⟩ := sfp_eeprom_write_loop_log bus client command [value] 1 3 0 log
  refine ⟨n, h1 (by omega), hn, ?_⟩
  have hl : ((1 : Int) % 256).toNat = 1 := by decide
  rw [hl] at hlog
  unfold sfp_eeprom_write
  simp only [I2C_SMBUS_BLOCK_MAX, I2C_RW_RETRY_COUNT, show ¬ ((1 : Int) > 32) by decide, if_false]
  split_ifs <;> simpa using hlog

/-- The status refresh leaves the client of the record alone. -/
theorem qsfp_update_tx_rx_status_client (HZ jiffies : Nat) (bus : Nat → Resp)
    (data : sfp_port_data) (log : List BusOp) :
    (qsfp_update_tx_rx_status HZ jiffies bus data log).2.1.client = data.client := by
  unfold qsfp_update_tx_rx_status
  simp only
  split_ifs <;> rfl

/-- The value `qsfp_set_tx_disable` computes for lane `L` from the status 0
when asked to disable. -/
theorem qsfp_tx_disable_value_lane (attr : sfp_sysfs_attributes) (L : Nat) (disable : Int)
    (hL : L < 4) (hattr : attr.val = TX_DISABLE1.val + L) (hdis : disable ≠ 0) :
    qsfp_tx_disable_value 0 attr disable = 1 <<< L := by
  have hne : attr ≠ TX_DISABLE := by
    rintro rfl
    simp only [sfp_sysfs_attributes.val] at hattr
    omega
  have hsub : attr.val - TX_DISABLE1.val = L := by
    rw [hattr]
    simp
  unfold qsfp_tx_disable_value
  simp only [hne, if_false, hdis, ne_eq, not_false_eq_true, if_true, hsub]
  interval_cases L <;> rfl

/-- The node found by the lookup has the address looked up. -/
theorem cpld_find_addr (l : List i2c_client) (cpld_addr : Nat) (c : i2c_client)
    (h : cpld_find l cpld_addr = some c) : c.addr = cpld_addr := by
  induction l with
  | nil => cases h
  | cons d rest ih =>
    rw [cpld_find] at h
    by_cases hd : d.addr = cpld_addr
    · rw [if_pos hd] at h
      cases h
      exact hd
    · rw [if_neg hd] at h
      exact ih h

/-- C16: whenever the presence query reports the port absent, `sfp_bin_read`
and `sfp_bin_write` return `-ENODEV`, `qsfp_show_tx_rx_status` (every
attribute) and `qsfp_set_tx_disable` return `-ENXIO` (the two errnos the source
returns under its comment "port is not present"); the only bus transactions of
each call are the two CPLD register reads of the presence query, so no
transceiver transaction is issued; and the cached status block is unchanged. -/
theorem absent_port_rejected (HZ jiffies : Nat) (bus : Nat → Resp)
    (cpld_client_list : List i2c_client) (data : sfp_port_data) (log : List BusOp)
    (buf : List Nat) (off : Int) (count : Nat) (attr attrS : sfp_sysfs_attributes)
    (kstrtol_status disable : Int) (countS : Nat)
    (habsent : (sfp_is_port_present bus cpld_client_list data log data.port).1 = 0) :
    ∃ c, c.addr = 0x62 ∧
      ((sfp_bin_read bus cpld_client_list data buf off count log).1.retval = -ENODEV ∧
        (sfp_bin_read bus cpld_client_list data buf off count log).1.log
          = log ++ [BusOp.read_byte c 0x30, BusOp.read_byte c 0x31] ∧
        (sfp_bin_read bus cpld_client_list data buf off count log).2.qsfp = data.qsfp) ∧
      ((sfp_bin_write bus cpld_client_list data buf off count log).1.retval = -ENODEV ∧
        (sfp_bin_write bus cpld_client_list data buf off count log).1.log
          = log ++ [BusOp.read_byte c 0x30, BusOp.read_byte c 0x31] ∧
        (sfp_bin_write bus cpld_client_list data buf off count log).2.qsfp = data.qsfp) ∧
      ((qsfp_show_tx_rx_status HZ jiffies bus cpld_client_list data log attr).1
          = ShowResult.error (-ENXIO_ERRNO) ∧
        (qsfp_show_tx_rx_status HZ jiffies bus cpld_client_list data log attr).2.2
          = log ++ [BusOp.read_byte c 0x30, BusOp.read_byte c 0x31] ∧
        (qsfp_show_tx_rx_status HZ jiffies bus cpld_client_list data log attr).2.1.qsfp
          = data.qsfp) ∧
      ((qsfp_set_tx_disable HZ jiffies bus cpld_client_list data log attrS kstrtol_status
          disable countS).1 = -ENXIO_ERRNO ∧
        (qsfp_set_tx_disable HZ jiffies bus cpld_client_list data log attrS kstrtol_status
          disable countS).2.2
          = log ++ [BusOp.read_byte c 0x30, BusOp.read_byte c 0x31] ∧
        (qsfp_set_tx_disable HZ jiffies bus cpld_client_list data log attrS kstrtol_status
          disable countS).2.1.qsfp = data.qsfp) := by
  obtain ⟨c, hc, hlog⟩ := sfp_is_port_present_log bus cpld_client_list data log data.port
    (by rw [habsent])
  have hq := sfp_is_port_present_qsfp bus cpld_client_list data log data.port
  refine ⟨c, cpld_find_addr cpld_client_list 0x62 c hc, ?_, ?_, ?_, ?_⟩
  · unfold sfp_bin_read
    simp only [habsent, show ¬ ((0 : Int) < 0) by decide, if_false, if_true]
    exact ⟨trivial, hlog, hq⟩
  · unfold sfp_bin_write
    simp only [habsent, show ¬ ((0 : Int) < 0) by decide, if_false, if_true]
    exact ⟨trivial, hlog, hq⟩
  · unfold qsfp_show_tx_rx_status
    simp only [habsent, show ¬ ((0 : Int) < 0) by decide, if_false, if_true]
    exact ⟨trivial, hlog, hq⟩
  · unfold qsfp_set_tx_disable
    simp only [habsent, show ¬ ((0 : Int) < 0) by decide, if_false, if_true]
    exact ⟨trivial, hlog, hq⟩

/-- C16, at a concrete input: port 0 absent, a valid status block cached, on a
bus whose transceiver transactions would succeed. -/
theorem absent_port_rejected_witness :
    ∃ c, c.addr = 0x62 ∧
      ((sfp_bin_read busAbsent [cpld2Client] qsfpPortCached [0, 0, 0, 0] 0 4 []).1.retval
          = -ENODEV ∧
        (sfp_bin_read busAbsent [cpld2Client] qsfpPortCached [0, 0, 0, 0] 0 4 []).1.log
          = [] ++ [BusOp.read_byte c 0x30, BusOp.read_byte c 0x31] ∧
        (sfp_bin_read busAbsent [cpld2Client] qsfpPortCached [0, 0, 0, 0] 0 4 []).2.qsfp
          = qsfpPortCached.qsfp) ∧
      ((sfp_bin_write busAbsent [cpld2Client] qsfpPortCached [0, 0, 0, 0] 0 4 []).1.retval
          = -ENODEV ∧
        (sfp_bin_write busAbsent [cpld2Client] qsfpPortCached [0, 0, 0, 0] 0 4 []).1.log
          = [] ++ [BusOp.read_byte c 0x30, BusOp.read_byte c 0x31] ∧
        (sfp_bin_write busAbsent [cpld2Client] qsfpPortCached [0, 0, 0, 0] 0 4 []).2.qsfp
          = qsfpPortCached.qsfp) ∧
      ((qsfp_show_tx_rx_status 100 5000 busAbsent [cpld2Client] qsfpPortCached [] RX_LOS1).1
          = ShowResult.error (-ENXIO_ERRNO) ∧
        (qsfp_show_tx_rx_status 100 5000 busAbsent [cpld2Client] qsfpPortCached [] RX_LOS1).2.2
          = [] ++ [BusOp.read_byte c 0x30, BusOp.read_byte c 0x31] ∧
        (qsfp_show_tx_rx_status 100 5000 busAbsent [cpld2Client] qsfpPortCached []
          RX_LOS1).2.1.qsfp = qsfpPortCached.qsfp) ∧
      ((qsfp_set_tx_disable 100 5000 busAbsent [cpld2Client] qsfpPortCached [] TX_DISABLE1 0 1
          2).1 = -ENXIO_ERRNO ∧
        (qsfp_set_tx_disable 100 5000 busAbsent [cpld2Client] qsfpPortCached [] TX_DISABLE1 0 1
          2).2.2 = [] ++ [BusOp.read_byte c 0x30, BusOp.read_byte c 0x31] ∧
        (qsfp_set_tx_disable 100 5000 busAbsent [cpld2Client] qsfpPortCached [] TX_DISABLE1 0 1
          2).2.1.qsfp = qsfpPortCached.qsfp) :=
  absent_port_rejected 100 5000 busAbsent [cpld2Client] qsfpPortCached [] [0, 0, 0, 0] 0 4
    RX_LOS1 TX_DISABLE1 0 1 2 (by decide)

/-! Lemmas for the chunk loops -/

theorem size_to_int_of_lt (count : Nat) (h : count < 2 ^ 31) :
    size_to_int count = (count : Int) := by
  unfold size_to_int
  have h1 : count % 2 ^ 32 = count := Nat.mod_eq_of_lt (by omega)
  rw [h1, if_pos h]

/-- A block read whose first attempt returns the requested count. -/
theorem sfp_eeprom_read_first_ok (bus : Nat → Resp) (log : List BusOp) (client : i2c_client)
    (command : Nat) (data : List Nat) (data_len : Int) (c : Nat)
    (hc : min data_len I2C_SMBUS_BLOCK_MAX = (c : Int))
    (h : (bus log.length).status = (c : Int)) :
    (sfp_eeprom_read bus log client command data data_len).status = (c : Int) ∧
    (sfp_eeprom_read bus log client command data data_len).log
      = log ++ [BusOp.read_block client command (c % 256)] := by
  obtain ⟨hlog, hstatus⟩ := sfp_eeprom_read_fields bus log client command data data_len
  obtain ⟨hs, hl⟩ := sfp_eeprom_read_loop_ok bus client command
    (min data_len I2C_SMBUS_BLOCK_MAX) 0 3 0 data log (by omega)
    (by intro j hj; omega) (by simp only [Nat.add_zero, h]; omega)
  simp only [Nat.add_zero, h] at hs
  have hnn : ¬ ((c : Int) < 0) := by omega
  have e : ((c : Int) % 256).toNat = c % 256 := by omega
  rw [hc] at hs hl
  simp only [I2C_RW_RETRY_COUNT, hc, hl, hs, hnn, if_false, if_true, e] at hlog hstatus
  exact ⟨hstatus, hlog⟩

/-- The read loop on a transport that returns every chunk in full at the
first attempt. -/
theorem sfp_port_read_loop_full (bus : Nat → Resp) (client : i2c_client) :
    ∀ (m fuel count : Nat) (off : Int) (done buf : List Nat) (retval : Int)
      (statuses : List Int) (log : List BusOp),
      count ≤ fuel → count < 2 ^ 31 → (count + 31) / 32 = m →
      (∀ i, i < m → (bus (log.length + i)).status = ((min 32 (count - 32 * i) : Nat) : Int)) →
      (sfp_port_read_loop bus client fuel count off done buf retval statuses log).retval
          = retval + count ∧
        (sfp_port_read_loop bus client fuel count off done buf retval statuses log).log
          = log ++ (List.range m).map (fun (i : Nat) =>
              BusOp.read_block client ((off + 32 * (i : Int)) % 256).toNat
                (min 32 (count - 32 * i))) ∧
        (sfp_port_read_loop bus client fuel count off done buf retval statuses log).statuses
          = statuses ++ (List.range m).map (fun i => ((min 32 (count - 32 * i) : Nat) : Int)) := by
  intro m
  induction m with
  | zero =>
    intro fuel count off done buf retval statuses log _ _ hm _
    have hc0 : count = 0 := by omega
    subst hc0
    cases fuel <;> simp [sfp_port_read_loop]
  | succ m ih =>
    intro fuel count off done buf retval statuses log hfuel h31 hm hfull
    have hpos : 0 < count := by omega
    obtain ⟨f, rfl⟩ : ∃ f, fuel = f + 1 := ⟨fuel - 1, by omega⟩
    have h0 := hfull 0 (by omega)
    simp only [Nat.add_zero, Nat.mul_zero, Nat.sub_zero] at h0
    have hclamp : min (size_to_int count) I2C_SMBUS_BLOCK_MAX = ((min 32 count : Nat) : Int) := by
      rw [size_to_int_of_lt count h31, I2C_SMBUS_BLOCK_MAX]
      omega
    obtain ⟨hs, hl⟩ := sfp_eeprom_read_first_ok bus log client (off % 256).toNat buf
      (size_to_int count) (min 32 count) hclamp h0
    have hmod : min 32 count % 256 = min 32 count := by omega
    rw [hmod] at hl
    have hcnt : ulong (count + 2 ^ BITS_PER_LONG - ((min 32 count : Nat) : Int).toNat)
        = count - min 32 count := by
      unfold ulong BITS_PER_LONG
      omega
    have hnle : ¬ (((min 32 count : Nat) : Int) ≤ 0) := by omega
    simp only [sfp_port_read_loop, Nat.pos_iff_ne_zero.mp hpos, if_false, hs, hl, hnle, hcnt]
    obtain ⟨hr, hlg, hst⟩ := ih f (count - min 32 count) (off + ((min 32 count : Nat) : Int))
      (done ++ (sfp_eeprom_read bus log client (off % 256).toNat buf (size_to_int count)).data.take
        ((min 32 count : Nat) : Int).toNat)
      ((sfp_eeprom_read bus log client (off % 256).toNat buf (size_to_int count)).data.drop
        ((min 32 count : Nat) : Int).toNat)
      (retval + ((min 32 count : Nat) : Int))
      (statuses ++ [((min 32 count : Nat) : Int)])
      (log ++ [BusOp.read_block client (off % 256).toNat (min 32 count)])
      (by omega) (by omega) (by omega)
      (by
        intro i hi
        have := hfull (i + 1) (by omega)
        rw [List.length_append, List.length_singleton, Nat.add_assoc, Nat.add_comm 1 i, this]
        congr 1
        omega)
    refine ⟨?_, ?_, ?_⟩
    · rw [hr]
      omega
    · rw [hlg, List.range_succ_eq_map, List.map_cons, List.map_map, List.append_assoc]
      congr 1
      simp only [List.singleton_append, Nat.cast_zero, mul_zero, add_zero, Nat.mul_zero,
        Nat.sub_zero]
      congr 1
      apply List.map_congr_left
      intro i hi
      have hi' : i < m := List.mem_range.mp hi
      simp only [Function.comp, Nat.succ_eq_add_one]
      have e1 : (off + ((min 32 count : Nat) : Int) + 32 * (i : Int)) % 256
          = (off + 32 * (((i + 1 : Nat)) : Int)) % 256 := by
        congr 1
        push_cast
        omega
      have e2 : min 32 (count - min 32 count - 32 * i) = min 32 (count - 32 * (i + 1)) := by
        omega
      rw [e1, e2]
    · rw [hst, List.range_succ_eq_map, List.map_cons, List.map_map, List.append_assoc]
      congr 1
      simp only [List.singleton_append, Nat.mul_zero, Nat.sub_zero]
      congr 1
      apply List.map_congr_left
      intro i hi
      have hi' : i < m := List.mem_range.mp hi
      simp only [Function.comp, Nat.succ_eq_add_one]
      congr 1
      omega

/-- C13 (as stated, refuted): a read of 300 bytes from offset 0 on a transport
that returns every chunk in full returns 300 after ten block reads, not two:
the block size is `I2C_SMBUS_BLOCK_MAX = 32`, so the chunks are nine of 32 and
one of 12; the command is a `u8`, so the ninth read, after 256 bytes, is issued
at command 0, not 256.  And a read of `2 ^ 31` bytes, whose length is negative
as an `int`, returns `-EIO`. -/
theorem port_read_300_is_ten_chunks :
    (sfp_port_read busFull300 qsfpPortFresh (List.replicate 300 0) 0 300 []).retval = 300 ∧
    (sfp_port_read busFull300 qsfpPortFresh (List.replicate 300 0) 0 300 []).log
      = [BusOp.read_block sfpClient 0 32, BusOp.read_block sfpClient 32 32,
         BusOp.read_block sfpClient 64 32, BusOp.read_block sfpClient 96 32,
         BusOp.read_block sfpClient 128 32, BusOp.read_block sfpClient 160 32,
         BusOp.read_block sfpClient 192 32, BusOp.read_block sfpClient 224 32,
         BusOp.read_block sfpClient 0 32, BusOp.read_block sfpClient 32 12] ∧
    (sfp_port_read busZero qsfpPortFresh [] 0 (2 ^ 31) []).retval = -5 := by
  decide

/-- C13 (amended): for every start offset `off` and every length `n` with
`0 < n < 2 ^ 31`, on a transport that returns every chunk in full at the first
attempt, `sfp_port_read` returns `n` after issuing `ceil(n / 32)` block reads
(`I2C_SMBUS_BLOCK_MAX = 32`), where the k-th read has length
`min(32, bytes still remaining)` and is issued at the command
`(off + bytes already returned) mod 256`. -/
theorem port_read_chunks (bus : Nat → Resp) (data : sfp_port_data) (buf : List Nat)
    (off : Int) (n : Nat) (log : List BusOp)
    (hn : 0 < n) (h31 : n < 2 ^ 31)
    (hfull : ∀ i, i < (n + 31) / 32 →
      (bus (log.length + i)).status = ((min 32 (n - 32 * i) : Nat) : Int)) :
    (sfp_port_read bus data buf off n log).retval = n ∧
    (sfp_port_read bus data buf off n log).log
      = log ++ (List.range ((n + 31) / 32)).map (fun (i : Nat) =>
          BusOp.read_block data.client ((off + 32 * (i : Int)) % 256).toNat
            (min 32 (n - 32 * i))) ∧
    (sfp_port_read bus data buf off n log).statuses
      = (List.range ((n + 31) / 32)).map (fun i => ((min 32 (n - 32 * i) : Nat) : Int)) := by
  unfold sfp_port_read
  rw [if_neg (by omega)]
  obtain ⟨hr, hl, hs⟩ := sfp_port_read_loop_full bus data.client ((n + 31) / 32) n n off [] buf
    0 [] log (Nat.le_refl _) h31 rfl hfull
  refine ⟨?_, hl, ?_⟩
  · rw [hr]
    simp
  · rw [hs]
    simp

/-- C13 (amended), at a concrete input: 100 bytes from offset 200, read as
chunks of 32, 32, 32 and 4 at the commands 200, 232, 8 and 40. -/
theorem port_read_chunks_witness :
    (sfp_port_read busFull100 qsfpPortFresh (List.replicate 100 0) 200 100 []).retval
      = (100 : Nat) ∧
    (sfp_port_read busFull100 qsfpPortFresh (List.replicate 100 0) 200 100 []).log
      = [] ++ (List.range ((100 + 31) / 32)).map (fun (i : Nat) =>
          BusOp.read_block qsfpPortFresh.client ((200 + 32 * (i : Int)) % 256).toNat
            (min 32 (100 - 32 * i))) ∧
    (sfp_port_read busFull100 qsfpPortFresh (List.replicate 100 0) 200 100 []).statuses
      = (List.range ((100 + 31) / 32)).map (fun i => ((min 32 (100 - 32 * i) : Nat) : Int)) :=
  port_read_chunks busFull100 qsfpPortFresh (List.replicate 100 0) 200 100 []
    (by decide) (by decide) (by decide)

/-- C29: for every register byte `r`, `reg_val_to_duty_cycle r` is a percentage
in 0..100 and `duty_cycle_to_reg_val (reg_val_to_duty_cycle r) = r & 0xF`. -/
theorem duty_cycle_round_trip (r : Nat) (hr : r < 256) :
    reg_val_to_duty_cycle r ≤ 100 ∧
    duty_cycle_to_reg_val (reg_val_to_duty_cycle r) = r &&& 0xF := by
  have hmask : r % 256 &&& 0xF = r % 16 := by
    rw [Nat.mod_eq_of_lt hr]
    exact Nat.and_pow_two_sub_one_eq_mod r 4
  have hmask2 : r &&& 0xF = r % 16 := Nat.and_pow_two_sub_one_eq_mod r 4
  have hlt : r % 16 < 16 := Nat.mod_lt _ (by decide)
  unfold reg_val_to_duty_cycle
  rw [hmask, hmask2]
  generalize r % 16 = x at hlt
  interval_cases x <;> decide

/-- C29, at a concrete input: the register byte `0xA7`. -/
theorem duty_cycle_round_trip_witness :
    reg_val_to_duty_cycle 0xA7 ≤ 100 ∧
    duty_cycle_to_reg_val (reg_val_to_duty_cycle 0xA7) = 0xA7 &&& 0xF :=
  duty_cycle_round_trip 0xA7 (by decide)

set_option maxRecDepth 200000 in
/-- The round trip of the LED mode conversion, for the four LED types and the
four modes of the table, checked on every byte. -/
theorem led_round_trip_all :
    ∀ type, type ∈ [LED_TYPE_PSU, LED_TYPE_FAN, LED_TYPE_RLS, LED_TYPE_DIAG] →
    ∀ mode, mode ∈ [LED_MODE_OFF, LED_MODE_GREEN, LED_MODE_RED, LED_MODE_BLUE] →
    ∀ r, r < 256 →
      led_reg_val_to_light_mode type (led_light_mode_to_reg_val type mode r) = mode := by
  decide

/-- C28: for every LED type in PSU, FAN, RLS, DIAG, every mode in OFF, GREEN,
RED, BLUE and every prior register byte `r`,
`led_reg_val_to_light_mode type (led_light_mode_to_reg_val type mode r) = mode`. -/
theorem led_mode_round_trip (type : led_type) (mode : led_light_mode) (r : Nat)
    (htype : type ∈ [LED_TYPE_PSU, LED_TYPE_FAN, LED_TYPE_RLS, LED_TYPE_DIAG])
    (hmode : mode ∈ [LED_MODE_OFF, LED_MODE_GREEN, LED_MODE_RED, LED_MODE_BLUE])
    (hr : r < 256) :
    led_reg_val_to_light_mode type (led_light_mode_to_reg_val type mode r) = mode :=
  led_round_trip_all type htype mode hmode r hr

/-- C28, at a concrete input: the PSU LED set to red over the register byte
`0x5A`. -/
theorem led_mode_round_trip_witness :
    led_reg_val_to_light_mode LED_TYPE_PSU
      (led_light_mode_to_reg_val LED_TYPE_PSU LED_MODE_RED 0x5A) = LED_MODE_RED :=
  led_mode_round_trip LED_TYPE_PSU LED_MODE_RED 0x5A (by decide) (by decide) (by decide)

/-! The claims, continued: attaching and detaching endpoints -/

/-- C22 (as stated, refuted): attaching a second endpoint with the address
`0x60` to a registry that already has one neither fails nor leaves the registry
unchanged: the registry then has two nodes with that address, the new one
first, and reads of `0x60` go to the new endpoint. -/
theorem add_client_accepts_duplicate :
    omp800_cpld_add_client true cpld1Twin [cpld1Client, cpld2Client]
      = [cpld1Twin, cpld1Client, cpld2Client] ∧
    omp800_cpld_add_client true cpld1Twin [cpld1Client, cpld2Client]
      ≠ [cpld1Client, cpld2Client] ∧
    omp800_cpld_read busAllGood []
      (omp800_cpld_add_client true cpld1Twin [cpld1Client, cpld2Client]) 0x60 0x02
      = (0x20, [BusOp.read_byte cpld1Twin 0x02]) := by
  decide

/-- C22 (amended): `omp800_cpld_add_client` makes no duplicate-address check and
reports nothing: when its allocation succeeds it inserts the endpoint at the
head of the registry, whether or not the address is already present, and reads
of that address then go to the new endpoint; when the allocation fails the
registry is unchanged. -/
theorem add_client_inserts_at_head (client : i2c_client) (cpld_client_list : List i2c_client)
    (bus : Nat → Resp) (log : List BusOp) (reg : Nat) :
    omp800_cpld_add_client true client cpld_client_list = client :: cpld_client_list ∧
    omp800_cpld_add_client false client cpld_client_list = cpld_client_list ∧
    omp800_cpld_read bus log (omp800_cpld_add_client true client cpld_client_list)
      client.addr reg = ((bus log.length).status, log ++ [BusOp.read_byte client reg]) := by
  refine ⟨rfl, rfl, ?_⟩
  simp [omp800_cpld_add_client, omp800_cpld_read, i2c_smbus_read_byte_data]

/-! The claims, continued: the QSFP status block -/

/-- The idiom `!!(x)` is 1 exactly when `x` is not 0. -/
theorem bang_bang_eq (x : Nat) : bang_bang x = if x ≠ 0 then 1 else 0 := by
  unfold bang_bang
  split_ifs <;> simp_all

/-- C23: on a present QSFP port whose status refresh succeeds,
`qsfp_show_tx_rx_status` prints a value computed from the cached status block
`st`: for every lane `L` in 0..3 the per-lane accessor (tx-fault, tx-disable,
rx-loss) prints 1 if `s & (1 << L) != 0` and 0 otherwise, and the all-lanes
accessor prints 1 if `s & 0xF != 0` and 0 otherwise, `s` being the byte of `st`
the accessor reads (`st[2]`, `st[1]`, `st[0]`); the printed value is always 0
or 1. -/
theorem qsfp_show_lane_bits (HZ jiffies : Nat) (bus : Nat → Resp)
    (cpld_client_list : List i2c_client) (data : sfp_port_data) (log : List BusOp)
    (attr : sfp_sysfs_attributes) (L : Nat) (st : List Nat) (hL : L < 4)
    (hpresent : (sfp_is_port_present bus cpld_client_list data log data.port).1 = 1)
    (hupd : (qsfp_update_tx_rx_status HZ jiffies bus
      (sfp_is_port_present bus cpld_client_list data log data.port).2.1
      (sfp_is_port_present bus cpld_client_list data log data.port).2.2).1 = none)
    (hst : (qsfp_update_tx_rx_status HZ jiffies bus
      (sfp_is_port_present bus cpld_client_list data log data.port).2.1
      (sfp_is_port_present bus cpld_client_list data log data.port).2.2).2.1.qsfp.status = st) :
    (qsfp_show_tx_rx_status HZ jiffies bus cpld_client_list data log attr).1
      = ShowResult.printed (qsfp_show_val st attr) ∧
    (qsfp_show_val st attr = 0 ∨ qsfp_show_val st attr = 1) ∧
    (attr.val = TX_FAULT1.val + L →
      qsfp_show_val st attr = if st.getD 2 0 &&& (1 <<< L) ≠ 0 then 1 else 0) ∧
    (attr.val = TX_DISABLE1.val + L →
      qsfp_show_val st attr = if st.getD 1 0 &&& (1 <<< L) ≠ 0 then 1 else 0) ∧
    (attr.val = RX_LOS1.val + L →
      qsfp_show_val st attr = if st.getD 0 0 &&& (1 <<< L) ≠ 0 then 1 else 0) ∧
    (attr = TX_FAULT → qsfp_show_val st attr = if st.getD 2 0 &&& 0xF ≠ 0 then 1 else 0) ∧
    (attr = TX_DISABLE → qsfp_show_val st attr = if st.getD 1 0 &&& 0xF ≠ 0 then 1 else 0) ∧
    (attr = RX_LOS → qsfp_show_val st attr = if st.getD 0 0 &&& 0xF ≠ 0 then 1 else 0) := by
  refine ⟨?_, ?_, ?_, ?_, ?_, ?_, ?_, ?_⟩
  · unfold qsfp_show_tx_rx_status
    simp only [hpresent, show ¬ ((1 : Int) < 0) by decide, show ¬ ((1 : Int) = 0) by decide,
      if_false]
    generalize qsfp_update_tx_rx_status HZ jiffies bus
      (sfp_is_port_present bus cpld_client_list data log data.port).2.1
      (sfp_is_port_present bus cpld_client_list data log data.port).2.2 = u at hupd hst ⊢
    obtain ⟨e, d, l⟩ := u
    simp only at hupd hst
    subst hupd
    simp only [hst]
  · cases attr <;> simp only [qsfp_show_val, bang_bang] <;> (try split_ifs) <;> simp
  · intro hattr
    cases attr <;> simp only [sfp_sysfs_attributes.val] at hattr <;> (try omega)
    all_goals simp only [qsfp_show_val, bang_bang_eq, sfp_sysfs_attributes.val]
    · obtain rfl : L = 0 := by omega
      rfl
    · obtain rfl : L = 1 := by omega
      rfl
    · obtain rfl : L = 2 := by omega
      rfl
    · obtain rfl : L = 3 := by omega
      rfl
  · intro hattr
    cases attr <;> simp only [sfp_sysfs_attributes.val] at hattr <;> (try omega)
    all_goals simp only [qsfp_show_val, bang_bang_eq, sfp_sysfs_attributes.val]
    · obtain rfl : L = 0 := by omega
      rfl
    · obtain rfl : L = 1 := by omega
      rfl
    · obtain rfl : L = 2 := by omega
      rfl
    · obtain rfl : L = 3 := by omega
      rfl
  · intro hattr
    cases attr <;> simp only [sfp_sysfs_attributes.val] at hattr <;> (try omega)
    all_goals simp only [qsfp_show_val, bang_bang_eq, sfp_sysfs_attributes.val]
    · obtain rfl : L = 0 := by omega
      rfl
    · obtain rfl : L = 1 := by omega
      rfl
    · obtain rfl : L = 2 := by omega
      rfl
    · obtain rfl : L = 3 := by omega
      rfl
  · rintro rfl
    simp only [qsfp_show_val, bang_bang_eq]
  · rintro rfl
    simp only [qsfp_show_val, bang_bang_eq]
  · rintro rfl
    simp only [qsfp_show_val, bang_bang_eq]

/-- C23, at a concrete input: the tx-disable accessor of lane 2
(`TX_DISABLE2`, `L = 1`) on a present port whose refreshed status block is
`[1, 2, 4]`. -/
theorem qsfp_show_lane_bits_witness :
    (qsfp_show_tx_rx_status 100 1000 busQsfpStatus [cpld2Client] qsfpPortFresh []
        TX_DISABLE2).1 = ShowResult.printed (qsfp_show_val [1, 2, 4] TX_DISABLE2) ∧
    (qsfp_show_val [1, 2, 4] TX_DISABLE2 = 0 ∨ qsfp_show_val [1, 2, 4] TX_DISABLE2 = 1) ∧
    (TX_DISABLE2.val = TX_FAULT1.val + 1 →
      qsfp_show_val [1, 2, 4] TX_DISABLE2
        = if [1, 2, 4].getD 2 0 &&& (1 <<< 1) ≠ 0 then 1 else 0) ∧
    (TX_DISABLE2.val = TX_DISABLE1.val + 1 →
      qsfp_show_val [1, 2, 4] TX_DISABLE2
        = if [1, 2, 4].getD 1 0 &&& (1 <<< 1) ≠ 0 then 1 else 0) ∧
    (TX_DISABLE2.val = RX_LOS1.val + 1 →
      qsfp_show_val [1, 2, 4] TX_DISABLE2
        = if [1, 2, 4].getD 0 0 &&& (1 <<< 1) ≠ 0 then 1 else 0) ∧
    (TX_DISABLE2 = TX_FAULT →
      qsfp_show_val [1, 2, 4] TX_DISABLE2 = if [1, 2, 4].getD 2 0 &&& 0xF ≠ 0 then 1 else 0) ∧
    (TX_DISABLE2 = TX_DISABLE →
      qsfp_show_val [1, 2, 4] TX_DISABLE2 = if [1, 2, 4].getD 1 0 &&& 0xF ≠ 0 then 1 else 0) ∧
    (TX_DISABLE2 = RX_LOS →
      qsfp_show_val [1, 2, 4] TX_DISABLE2 = if [1, 2, 4].getD 0 0 &&& 0xF ≠ 0 then 1 else 0) :=
  qsfp_show_lane_bits 100 1000 busQsfpStatus [cpld2Client] qsfpPortFresh [] TX_DISABLE2 1
    [1, 2, 4] (by decide) (by decide) (by decide) (by decide)

/-- C24 (the code departs from the documented layout): on a present port whose
second-pass reads deliver `0x01` at address 4 (tx-fault, lane 1 set), `0x02` at
address 86 (tx-disable) and `0x04` at address 3 (rx-loss, lane 3 set), the
refresh stores `[1, 2, 4]` (index 0 tx-fault, 1 tx-disable, 2 rx-loss), but the
accessors read the block crosswise: tx-fault of lane 1 prints 0 and of lane 3
prints 1, rx-loss of lane 1 prints 1 and of lane 3 prints 0; only tx-disable
(lane 2 prints 1) is reported from its own register. -/
theorem qsfp_show_swaps_fault_and_loss :
    (qsfp_show_tx_rx_status 100 1000 busQsfpStatus [cpld2Client] qsfpPortFresh []
        TX_FAULT1).2.1.qsfp.status = [1, 2, 4] ∧
    (qsfp_show_tx_rx_status 100 1000 busQsfpStatus [cpld2Client] qsfpPortFresh []
        TX_FAULT1).2.2.drop 2
      = [BusOp.read_block sfpClient 4 1, BusOp.read_block sfpClient 86 1,
         BusOp.read_block sfpClient 3 1, BusOp.read_block sfpClient 4 1,
         BusOp.read_block sfpClient 86 1, BusOp.read_block sfpClient 3 1] ∧
    (qsfp_show_tx_rx_status 100 1000 busQsfpStatus [cpld2Client] qsfpPortFresh []
        TX_FAULT1).1 = ShowResult.printed 0 ∧
    (qsfp_show_tx_rx_status 100 1000 busQsfpStatus [cpld2Client] qsfpPortFresh []
        TX_FAULT3).1 = ShowResult.printed 1 ∧
    (qsfp_show_tx_rx_status 100 1000 busQsfpStatus [cpld2Client] qsfpPortFresh []
        RX_LOS1).1 = ShowResult.printed 1 ∧
    (qsfp_show_tx_rx_status 100 1000 busQsfpStatus [cpld2Client] qsfpPortFresh []
        RX_LOS3).1 = ShowResult.printed 0 ∧
    (qsfp_show_tx_rx_status 100 1000 busQsfpStatus [cpld2Client] qsfpPortFresh []
        TX_DISABLE2).1 = ShowResult.printed 1 := by
  decide

set_option maxRecDepth 200000 in
/-- The byte `qsfp_set_tx_disable` computes for one lane, for every old byte
and lane: the formulas of the two branches. -/
theorem qsfp_lane_value_eq :
    ∀ old, old < 256 → ∀ L, L < 4 →
      (old ||| (1 <<< L) % 2 ^ 32) % 256 = old ||| (1 <<< L) ∧
      (old &&& int_not (1 <<< L)) % 256 = old &&& (0xFF - (1 <<< L)) ∧
      (old ||| (1 <<< L)).testBit L = true ∧
      (old &&& (0xFF - (1 <<< L))).testBit L = false := by
  decide

set_option maxRecDepth 200000 in
/-- The byte `qsfp_set_tx_disable` computes for one lane, for every old byte
and lane: the bits it leaves alone. -/
theorem qsfp_lane_value_frame :
    ∀ old, old < 256 → ∀ L, L < 4 → ∀ j, j < 8 →
      j = L ∨ ((old ||| (1 <<< L)).testBit j = old.testBit j ∧
        (old &&& (0xFF - (1 <<< L))).testBit j = old.testBit j) := by
  decide

set_option maxRecDepth 100000 in
/-- The byte `qsfp_set_tx_disable` computes for all lanes, for every old byte:
the low nibble is `0xF` or 0 and the high nibble is the old one. -/
theorem qsfp_all_lanes_value_bits :
    ∀ old, old < 256 →
      (old ||| 0xF) % 256 &&& 0xF = 0xF ∧ (old ||| 0xF) % 256 &&& 0xF0 = old &&& 0xF0 ∧
      (old &&& int_not 0xF) % 256 &&& 0xF = 0 ∧
      (old &&& int_not 0xF) % 256 &&& 0xF0 = old &&& 0xF0 := by
  decide

/-- A bit of a byte beyond the eighth is clear. -/
theorem testBit_byte_high (x j : Nat) (hx : x < 256) (hj : 8 ≤ j) : x.testBit j = false := by
  apply Nat.testBit_eq_false_of_lt
  calc x < 2 ^ 8 := hx
    _ ≤ 2 ^ j := Nat.pow_le_pow_right (by decide) hj

/-- Storing a value below 16 at any index keeps a block of three values below
16 such a block. -/
theorem status_block_set (st : List Nat) (i v : Nat)
    (h : ∃ a b c, st = [a, b, c] ∧ a < 16 ∧ b < 16 ∧ c < 16) (hv : v < 16) :
    ∃ a b c, st.set i v = [a, b, c] ∧ a < 16 ∧ b < 16 ∧ c < 16 := by
  obtain ⟨a, b, c, rfl, ha, hb, hc⟩ := h
  match i with
  | 0 => exact ⟨v, b, c, rfl, hv, hb, hc⟩
  | 1 => exact ⟨a, v, c, rfl, ha, hv, hc⟩
  | 2 => exact ⟨a, b, v, rfl, ha, hb, hv⟩
  | n + 3 => exact ⟨a, b, c, rfl, ha, hb, hc⟩

/-- The second loop of the refresh keeps the status bytes below 16. -/
theorem qsfp_store_loop_low_nibble (bus : Nat → Resp) (client : i2c_client) :
    ∀ (todo i : Nat) (status : Int) (buf : List Nat) (qsfp : qsfp_data) (log : List BusOp),
      (∃ a b c, qsfp.status = [a, b, c] ∧ a < 16 ∧ b < 16 ∧ c < 16) →
      ∃ a b c, (qsfp_store_loop bus client todo i status buf qsfp log).2.1.status = [a, b, c] ∧
        a < 16 ∧ b < 16 ∧ c < 16 := by
  intro todo
  induction todo with
  | zero =>
    intro i status buf qsfp log h
    exact h
  | succ t ih =>
    intro i status buf qsfp log h
    rw [qsfp_store_loop]
    split_ifs
    · exact h
    · apply ih
      exact status_block_set qsfp.status i _ h (Nat.lt_succ_of_le Nat.and_le_right)

/-- The status refresh keeps the status bytes below 16, whatever its outcome. -/
theorem qsfp_update_low_nibble (HZ jiffies : Nat) (bus : Nat → Resp) (data : sfp_port_data)
    (log : List BusOp)
    (h : ∃ a b c, data.qsfp.status = [a, b, c] ∧ a < 16 ∧ b < 16 ∧ c < 16) :
    ∃ a b c, (qsfp_update_tx_rx_status HZ jiffies bus data log).2.1.qsfp.status = [a, b, c] ∧
      a < 16 ∧ b < 16 ∧ c < 16 := by
  unfold qsfp_update_tx_rx_status
  simp only
  split_ifs
  · exact h
  · exact ⟨0, 0, 0, rfl, by decide, by decide, by decide⟩
  · exact qsfp_store_loop_low_nibble bus data.client 3 0 _ _ _ _
      ⟨0, 0, 0, rfl, by decide, by decide, by decide⟩
  · exact qsfp_store_loop_low_nibble bus data.client 3 0 _ _ _ _
      ⟨0, 0, 0, rfl, by decide, by decide, by decide⟩

/-- The byte computed by a store to a registered tx-disable attribute from a
byte below 16 is below 16. -/
theorem qsfp_tx_disable_value_lt (old : Nat) (attr : sfp_sysfs_attributes) (disable : Int)
    (hold : old < 16)
    (hattr : attr ∈ [TX_DISABLE, TX_DISABLE1, TX_DISABLE2, TX_DISABLE3, TX_DISABLE4]) :
    qsfp_tx_disable_value old attr disable < 16 := by
  simp only [List.mem_cons, List.mem_singleton, List.not_mem_nil, or_false] at hattr
  rcases hattr with rfl | rfl | rfl | rfl | rfl <;>
    simp only [qsfp_tx_disable_value, sfp_sysfs_attributes.val, reduceCtorEq, if_false,
      if_true] <;> split_ifs <;> interval_cases old <;> decide

/-- One call keeps the status bytes below 16. -/
theorem qsfp_call_low_nibble (c : qsfp_call) (s : sfp_port_data × List BusOp)
    (hreg : c.registered = true)
    (h : ∃ x y z, s.1.qsfp.status = [x, y, z] ∧ x < 16 ∧ y < 16 ∧ z < 16) :
    ∃ x y z, (c.run s).1.qsfp.status = [x, y, z] ∧ x < 16 ∧ y < 16 ∧ z < 16 := by
  have hp : ∀ cl bus, ∃ x y z,
      (sfp_is_port_present bus cl s.1 s.2 s.1.port).2.1.qsfp.status = [x, y, z] ∧
        x < 16 ∧ y < 16 ∧ z < 16 := by
    intro cl bus
    rw [sfp_is_port_present_qsfp]
    exact h
  cases c with
  | refresh HZ jiffies bus => exact qsfp_update_low_nibble HZ jiffies bus s.1 s.2 h
  | show_status HZ jiffies bus cl attr =>
    simp only [qsfp_call.run, qsfp_show_tx_rx_status]
    split_ifs
    · exact hp cl bus
    · exact hp cl bus
    · have hu := qsfp_update_low_nibble HZ jiffies bus
        (sfp_is_port_present bus cl s.1 s.2 s.1.port).2.1
        (sfp_is_port_present bus cl s.1 s.2 s.1.port).2.2 (hp cl bus)
      generalize qsfp_update_tx_rx_status HZ jiffies bus
        (sfp_is_port_present bus cl s.1 s.2 s.1.port).2.1
        (sfp_is_port_present bus cl s.1 s.2 s.1.port).2.2 = u at hu ⊢
      obtain ⟨e, d, l⟩ := u
      cases e <;> exact hu
  | set_tx_disable HZ jiffies bus cl attr kstrtol_status disable count =>
    have hattr : attr ∈ [TX_DISABLE, TX_DISABLE1, TX_DISABLE2, TX_DISABLE3, TX_DISABLE4] := by
      simpa [qsfp_call.registered] using hreg
    simp only [qsfp_call.run, qsfp_set_tx_disable]
    split_ifs
    · exact hp cl bus
    · exact hp cl bus
    · exact hp cl bus
    · have hu := qsfp_update_low_nibble HZ jiffies bus
        (sfp_is_port_present bus cl s.1 s.2 s.1.port).2.1
        (sfp_is_port_present bus cl s.1 s.2 s.1.port).2.2 (hp cl bus)
      generalize qsfp_update_tx_rx_status HZ jiffies bus
        (sfp_is_port_present bus cl s.1 s.2 s.1.port).2.1
        (sfp_is_port_present bus cl s.1 s.2 s.1.port).2.2 = u at hu ⊢
      obtain ⟨e, d, l⟩ := u
      cases e with
      | some err => exact hu
      | none =>
        simp only at hu ⊢
        apply status_block_set _ 1 _ hu
        apply qsfp_tx_disable_value_lt _ attr disable _ hattr
        obtain ⟨x, y, z, hst, _, hy, _⟩ := hu
        rw [hst]
        exact hy

/-- C27: starting from the zero-initialised status block, after any sequence of
status refreshes (successful or failed, each with its own bus behaviour and
tick counter), `show` calls and `qsfp_set_tx_disable` calls on the attributes
it is registered for (per lane or all lanes, any flag value), the cached status
block still has its three bytes, each below 16. -/
theorem qsfp_status_low_nibble (calls : List qsfp_call) (data : sfp_port_data)
    (log : List BusOp) (hzero : data.qsfp.status = [0, 0, 0])
    (hreg : ∀ c, c ∈ calls → c.registered = true) :
    ∃ x y z, (qsfp_run_calls calls (data, log)).1.qsfp.status = [x, y, z] ∧
      x < 16 ∧ y < 16 ∧ z < 16 := by
  have key : ∀ (cs : List qsfp_call) (s : sfp_port_data × List BusOp),
      (∀ c, c ∈ cs → c.registered = true) →
      (∃ x y z, s.1.qsfp.status = [x, y, z] ∧ x < 16 ∧ y < 16 ∧ z < 16) →
      ∃ x y z, (qsfp_run_calls cs s).1.qsfp.status = [x, y, z] ∧ x < 16 ∧ y < 16 ∧ z < 16 := by
    intro cs
    induction cs with
    | nil =>
      intro s _ h
      exact h
    | cons c rest ih =>
      intro s hr h
      unfold qsfp_run_calls
      rw [List.foldl_cons]
      exact ih (c.run s) (fun d hd => hr d (List.mem_cons_of_mem c hd))
        (qsfp_call_low_nibble c s (hr c (List.mem_cons_self c rest)) h)
  exact key calls (data, log) hreg ⟨0, 0, 0, hzero, by decide, by decide, by decide⟩

/-- C27, at a concrete input: two refreshes around a failing one, a store that
disables all lanes, a store that enables lane 3 and a `show`, on a fresh port. -/
theorem qsfp_status_low_nibble_witness :
    ∃ x y z, (qsfp_run_calls qsfpCalls (qsfpPortFresh, [])).1.qsfp.status = [x, y, z] ∧
      x < 16 ∧ y < 16 ∧ z < 16 :=
  qsfp_status_low_nibble qsfpCalls qsfpPortFresh [] (by decide) (by decide)

/-! The claims, continued: termination of the chunk loops -/

/-- A block read that returns a positive count returns the clamped length. -/
theorem sfp_eeprom_read_pos (bus : Nat → Resp) (log : List BusOp) (client : i2c_client)
    (command : Nat) (data : List Nat) (data_len : Int)
    (h : ¬ (sfp_eeprom_read bus log client command data data_len).status ≤ 0) :
    (sfp_eeprom_read bus log client command data data_len).status
      = min data_len I2C_SMBUS_BLOCK_MAX := by
  have hs := (sfp_eeprom_read_fields bus log client command data data_len).2
  rw [hs] at h ⊢
  split_ifs at h ⊢ with h1 h2
  · omega
  · rfl
  · simp [EIO_ERRNO] at h

/-- A block write that returns a positive count returns the clamped length. -/
theorem sfp_eeprom_write_pos (bus : Nat → Resp) (log : List BusOp) (client : i2c_client)
    (command : Nat) (data : List Nat) (data_len : Int)
    (h : ¬ (sfp_eeprom_write bus log client command data data_len).1 ≤ 0) :
    (sfp_eeprom_write bus log client command data data_len).1
      = min data_len I2C_SMBUS_BLOCK_MAX := by
  rw [sfp_eeprom_write_fields] at h ⊢
  simp only at h ⊢
  split_ifs at h ⊢ with h1
  · omega
  · rfl

/-- The chunk of a block transaction that goes on, for a remaining count
`count` between 1 and `2 ^ 31 - 1`: `min(count, 32)`, and the count left. -/
theorem chunk_of_count (count : Nat) (s : Int) (hpos : 0 < count) (h31 : count < 2 ^ 31)
    (hs : s = min (size_to_int count) I2C_SMBUS_BLOCK_MAX) :
    s = ((min 32 count : Nat) : Int) ∧
    ulong (count + 2 ^ BITS_PER_LONG - s.toNat) = count - min 32 count := by
  rw [size_to_int_of_lt count h31, I2C_SMBUS_BLOCK_MAX] at hs
  have e : s = ((min 32 count : Nat) : Int) := by omega
  refine ⟨e, ?_⟩
  subst e
  unfold ulong BITS_PER_LONG
  omega

/-- The read loop does not depend on its iteration bound once the bound is at
least the remaining count; it adds at most `ceil(count / 32)` block
transactions, none of more than 32 bytes, and its result does not exceed
`retval + count`. -/
theorem sfp_port_read_loop_bound (bus : Nat → Resp) (client : i2c_client) :
    ∀ (m fuel1 fuel2 count : Nat) (off : Int) (done buf : List Nat) (retval : Int)
      (statuses : List Int) (log : List BusOp),
      count ≤ fuel1 → count ≤ fuel2 → count < 2 ^ 31 → (count + 31) / 32 ≤ m → 0 ≤ retval →
      sfp_port_read_loop bus client fuel1 count off done buf retval statuses log
        = sfp_port_read_loop bus client fuel2 count off done buf retval statuses log ∧
      ∃ ss, (sfp_port_read_loop bus client fuel1 count off done buf retval statuses log).statuses
          = statuses ++ ss ∧ ss.length ≤ m ∧ (∀ s, s ∈ ss → s ≤ 32) ∧
        (sfp_port_read_loop bus client fuel1 count off done buf retval statuses log).retval
          ≤ retval + count := by
  intro m
  induction m with
  | zero =>
    intro fuel1 fuel2 count off done buf retval statuses log _ _ _ hm hret
    have hc0 : count = 0 := by omega
    subst hc0
    refine ⟨?_, [], ?_, ?_, ?_, ?_⟩
    · cases fuel1 <;> cases fuel2 <;> simp [sfp_port_read_loop]
    · cases fuel1 <;> simp [sfp_port_read_loop]
    · simp
    · simp
    · cases fuel1 <;> simp [sfp_port_read_loop]
  | succ m ih =>
    intro fuel1 fuel2 count off done buf retval statuses log hf1 hf2 h31 hm hret
    by_cases hc0 : count = 0
    · subst hc0
      refine ⟨?_, [], ?_, ?_, ?_, ?_⟩
      · cases fuel1 <;> cases fuel2 <;> simp [sfp_port_read_loop]
      · cases fuel1 <;> simp [sfp_port_read_loop]
      · simp
      · simp
      · cases fuel1 <;> simp [sfp_port_read_loop]
    · obtain ⟨f1, rfl⟩ : ∃ f, fuel1 = f + 1 := ⟨fuel1 - 1, by omega⟩
      obtain ⟨f2, rfl⟩ : ∃ f, fuel2 = f + 1 := ⟨fuel2 - 1, by omega⟩
      simp only [sfp_port_read_loop, hc0, if_false]
      by_cases hle : (sfp_eeprom_read bus log client (off % 256).toNat buf
          (size_to_int count)).status ≤ 0
      · simp only [hle, if_true]
        refine ⟨trivial, [_], rfl, by simp, ?_, ?_⟩
        · intro s hs
          rw [List.mem_singleton] at hs
          omega
        · split_ifs <;> omega
      · simp only [hle, if_false]
        obtain ⟨e, hcnt⟩ := chunk_of_count count _ (by omega) h31
          (sfp_eeprom_read_pos bus log client _ buf _ hle)
        rw [hcnt]
        obtain ⟨heq, ss, hss, hlen, hall, hrv⟩ := ih f1 f2 (count - min 32 count)
          (off + (sfp_eeprom_read bus log client (off % 256).toNat buf (size_to_int count)).status)
          (done ++ (sfp_eeprom_read bus log client (off % 256).toNat buf
            (size_to_int count)).data.take
            (sfp_eeprom_read bus log client (off % 256).toNat buf (size_to_int count)).status.toNat)
          ((sfp_eeprom_read bus log client (off % 256).toNat buf (size_to_int count)).data.drop
            (sfp_eeprom_read bus log client (off % 256).toNat buf (size_to_int count)).status.toNat)
          (retval + (sfp_eeprom_read bus log client (off % 256).toNat buf
            (size_to_int count)).status)
          (statuses ++ [(sfp_eeprom_read bus log client (off % 256).toNat buf
            (size_to_int count)).status])
          (sfp_eeprom_read bus log client (off % 256).toNat buf (size_to_int count)).log
          (by omega) (by omega) (by omega) (by omega) (by omega)
        refine ⟨heq, (sfp_eeprom_read bus log client (off % 256).toNat buf
          (size_to_int count)).status :: ss, ?_, ?_, ?_, ?_⟩
        · rw [hss, List.append_assoc]
          rfl
        · simp only [List.length_cons]
          omega
        · intro s hs
          rcases List.mem_cons.mp hs with h | h
          · rw [h, e]
            omega
          · exact hall s h
        · omega

/-- The write loop does not depend on its iteration bound once the bound is at
least the remaining count; it adds at most `ceil(count / 32)` block
transactions, none of more than 32 bytes, and its result does not exceed
`retval + count`. -/
theorem sfp_port_write_loop_bound (bus : Nat → Resp) (client : i2c_client) :
    ∀ (m fuel1 fuel2 count : Nat) (off : Int) (done buf : List Nat) (retval : Int)
      (statuses : List Int) (log : List BusOp),
      count ≤ fuel1 → count ≤ fuel2 → count < 2 ^ 31 → (count + 31) / 32 ≤ m → 0 ≤ retval →
      sfp_port_write_loop bus client fuel1 count off done buf retval statuses log
        = sfp_port_write_loop bus client fuel2 count off done buf retval statuses log ∧
      ∃ ss, (sfp_port_write_loop bus client fuel1 count off done buf retval statuses log).statuses
          = statuses ++ ss ∧ ss.length ≤ m ∧ (∀ s, s ∈ ss → s ≤ 32) ∧
        (sfp_port_write_loop bus client fuel1 count off done buf retval statuses log).retval
          ≤ retval + count := by
  intro m
  induction m with
  | zero =>
    intro fuel1 fuel2 count off done buf retval statuses log _ _ _ hm hret
    have hc0 : count = 0 := by omega
    subst hc0
    refine ⟨?_, [], ?_, ?_, ?_, ?_⟩
    · cases fuel1 <;> cases fuel2 <;> simp [sfp_port_write_loop]
    · cases fuel1 <;> simp [sfp_port_write_loop]
    · simp
    · simp
    · cases fuel1 <;> simp [sfp_port_write_loop]
  | succ m ih =>
    intro fuel1 fuel2 count off done buf retval statuses log hf1 hf2 h31 hm hret
    by_cases hc0 : count = 0
    · subst hc0
      refine ⟨?_, [], ?_, ?_, ?_, ?_⟩
      · cases fuel1 <;> cases fuel2 <;> simp [sfp_port_write_loop]
      · cases fuel1 <;> simp [sfp_port_write_loop]
      · simp
      · simp
      · cases fuel1 <;> simp [sfp_port_write_loop]
    · obtain ⟨f1, rfl⟩ : ∃ f, fuel1 = f + 1 := ⟨fuel1 - 1, by omega⟩
      obtain ⟨f2, rfl⟩ : ∃ f, fuel2 = f + 1 := ⟨fuel2 - 1, by omega⟩
      simp only [sfp_port_write_loop, hc0, if_false]
      by_cases hle : (sfp_eeprom_write bus log client (off % 256).toNat buf
          (size_to_int count)).1 ≤ 0
      · simp only [hle, if_true]
        refine ⟨trivial, [_], rfl, by simp, ?_, ?_⟩
        · intro s hs
          rw [List.mem_singleton] at hs
          omega
        · split_ifs <;> omega
      · simp only [hle, if_false]
        obtain ⟨e, hcnt⟩ := chunk_of_count count _ (by omega) h31
          (sfp_eeprom_write_pos bus log client _ buf _ hle)
        rw [hcnt]
        obtain ⟨heq, ss, hss, hlen, hall, hrv⟩ := ih f1 f2 (count - min 32 count)
          (off + (sfp_eeprom_write bus log client (off % 256).toNat buf (size_to_int count)).1)
          (done ++ buf.take
            (sfp_eeprom_write bus log client (off % 256).toNat buf (size_to_int count)).1.toNat)
          (buf.drop
            (sfp_eeprom_write bus log client (off % 256).toNat buf (size_to_int count)).1.toNat)
          (retval + (sfp_eeprom_write bus log client (off % 256).toNat buf
            (size_to_int count)).1)
          (statuses ++ [(sfp_eeprom_write bus log client (off % 256).toNat buf
            (size_to_int count)).1])
          (sfp_eeprom_write bus log client (off % 256).toNat buf (size_to_int count)).2
          (by omega) (by omega) (by omega) (by omega) (by omega)
        refine ⟨heq, (sfp_eeprom_write bus log client (off % 256).toNat buf
          (size_to_int count)).1 :: ss, ?_, ?_, ?_, ?_⟩
        · rw [hss, List.append_assoc]
          rfl
        · simp only [List.length_cons]
          omega
        · intro s hs
          rcases List.mem_cons.mp hs with h | h
          · rw [h, e]
            omega
          · exact hall s h
        · omega

/-- One iteration of the read loop with a remaining count between 1 and
`2 ^ 31 - 1`: either the loop exits, after a block transaction that did not
return a positive count, or it goes on with the count decreased by the chunk
returned, which is between 1 and 32 and at most the count. -/
theorem sfp_port_read_loop_step (bus : Nat → Resp) (client : i2c_client)
    (fuel count : Nat) (off : Int) (done buf : List Nat) (retval : Int)
    (statuses : List Int) (log : List BusOp) (hpos : 0 < count) (h31 : count < 2 ^ 31) :
    (∃ s, s ≤ 0 ∧
      (sfp_port_read_loop bus client (fuel + 1) count off done buf retval statuses log).statuses
        = statuses ++ [s]) ∨
    (∃ chunk : Nat, 1 ≤ chunk ∧ chunk ≤ 32 ∧ chunk ≤ count ∧
      ∃ off2 done2 buf2 log2,
        sfp_port_read_loop bus client (fuel + 1) count off done buf retval statuses log
          = sfp_port_read_loop bus client fuel (count - chunk) off2 done2 buf2
              (retval + (chunk : Int)) (statuses ++ [(chunk : Int)]) log2) := by
  simp only [sfp_port_read_loop, Nat.pos_iff_ne_zero.mp hpos, if_false]
  by_cases hle : (sfp_eeprom_read bus log client (off % 256).toNat buf
      (size_to_int count)).status ≤ 0
  · left
    simp only [hle, if_true]
    exact ⟨_, hle, rfl⟩
  · right
    simp only [hle, if_false]
    obtain ⟨e, hcnt⟩ := chunk_of_count count _ hpos h31
      (sfp_eeprom_read_pos bus log client _ buf _ hle)
    rw [hcnt, e]
    exact ⟨min 32 count, by omega, by omega, by omega, _, _, _, _, rfl⟩

/-- One iteration of the write loop, as for the read loop. -/
theorem sfp_port_write_loop_step (bus : Nat → Resp) (client : i2c_client)
    (fuel count : Nat) (off : Int) (done buf : List Nat) (retval : Int)
    (statuses : List Int) (log : List BusOp) (hpos : 0 < count) (h31 : count < 2 ^ 31) :
    (∃ s, s ≤ 0 ∧
      (sfp_port_write_loop bus client (fuel + 1) count off done buf retval statuses log).statuses
        = statuses ++ [s]) ∨
    (∃ chunk : Nat, 1 ≤ chunk ∧ chunk ≤ 32 ∧ chunk ≤ count ∧
      ∃ off2 done2 buf2 log2,
        sfp_port_write_loop bus client (fuel + 1) count off done buf retval statuses log
          = sfp_port_write_loop bus client fuel (count - chunk) off2 done2 buf2
              (retval + (chunk : Int)) (statuses ++ [(chunk : Int)]) log2) := by
  simp only [sfp_port_write_loop, Nat.pos_iff_ne_zero.mp hpos, if_false]
  by_cases hle : (sfp_eeprom_write bus log client (off % 256).toNat buf
      (size_to_int count)).1 ≤ 0
  · left
    simp only [hle, if_true]
    exact ⟨_, hle, rfl⟩
  · right
    simp only [hle, if_false]
    obtain ⟨e, hcnt⟩ := chunk_of_count count _ hpos h31
      (sfp_eeprom_write_pos bus log client _ buf _ hle)
    rw [hcnt, e]
    exact ⟨min 32 count, by omega, by omega, by omega, _, _, _, _, rfl⟩

/-- C30: for every length `n` with `0 < n < 2 ^ 31` and every behaviour of the
transport, the chunk loops of `sfp_port_read` and `sfp_port_write` terminate:
the result is reached within `n` iterations and is the same under any larger
bound; at most `ceil(n / 32)` block transactions are issued
(`I2C_SMBUS_BLOCK_MAX = 32`), none returning more than 32; the returned count
never exceeds `n`; and each iteration either exits or goes on with the
remaining count decreased by a chunk between 1 and 32. -/
theorem port_loops_terminate (bus : Nat → Resp) (data : sfp_port_data) (buf : List Nat)
    (off : Int) (n : Nat) (log : List BusOp) (hn : 0 < n) (h31 : n < 2 ^ 31) :
    ((∀ fuel, n ≤ fuel →
        sfp_port_read_loop bus data.client fuel n off [] buf 0 [] log
          = sfp_port_read bus data buf off n log) ∧
      (sfp_port_read bus data buf off n log).statuses.length ≤ (n + 31) / 32 ∧
      (∀ s, s ∈ (sfp_port_read bus data buf off n log).statuses → s ≤ 32) ∧
      (sfp_port_read bus data buf off n log).retval ≤ n) ∧
    ((∀ fuel, n ≤ fuel →
        sfp_port_write_loop bus data.client fuel n off [] buf 0 [] log
          = sfp_port_write bus data buf off n log) ∧
      (sfp_port_write bus data buf off n log).statuses.length ≤ (n + 31) / 32 ∧
      (∀ s, s ∈ (sfp_port_write bus data buf off n log).statuses → s ≤ 32) ∧
      (sfp_port_write bus data buf off n log).retval ≤ n) ∧
    (∀ (fuel count : Nat) (off1 : Int) (done buf1 : List Nat) (retval : Int)
        (statuses : List Int) (log1 : List BusOp), 0 < count → count ≤ n →
      ((∃ s, s ≤ 0 ∧
          (sfp_port_read_loop bus data.client (fuel + 1) count off1 done buf1 retval statuses
            log1).statuses = statuses ++ [s]) ∨
        (∃ chunk : Nat, 1 ≤ chunk ∧ chunk ≤ 32 ∧ chunk ≤ count ∧
          ∃ off2 done2 buf2 log2,
            sfp_port_read_loop bus data.client (fuel + 1) count off1 done buf1 retval statuses
                log1
              = sfp_port_read_loop bus data.client fuel (count - chunk) off2 done2 buf2
                  (retval + (chunk : Int)) (statuses ++ [(chunk : Int)]) log2)) ∧
      ((∃ s, s ≤ 0 ∧
          (sfp_port_write_loop bus data.client (fuel + 1) count off1 done buf1 retval statuses
            log1).statuses = statuses ++ [s]) ∨
        (∃ chunk : Nat, 1 ≤ chunk ∧ chunk ≤ 32 ∧ chunk ≤ count ∧
          ∃ off2 done2 buf2 log2,
            sfp_port_write_loop bus data.client (fuel + 1) count off1 done buf1 retval statuses
                log1
              = sfp_port_write_loop bus data.client fuel (count - chunk) off2 done2 buf2
                  (retval + (chunk : Int)) (statuses ++ [(chunk : Int)]) log2))) := by
  have hn0 : n ≠ 0 := by omega
  refine ⟨?_, ?_, ?_⟩
  · obtain ⟨_, ss, hss, hlen, hall, hrv⟩ := sfp_port_read_loop_bound bus data.client
      ((n + 31) / 32) n n n off [] buf 0 [] log (Nat.le_refl _) (Nat.le_refl _) h31
      (Nat.le_refl _) (Int.le_refl _)
    unfold sfp_port_read
    rw [if_neg hn0]
    refine ⟨?_, ?_, ?_, ?_⟩
    · intro fuel hfuel
      exact (sfp_port_read_loop_bound bus data.client ((n + 31) / 32) fuel n n off [] buf 0 []
        log hfuel (Nat.le_refl _) h31 (Nat.le_refl _) (Int.le_refl _)).1
    · rw [hss]
      simpa using hlen
    · rw [hss]
      simpa using hall
    · omega
  · obtain ⟨_, ss, hss, hlen, hall, hrv⟩ := sfp_port_write_loop_bound bus data.client
      ((n + 31) / 32) n n n off [] buf 0 [] log (Nat.le_refl _) (Nat.le_refl _) h31
      (Nat.le_refl _) (Int.le_refl _)
    unfold sfp_port_write
    rw [if_neg hn0]
    refine ⟨?_, ?_, ?_, ?_⟩
    · intro fuel hfuel
      exact (sfp_port_write_loop_bound bus data.client ((n + 31) / 32) fuel n n off [] buf 0 []
        log hfuel (Nat.le_refl _) h31 (Nat.le_refl _) (Int.le_refl _)).1
    · rw [hss]
      simpa using hlen
    · rw [hss]
      simpa using hall
    · omega
  · intro fuel count off1 done buf1 retval statuses log1 hpos hle
    exact ⟨sfp_port_read_loop_step bus data.client fuel count off1 done buf1 retval statuses
        log1 hpos (by omega),
      sfp_port_write_loop_step bus data.client fuel count off1 done buf1 retval statuses
        log1 hpos (by omega)⟩

/-- C30, at a concrete input: a transfer of 100 bytes on a transport that
returns two chunks of 32 bytes and then fails every attempt. -/
theorem port_loops_terminate_witness :
    ((∀ fuel, 100 ≤ fuel →
        sfp_port_read_loop busReadThirdFails qsfpPortFresh.client fuel 100 0 []
            (List.replicate 100 0) 0 [] []
          = sfp_port_read busReadThirdFails qsfpPortFresh (List.replicate 100 0) 0 100 []) ∧
      (sfp_port_read busReadThirdFails qsfpPortFresh (List.replicate 100 0) 0 100
        []).statuses.length ≤ (100 + 31) / 32 ∧
      (∀ s, s ∈ (sfp_port_read busReadThirdFails qsfpPortFresh (List.replicate 100 0) 0 100
        []).statuses → s ≤ 32) ∧
      (sfp_port_read busReadThirdFails qsfpPortFresh (List.replicate 100 0) 0 100 []).retval
        ≤ (100 : Nat)) ∧
    ((∀ fuel, 100 ≤ fuel →
        sfp_port_write_loop busReadThirdFails qsfpPortFresh.client fuel 100 0 []
            (List.replicate 100 0) 0 [] []
          = sfp_port_write busReadThirdFails qsfpPortFresh (List.replicate 100 0) 0 100 []) ∧
      (sfp_port_write busReadThirdFails qsfpPortFresh (List.replicate 100 0) 0 100
        []).statuses.length ≤ (100 + 31) / 32 ∧
      (∀ s, s ∈ (sfp_port_write busReadThirdFails qsfpPortFresh (List.replicate 100 0) 0 100
        []).statuses → s ≤ 32) ∧
      (sfp_port_write busReadThirdFails qsfpPortFresh (List.replicate 100 0) 0 100 []).retval
        ≤ (100 : Nat)) ∧
    (sfp_port_read busReadThirdFails qsfpPortFresh (List.replicate 100 0) 0 100 []).statuses
      = [32, 32, -6] :=
  ⟨(port_loops_terminate busReadThirdFails qsfpPortFresh (List.replicate 100 0) 0 100 []
      (by decide) (by decide)).1,
    (port_loops_terminate busReadThirdFails qsfpPortFresh (List.replicate 100 0) 0 100 []
      (by decide) (by decide)).2.1, by decide⟩

/-! The claims, continued: the transactions of the classification and of the presence refresh -/

/-- C5: on an SFP-MSA port, when the identifier byte read at offset 0 is `0x3`
and the compliance byte read at offset 3 is `c`, `sfp_update_port_type` sets
`port_type` to SFP+ if `c & 0xF0` is not 0 and to SFP otherwise, for every byte
`c`; the transactions of the classification are those of these two reads, in
this order: 1 to 3 attempts of the one-byte block read at offset 0, then 1 to 3
attempts of the one-byte block read at offset 3, and nothing else. -/
theorem sfp_msa_classification (bus : Nat → Resp) (data : sfp_port_data) (log : List BusOp)
    (c : Nat)
    (hdrv : data.driver_type = DRIVER_TYPE_SFP_MSA)
    (hid : 0 ≤ (sfp_eeprom_read bus log data.client 0 [0] 1).status ∧
      (sfp_eeprom_read bus log data.client 0 [0] 1).data.headD 0 = 0x3)
    (hcc : 0 ≤ (sfp_eeprom_read bus (sfp_eeprom_read bus log data.client 0 [0] 1).log
          data.client 3 (sfp_eeprom_read bus log data.client 0 [0] 1).data 1).status ∧
      (sfp_eeprom_read bus (sfp_eeprom_read bus log data.client 0 [0] 1).log
          data.client 3 (sfp_eeprom_read bus log data.client 0 [0] 1).data 1).data.headD 0 = c) :
    (sfp_update_port_type bus data log).1.port_type
      = (if c &&& 0xF0 ≠ 0 then OOM_DRIVER_PORT_TYPE_SFP_PLUS else OOM_DRIVER_PORT_TYPE_SFP) ∧
    (sfp_update_port_type bus data log).2
      = (sfp_eeprom_read bus (sfp_eeprom_read bus log data.client 0 [0] 1).log
          data.client 3 (sfp_eeprom_read bus log data.client 0 [0] 1).data 1).log ∧
    ∃ n0 n1, 1 ≤ n0 ∧ n0 ≤ 3 ∧ 1 ≤ n1 ∧ n1 ≤ 3 ∧
      (sfp_update_port_type bus data log).2
        = log ++ List.replicate n0 (BusOp.read_block data.client 0 1)
            ++ List.replicate n1 (BusOp.read_block data.client 3 1) := by
  obtain ⟨h1, h2⟩ := hid
  obtain ⟨h3, h4⟩ := hcc
  have hlog : (sfp_update_port_type bus data log).2
      = (sfp_eeprom_read bus (sfp_eeprom_read bus log data.client 0 [0] 1).log
          data.client 3 (sfp_eeprom_read bus log data.client 0 [0] 1).data 1).log := by
    unfold sfp_update_port_type
    simp only [hdrv, SFF8024_PHYSICAL_DEVICE_ID_ADDR, SFF8024_DEVICE_ID_SFP,
      SFF8472_10G_ETH_COMPLIANCE_ADDR, SFF8472_10G_BASE_MASK]
    rw [if_neg (by omega), if_neg (by rw [h2]; simp), if_neg (by omega)]
  refine ⟨?_, hlog, ?_⟩
  · unfold sfp_update_port_type
    simp only [hdrv, SFF8024_PHYSICAL_DEVICE_ID_ADDR, SFF8024_DEVICE_ID_SFP,
      SFF8472_10G_ETH_COMPLIANCE_ADDR, SFF8472_10G_BASE_MASK]
    rw [if_neg (by omega), if_neg (by rw [h2]; simp), if_neg (by omega)]
    simp only [h4]
  · obtain ⟨n0, hn0, hn0', hl0⟩ := sfp_eeprom_read_log bus log data.client 0 [0]
    obtain ⟨n1, hn1, hn1', hl1⟩ := sfp_eeprom_read_log bus
      (sfp_eeprom_read bus log data.client 0 [0] 1).log data.client 3
      (sfp_eeprom_read bus log data.client 0 [0] 1).data
    refine ⟨n0, n1, hn0, hn0', hn1, hn1', ?_⟩
    rw [hlog, hl1, hl0]

/-- C5, at a concrete input: identifier `0x3`, compliance byte `0x10`, each
delivered at the first attempt. -/
theorem sfp_msa_classification_witness :
    (sfp_update_port_type busSfpPlus msaPort []).1.port_type
      = (if 0x10 &&& 0xF0 ≠ 0 then OOM_DRIVER_PORT_TYPE_SFP_PLUS
          else OOM_DRIVER_PORT_TYPE_SFP) ∧
    (sfp_update_port_type busSfpPlus msaPort []).2
      = (sfp_eeprom_read busSfpPlus (sfp_eeprom_read busSfpPlus [] msaPort.client 0 [0] 1).log
          msaPort.client 3 (sfp_eeprom_read busSfpPlus [] msaPort.client 0 [0] 1).data 1).log ∧
    ∃ n0 n1, 1 ≤ n0 ∧ n0 ≤ 3 ∧ 1 ≤ n1 ∧ n1 ≤ 3 ∧
      (sfp_update_port_type busSfpPlus msaPort []).2
        = [] ++ List.replicate n0 (BusOp.read_block msaPort.client 0 1)
            ++ List.replicate n1 (BusOp.read_block msaPort.client 3 1) :=
  sfp_msa_classification busSfpPlus msaPort [] 0x10 (by decide) (by decide) (by decide)

/-- C9: for every previous presence bitmap and every pair of bytes `b0`, `b1`
returned by the two broker reads, `sfp_update_present` succeeds and leaves
`present = b0 | (b1 << 8)`; its transactions are the byte reads of register
`0x30` and then of register `0x31`, on the registered endpoint at address
`0x62`, and `b0` is the result of the first of them (register `0x30`, the
low-order byte), `b1` that of the second (register `0x31`, the high-order
byte). -/
theorem presence_bitmap_combination (bus : Nat → Resp) (cpld_client_list : List i2c_client)
    (data : sfp_port_data) (log : List BusOp) (b0 b1 : Nat)
    (hb0 : b0 < 256) (hb1 : b1 < 256)
    (h0 : (omp800_cpld_read bus log cpld_client_list 0x62 0x30).1 = (b0 : Int))
    (h1 : (omp800_cpld_read bus (omp800_cpld_read bus log cpld_client_list 0x62 0x30).2
      cpld_client_list 0x62 0x31).1 = (b1 : Int)) :
    (sfp_update_present bus cpld_client_list data log).1 = none ∧
    (sfp_update_present bus cpld_client_list data log).2.1.present = b0 ||| (b1 <<< 8) ∧
    ∃ c, cpld_find cpld_client_list 0x62 = some c ∧ c ∈ cpld_client_list ∧ c.addr = 0x62 ∧
      (sfp_update_present bus cpld_client_list data log).2.2
        = log ++ [BusOp.read_byte c 0x30, BusOp.read_byte c 0x31] ∧
      (bus log.length).status = (b0 : Int) ∧ (bus (log.length + 1)).status = (b1 : Int) := by
  have e0 : ((b0 : Int) % 2 ^ 32).toNat = b0 := by omega
  have e1 : ((b1 : Int) % 2 ^ 32).toNat = b1 := by omega
  have s1 : (b1 <<< 8) % 2 ^ 32 = b1 <<< 8 := by
    rw [Nat.shiftLeft_eq]
    omega
  have s0 : b0 % 2 ^ 32 = b0 := by omega
  have n0 : ¬ ((b0 : Int) < 0) := by omega
  have n1 : ¬ ((b1 : Int) < 0) := by omega
  refine ⟨?_, ?_, ?_⟩
  · unfold sfp_update_present
    simp only [sfp_update_present_loop, List.getD_cons_zero, List.getD_cons_succ]
    simp only [h0, n0, if_false, h1, n1, e0, e1, Nat.zero_mul, Nat.shiftLeft_zero, Nat.one_mul,
      Nat.zero_add, s0, s1, Nat.zero_or]
  · unfold sfp_update_present
    simp only [sfp_update_present_loop, List.getD_cons_zero, List.getD_cons_succ]
    simp only [h0, n0, if_false, h1, n1, e0, e1, Nat.zero_mul, Nat.shiftLeft_zero, Nat.one_mul,
      Nat.zero_add, s0, s1, Nat.zero_or]
  · cases hc : cpld_find cpld_client_list 0x62 with
    | none =>
      rw [omp800_cpld_read_eq, hc] at h0
      simp only [EPERM] at h0
      omega
    | some c =>
      have hmem : c ∈ cpld_client_list ∧ c.addr = 0x62 := by
        have haddr := cpld_find_addr cpld_client_list 0x62 c hc
        have hex : ∃ d, d ∈ cpld_client_list ∧ d.addr = 0x62 := by
          by_contra hno
          have := cpld_find_none cpld_client_list 0x62
            (fun d hd hda => hno ⟨d, hd, hda⟩)
          rw [this] at hc
          cases hc
        obtain ⟨d, hd, hdm, _⟩ := cpld_find_some cpld_client_list 0x62 hex
        rw [hc] at hd
        cases hd
        exact ⟨hdm, haddr⟩
      rw [omp800_cpld_read_eq, hc] at h0
      rw [omp800_cpld_read_eq, omp800_cpld_read_eq, hc] at h1
      simp only [i2c_smbus_read_byte_data, List.length_append, List.length_singleton] at h0 h1
      refine ⟨c, rfl, hmem.1, hmem.2, ?_, h0, h1⟩
      unfold sfp_update_present
      simp only [sfp_update_present_loop, List.getD_cons_zero, List.getD_cons_succ,
        omp800_cpld_read_eq, hc, i2c_smbus_read_byte_data, List.length_append,
        List.length_singleton, h0, h1, n0, n1, if_false]
      simp

/-- C9, at a concrete input: a stale bitmap `0xFFFF`, registers reading `0x34`
and `0x12`. -/
theorem presence_bitmap_combination_witness :
    (sfp_update_present busPresence1234 [cpld1Client, cpld2Client] qsfpPort16 []).1 = none ∧
    (sfp_update_present busPresence1234 [cpld1Client, cpld2Client] qsfpPort16 []).2.1.present
      = 0x34 ||| (0x12 <<< 8) ∧
    ∃ c, cpld_find [cpld1Client, cpld2Client] 0x62 = some c ∧
      c ∈ [cpld1Client, cpld2Client] ∧ c.addr = 0x62 ∧
      (sfp_update_present busPresence1234 [cpld1Client, cpld2Client] qsfpPort16 []).2.2
        = [] ++ [BusOp.read_byte c 0x30, BusOp.read_byte c 0x31] ∧
      (busPresence1234 ([] : List BusOp).length).status = ((0x34 : Nat) : Int) ∧
      (busPresence1234 (([] : List BusOp).length + 1)).status = ((0x12 : Nat) : Int) :=
  presence_bitmap_combination busPresence1234 [cpld1Client, cpld2Client] qsfpPort16 [] 0x34 0x12
    (by decide) (by decide) (by decide) (by decide)

/-! The claims, continued: the tx-disable store and the block it works from -/

/-- Within the window of a valid cache the status refresh does nothing. -/
theorem qsfp_update_fresh (HZ jiffies : Nat) (bus : Nat → Resp) (data : sfp_port_data)
    (log : List BusOp)
    (h : (time_before jiffies (ulong (data.qsfp.last_updated + HZ + HZ / 2))
      && data.qsfp.valid != 0) = true) :
    qsfp_update_tx_rx_status HZ jiffies bus data log = (none, data, log) := by
  unfold qsfp_update_tx_rx_status
  rw [h]
  rfl

/-- When the cache is valid and within its window, the block
`qsfp_set_tx_disable` works from is the block cached before the call, and its
refresh step issues no transaction. -/
theorem qsfp_snapshot_fresh (HZ jiffies : Nat) (bus : Nat → Resp)
    (cpld_client_list : List i2c_client) (data : sfp_port_data) (log : List BusOp)
    (h : (time_before jiffies (ulong (data.qsfp.last_updated + HZ + HZ / 2))
      && data.qsfp.valid != 0) = true) :
    (qsfp_update_tx_rx_status HZ jiffies bus
      (sfp_is_port_present bus cpld_client_list data log data.port).2.1
      (sfp_is_port_present bus cpld_client_list data log data.port).2.2).2.1.qsfp.status
        = data.qsfp.status ∧
    (qsfp_update_tx_rx_status HZ jiffies bus
      (sfp_is_port_present bus cpld_client_list data log data.port).2.1
      (sfp_is_port_present bus cpld_client_list data log data.port).2.2).2.2
        = (sfp_is_port_present bus cpld_client_list data log data.port).2.2 := by
  have hq := sfp_is_port_present_qsfp bus cpld_client_list data log data.port
  rw [qsfp_update_fresh HZ jiffies bus _ _ (by rw [hq]; exact h)]
  exact ⟨by rw [hq], rfl⟩

/-- C12 (as stated, refuted): on a present QSFP port whose cached tx-disable
status is `0b0000` but whose cache is not valid (or is valid and older than
`HZ + HZ / 2` ticks), `qsfp_set_tx_disable` for lane 2 with the value 1 first
re-reads the status from the device, here `0x05` in each register, and leaves
the cached tx-disable status `0x07`, not `0b0001 << 1`; the byte written at
address 86 is `0x07`. -/
theorem qsfp_set_tx_disable_rereads_status :
    qsfpPortFresh.qsfp.status = [0, 0, 0] ∧
    (qsfp_set_tx_disable 100 1000 busPresentNibbleFive [cpld2Client] qsfpPortFresh []
        TX_DISABLE2 0 1 2).2.1.qsfp.status = [5, 7, 5] ∧
    (qsfp_set_tx_disable 100 1000 busPresentNibbleFive [cpld2Client] qsfpPortFresh []
        TX_DISABLE2 0 1 2).2.2.drop 8 = [BusOp.write_block sfpClient 86 1 [7]] ∧
    qsfpPortZeroValid.qsfp.status = [0, 0, 0] ∧
    (qsfp_set_tx_disable 100 1000 busPresentNibbleFive [cpld2Client] qsfpPortZeroValid []
        TX_DISABLE2 0 1 2).2.1.qsfp.status = [5, 7, 5] ∧
    (qsfp_set_tx_disable 100 1000 busPresentNibbleFive [cpld2Client] qsfpPortZeroValid []
        TX_DISABLE2 0 1 2).2.2.drop 8 = [BusOp.write_block sfpClient 86 1 [7]] ∧
    (7 : Nat) ≠ 1 <<< 1 := by
  decide

/-- C12 (amended): `qsfp_set_tx_disable` works from the status block left by
its own refresh step, which is the block cached before the call only when that
cache is valid and younger than `HZ + HZ / 2` ticks, and is re-read from the
device otherwise.  For every lane `L` in 0..3, on a present QSFP port whose
refresh step succeeds and leaves a block with the tx-disable status `0b0000`,
the call for lane `L` with a non-zero value leaves the cached tx-disable status
equal to `0b0001 << L`, the two other status bytes as they were, and the
transactions that follow the refresh step are 1 to 3 attempts of the one-byte
block write of that value at EEPROM address 86; when the cache is valid and
within its window, that block is the one cached before the call and the
refresh step issues no transaction. -/
theorem qsfp_set_tx_disable_lane (HZ jiffies : Nat) (bus : Nat → Resp)
    (cpld_client_list : List i2c_client) (data : sfp_port_data) (log : List BusOp)
    (attr : sfp_sysfs_attributes) (L : Nat) (disable : Int) (count tf rl : Nat)
    (hL : L < 4) (hattr : attr.val = TX_DISABLE1.val + L) (hdis : disable ≠ 0)
    (hpresent : (sfp_is_port_present bus cpld_client_list data log data.port).1 = 1)
    (hupd : (qsfp_update_tx_rx_status HZ jiffies bus
      (sfp_is_port_present bus cpld_client_list data log data.port).2.1
      (sfp_is_port_present bus cpld_client_list data log data.port).2.2).1 = none)
    (hzero : (qsfp_update_tx_rx_status HZ jiffies bus
      (sfp_is_port_present bus cpld_client_list data log data.port).2.1
      (sfp_is_port_present bus cpld_client_list data log data.port).2.2).2.1.qsfp.status
        = [tf, 0, rl]) :
    ((qsfp_set_tx_disable HZ jiffies bus cpld_client_list data log attr 0 disable
        count).2.1.qsfp.status = [tf, 1 <<< L, rl] ∧
    ∃ n, 1 ≤ n ∧ n ≤ 3 ∧
      (qsfp_set_tx_disable HZ jiffies bus cpld_client_list data log attr 0 disable count).2.2
        = (qsfp_update_tx_rx_status HZ jiffies bus
            (sfp_is_port_present bus cpld_client_list data log data.port).2.1
            (sfp_is_port_present bus cpld_client_list data log data.port).2.2).2.2
          ++ List.replicate n (BusOp.write_block data.client 86 1 [1 <<< L])) ∧
    ((time_before jiffies (ulong (data.qsfp.last_updated + HZ + HZ / 2))
        && data.qsfp.valid != 0) = true →
      data.qsfp.status = [tf, 0, rl] ∧
      (qsfp_update_tx_rx_status HZ jiffies bus
        (sfp_is_port_present bus cpld_client_list data log data.port).2.1
        (sfp_is_port_present bus cpld_client_list data log data.port).2.2).2.2
          = (sfp_is_port_present bus cpld_client_list data log data.port).2.2) := by
  refine ⟨?_, fun hfresh => ?_⟩
  swap
  · obtain ⟨e1, e2⟩ := qsfp_snapshot_fresh HZ jiffies bus cpld_client_list data log hfresh
    exact ⟨by rw [← e1, hzero], e2⟩
  have hcl := qsfp_update_tx_rx_status_client HZ jiffies bus
    (sfp_is_port_present bus cpld_client_list data log data.port).2.1
    (sfp_is_port_present bus cpld_client_list data log data.port).2.2
  rw [(sfp_is_port_present_frame bus cpld_client_list data log data.port).2.1] at hcl
  unfold qsfp_set_tx_disable
  simp only [hpresent, show ¬ ((1 : Int) < 0) by decide, show ¬ ((1 : Int) = 0) by decide,
    if_false, ne_eq, not_true_eq_false]
  generalize qsfp_update_tx_rx_status HZ jiffies bus
    (sfp_is_port_present bus cpld_client_list data log data.port).2.1
    (sfp_is_port_present bus cpld_client_list data log data.port).2.2 = u at hupd hzero hcl ⊢
  obtain ⟨e, d, l⟩ := u
  simp only at hupd hzero hcl
  subst hupd
  simp only [hzero, List.getD_cons_succ, List.getD_cons_zero,
    qsfp_tx_disable_value_lane attr L disable hL hattr hdis, SFF8436_TX_DISABLE_ADDR, hcl]
  refine ⟨by simp, ?_⟩
  exact sfp_eeprom_write_log bus l data.client 86 (1 <<< L)

/-- C12 (amended), at a concrete input: lane 2 (`TX_DISABLE2`) of a present
port whose cache, all zero, is valid and 100 ticks old. -/
theorem qsfp_set_tx_disable_lane_witness :
    ((qsfp_set_tx_disable 100 100 busZero [cpld2Client] qsfpPortZeroValid []
        TX_DISABLE2 0 1 2).2.1.qsfp.status = [0, 1 <<< 1, 0] ∧
    ∃ n, 1 ≤ n ∧ n ≤ 3 ∧
      (qsfp_set_tx_disable 100 100 busZero [cpld2Client] qsfpPortZeroValid []
          TX_DISABLE2 0 1 2).2.2
        = (qsfp_update_tx_rx_status 100 100 busZero
            (sfp_is_port_present busZero [cpld2Client] qsfpPortZeroValid []
              qsfpPortZeroValid.port).2.1
            (sfp_is_port_present busZero [cpld2Client] qsfpPortZeroValid []
              qsfpPortZeroValid.port).2.2).2.2
          ++ List.replicate n (BusOp.write_block qsfpPortZeroValid.client 86 1 [1 <<< 1])) ∧
    ((time_before 100 (ulong (qsfpPortZeroValid.qsfp.last_updated + 100 + 100 / 2))
        && qsfpPortZeroValid.qsfp.valid != 0) = true →
      qsfpPortZeroValid.qsfp.status = [0, 0, 0] ∧
      (qsfp_update_tx_rx_status 100 100 busZero
        (sfp_is_port_present busZero [cpld2Client] qsfpPortZeroValid []
          qsfpPortZeroValid.port).2.1
        (sfp_is_port_present busZero [cpld2Client] qsfpPortZeroValid []
          qsfpPortZeroValid.port).2.2).2.2
          = (sfp_is_port_present busZero [cpld2Client] qsfpPortZeroValid []
              qsfpPortZeroValid.port).2.2) :=
  qsfp_set_tx_disable_lane 100 100 busZero [cpld2Client] qsfpPortZeroValid []
    TX_DISABLE2 1 1 2 0 0 (by decide) (by decide) (by decide) (by decide) (by decide)
    (by decide)

/-- C26 (as stated, refuted): the call does not work from the block cached
before it.  On a present port whose cache `[0, 0, 0]` is not valid, enabling
lane 2 re-reads the block first and leaves `[1, 0, 4]`: the cached tx-fault and
rx-loss bytes change.  On a present port whose valid cache `[1, 2, 4]` is stale
and whose refresh fails, disabling lane 3 returns the error and leaves
`[0, 0, 0]`: all three bytes change, bit 1 of the tx-disable byte among them. -/
theorem qsfp_set_tx_disable_changes_other_bytes :
    qsfpPortFresh.qsfp.status = [0, 0, 0] ∧
    (qsfp_set_tx_disable 100 1000 busQsfpStatus [cpld2Client] qsfpPortFresh []
        TX_DISABLE2 0 0 2).1 = 2 ∧
    (qsfp_set_tx_disable 100 1000 busQsfpStatus [cpld2Client] qsfpPortFresh []
        TX_DISABLE2 0 0 2).2.1.qsfp.status = [1, 0, 4] ∧
    qsfpPortCached.qsfp.status = [1, 2, 4] ∧
    (qsfp_set_tx_disable 100 5000 busPresentThenFail [cpld2Client] qsfpPortCached []
        TX_DISABLE3 0 1 2).1 = -5 ∧
    (qsfp_set_tx_disable 100 5000 busPresentThenFail [cpld2Client] qsfpPortCached []
        TX_DISABLE3 0 1 2).2.1.qsfp.status = [0, 0, 0] := by
  decide

/-- C26 (amended): `qsfp_set_tx_disable` works from the status block left by
its own refresh step, which is the block cached before the call only when that
cache is valid and younger than `HZ + HZ / 2` ticks.  On a present QSFP port
whose refresh step succeeds and leaves the block `[tf, old, rl]`, the call
leaves the block `[tf, new, rl]`, the tx-fault and rx-loss bytes unchanged,
where for lane `L` in 0..3 `new = old | (1 << L)` when the flag is not 0 and
`new = old & ~(1 << L)` when it is 0, every bit of `new` other than bit `L`
being the bit of `old`, and for the all-lanes form the low nibble of `new` is
`0xF` when the flag is not 0 and 0 when it is 0, the high nibble being that of
`old`; when the cache is valid and within its window, `[tf, old, rl]` is the
block cached before the call. -/
theorem qsfp_set_tx_disable_frame (HZ jiffies : Nat) (bus : Nat → Resp)
    (cpld_client_list : List i2c_client) (data : sfp_port_data) (log : List BusOp)
    (attr : sfp_sysfs_attributes) (L : Nat) (disable : Int) (count tf old rl : Nat)
    (hL : L < 4) (hold : old < 256)
    (hpresent : (sfp_is_port_present bus cpld_client_list data log data.port).1 = 1)
    (hupd : (qsfp_update_tx_rx_status HZ jiffies bus
      (sfp_is_port_present bus cpld_client_list data log data.port).2.1
      (sfp_is_port_present bus cpld_client_list data log data.port).2.2).1 = none)
    (hsnap : (qsfp_update_tx_rx_status HZ jiffies bus
      (sfp_is_port_present bus cpld_client_list data log data.port).2.1
      (sfp_is_port_present bus cpld_client_list data log data.port).2.2).2.1.qsfp.status
        = [tf, old, rl]) :
    (∃ new,
      (qsfp_set_tx_disable HZ jiffies bus cpld_client_list data log attr 0 disable
        count).2.1.qsfp.status = [tf, new, rl] ∧
      (attr.val = TX_DISABLE1.val + L →
        new = (if disable ≠ 0 then old ||| (1 <<< L) else old &&& (0xFF - (1 <<< L))) ∧
        new.testBit L = (if disable ≠ 0 then true else false) ∧
        ∀ j, j ≠ L → new.testBit j = old.testBit j) ∧
      (attr = TX_DISABLE →
        new &&& 0xF = (if disable ≠ 0 then 0xF else 0) ∧ new &&& 0xF0 = old &&& 0xF0)) ∧
    ((time_before jiffies (ulong (data.qsfp.last_updated + HZ + HZ / 2))
        && data.qsfp.valid != 0) = true →
      data.qsfp.status = [tf, old, rl] ∧
      (qsfp_update_tx_rx_status HZ jiffies bus
        (sfp_is_port_present bus cpld_client_list data log data.port).2.1
        (sfp_is_port_present bus cpld_client_list data log data.port).2.2).2.2
          = (sfp_is_port_present bus cpld_client_list data log data.port).2.2) := by
  refine ⟨⟨qsfp_tx_disable_value old attr disable, ?_, ?_, ?_⟩, fun hfresh => ?_⟩
  rotate_left 3
  · obtain ⟨e1, e2⟩ := qsfp_snapshot_fresh HZ jiffies bus cpld_client_list data log hfresh
    exact ⟨by rw [← e1, hsnap], e2⟩
  · unfold qsfp_set_tx_disable
    simp only [hpresent, show ¬ ((1 : Int) < 0) by decide, show ¬ ((1 : Int) = 0) by decide,
      if_false, ne_eq, not_true_eq_false]
    generalize qsfp_update_tx_rx_status HZ jiffies bus
      (sfp_is_port_present bus cpld_client_list data log data.port).2.1
      (sfp_is_port_present bus cpld_client_list data log data.port).2.2 = u at hupd hsnap ⊢
    obtain ⟨e, d, l⟩ := u
    simp only at hupd hsnap
    subst hupd
    simp [hsnap]
  · intro hlane
    have hne : attr ≠ TX_DISABLE := by
      rintro rfl
      simp only [sfp_sysfs_attributes.val] at hlane
      omega
    have hsub : attr.val - TX_DISABLE1.val = L := by
      rw [hlane]
      simp
    obtain ⟨h1, h2, h5, h6⟩ := qsfp_lane_value_eq old hold L hL
    have hfr := qsfp_lane_value_frame old hold L hL
    unfold qsfp_tx_disable_value
    simp only [hne, if_false, hsub]
    by_cases hdis : disable ≠ 0
    · simp only [if_pos hdis, h1]
      refine ⟨trivial, h5, ?_⟩
      intro j hj
      by_cases hj8 : j < 8
      · rcases hfr j hj8 with h | h
        · exact absurd h hj
        · exact h.1
      · have hlt : old ||| (1 <<< L) < 256 := by
          rw [← h1]
          exact Nat.mod_lt _ (by decide)
        rw [testBit_byte_high _ j hlt (by omega), testBit_byte_high _ j hold (by omega)]
    · simp only [if_neg hdis, h2]
      refine ⟨trivial, h6, ?_⟩
      intro j hj
      by_cases hj8 : j < 8
      · rcases hfr j hj8 with h | h
        · exact absurd h hj
        · exact h.2
      · have hlt : old &&& (0xFF - (1 <<< L)) < 256 := by
          rw [← h2]
          exact Nat.mod_lt _ (by decide)
        rw [testBit_byte_high _ j hlt (by omega), testBit_byte_high _ j hold (by omega)]
  · rintro rfl
    obtain ⟨h1, h2, h3, h4⟩ := qsfp_all_lanes_value_bits old hold
    unfold qsfp_tx_disable_value
    by_cases hdis : disable ≠ 0
    · simp only [if_pos hdis, if_true]
      exact ⟨h1, h2⟩
    · simp only [if_neg hdis, if_true]
      exact ⟨h3, h4⟩

/-- C26 (amended), at a concrete input: enabling lane 2 (`TX_DISABLE2`, flag
0) on a present port whose cache `[1, 2, 4]` is valid and 100 ticks old. -/
theorem qsfp_set_tx_disable_frame_witness :
    (∃ new,
      (qsfp_set_tx_disable 100 1000 busZero [cpld2Client] qsfpPortCached [] TX_DISABLE2
        0 0 2).2.1.qsfp.status = [1, new, 4] ∧
      (TX_DISABLE2.val = TX_DISABLE1.val + 1 →
        new = (if (0 : Int) ≠ 0 then 2 ||| (1 <<< 1) else 2 &&& (0xFF - (1 <<< 1))) ∧
        new.testBit 1 = (if (0 : Int) ≠ 0 then true else false) ∧
        ∀ j, j ≠ 1 → new.testBit j = Nat.testBit 2 j) ∧
      (TX_DISABLE2 = TX_DISABLE →
        new &&& 0xF = (if (0 : Int) ≠ 0 then 0xF else 0) ∧ new &&& 0xF0 = 2 &&& 0xF0)) ∧
    ((time_before 1000 (ulong (qsfpPortCached.qsfp.last_updated + 100 + 100 / 2))
        && qsfpPortCached.qsfp.valid != 0) = true →
      qsfpPortCached.qsfp.status = [1, 2, 4] ∧
      (qsfp_update_tx_rx_status 100 1000 busZero
        (sfp_is_port_present busZero [cpld2Client] qsfpPortCached []
          qsfpPortCached.port).2.1
        (sfp_is_port_present busZero [cpld2Client] qsfpPortCached []
          qsfpPortCached.port).2.2).2.2
          = (sfp_is_port_present busZero [cpld2Client] qsfpPortCached []
              qsfpPortCached.port).2.2) :=
  qsfp_set_tx_disable_frame 100 1000 busZero [cpld2Client] qsfpPortCached []
    TX_DISABLE2 1 0 2 1 2 4 (by decide) (by decide) (by decide) (by decide) (by decide)

/-! The claims, continued: the six reads of the status refresh -/

/-- The retry loop of the read after `m` failing attempts and a good one: the
whole result, with the bytes the good attempt delivered. -/
theorem sfp_eeprom_read_loop_result (bus : Nat → Resp) (client : i2c_client) (command : Nat)
    (data_len : Int) :
    ∀ (m retry : Nat) (status : Int) (data : List Nat) (log : List BusOp), m < retry →
      (∀ j, j < m → (bus (log.length + j)).status < 0) →
      0 ≤ (bus (log.length + m)).status →
      sfp_eeprom_read_loop bus client command data_len retry status data log
        = { status := (bus (log.length + m)).status,
            data := store_bytes data (((bus (log.length + m)).data.take
              (bus (log.length + m)).status.toNat).map (fun b => b % 256)),
            log := log ++ List.replicate (m + 1)
              (BusOp.read_block client command (data_len % 256).toNat) } := by
  intro m
  induction m with
  | zero =>
    intro retry status data log hm _ hok
    obtain ⟨r, rfl⟩ : ∃ r, retry = r + 1 := ⟨retry - 1, by omega⟩
    simp only [Nat.add_zero] at hok ⊢
    have h0 : ¬ (bus log.length).status < 0 := by omega
    simp [sfp_eeprom_read_loop, i2c_smbus_read_i2c_block_data, h0]
  | succ m ih =>
    intro retry status data log hm hfail hok
    obtain ⟨r, rfl⟩ : ∃ r, retry = r + 1 := ⟨retry - 1, by omega⟩
    have h0 : (bus log.length).status < 0 := by
      have := hfail 0 (by omega)
      simpa using this
    rw [sfp_eeprom_read_loop]
    simp only [i2c_smbus_read_i2c_block_data, h0, if_true]
    have e : (log ++ [BusOp.read_block client command (data_len % 256).toNat]).length + m
        = log.length + (m + 1) := by
      simp only [List.length_append, List.length_singleton]
      omega
    rw [ih r (bus log.length).status data
      (log ++ [BusOp.read_block client command (data_len % 256).toNat]) (by omega)
      (by
        intro j hj
        have := hfail (j + 1) (by omega)
        simpa [Nat.add_assoc, Nat.add_comm 1 j] using this)
      (by rw [e]; exact hok), e]
    simp [List.replicate_succ]

/-- A one-byte block read that does not fail, on a transport that delivers the
bytes it counts: it made 1 to 3 attempts of the read, all but the last failed,
the last returned the count 1, and the buffer holds the byte it delivered. -/
theorem sfp_eeprom_read_byte (bus : Nat → Resp) (log : List BusOp) (client : i2c_client)
    (command x : Nat)
    (hwf : ∀ k, (bus k).status.toNat ≤ (bus k).data.length)
    (h : ¬ (sfp_eeprom_read bus log client command [x] 1).status < 0) :
    ∃ n, 1 ≤ n ∧ n ≤ 3 ∧
      (sfp_eeprom_read bus log client command [x] 1).log
        = log ++ List.replicate n (BusOp.read_block client command 1) ∧
      (sfp_eeprom_read bus log client command [x] 1).data
        = [(bus (log.length + (n - 1))).data.headD 0 % 256] ∧
      (bus (log.length + (n - 1))).status = 1 ∧
      ∀ j, j < n - 1 → (bus (log.length + j)).status < 0 := by
  have key : ∀ m, m < 3 → (∀ j, j < m → (bus (log.length + j)).status < 0) →
      0 ≤ (bus (log.length + m)).status →
      (sfp_eeprom_read bus log client command [x] 1).log
        = log ++ List.replicate (m + 1) (BusOp.read_block client command 1) ∧
      (sfp_eeprom_read bus log client command [x] 1).data
        = [(bus (log.length + m)).data.headD 0 % 256] ∧
      (bus (log.length + m)).status = 1 := by
    intro m hm hfail hok
    have hr := sfp_eeprom_read_loop_result bus client command 1 m 3 0 [x] log hm hfail hok
    have hl : ((1 : Int) % 256).toNat = 1 := by decide
    rw [hl] at hr
    have hone : (bus (log.length + m)).status = 1 := by
      by_contra hne
      apply h
      simp only [sfp_eeprom_read, I2C_SMBUS_BLOCK_MAX, I2C_RW_RETRY_COUNT,
        show ¬ ((1 : Int) > 32) by decide, if_false, hr]
      rw [if_neg (by omega), if_pos hne]
      show -EIO_ERRNO < 0
      decide
    have hlen := hwf (log.length + m)
    rw [hone] at hlen hr
    simp only [sfp_eeprom_read, I2C_SMBUS_BLOCK_MAX, I2C_RW_RETRY_COUNT,
      show ¬ ((1 : Int) > 32) by decide, if_false, hr, show ¬ ((1 : Int) < 0) by decide,
      ne_eq, not_true_eq_false]
    refine ⟨trivial, ?_, hone⟩
    cases hd : (bus (log.length + m)).data with
    | nil =>
      rw [hd] at hlen
      simp at hlen
    | cons a t => simp [store_bytes]
  by_cases h0 : (bus log.length).status < 0
  · by_cases h1 : (bus (log.length + 1)).status < 0
    · by_cases h2 : (bus (log.length + 2)).status < 0
      · exfalso
        apply h
        have hf := sfp_eeprom_read_loop_fail bus client command 1 3 0 [x] log (by
          intro j hj
          have : j = 0 ∨ j = 1 ∨ j = 2 := by omega
          rcases this with rfl | rfl | rfl
          · exact h0
          · exact h1
          · exact h2)
        have h2' : (bus (log.length + (3 - 1))).status < 0 := h2
        simp only [sfp_eeprom_read, I2C_SMBUS_BLOCK_MAX, I2C_RW_RETRY_COUNT,
          show ¬ ((1 : Int) > 32) by decide, if_false, hf, show ¬ (3 = 0) by decide, h2',
          if_true]
      · obtain ⟨a, b, c⟩ := key 2 (by omega) (by
          intro j hj
          have : j = 0 ∨ j = 1 := by omega
          rcases this with rfl | rfl
          · exact h0
          · exact h1) (by omega)
        refine ⟨3, by omega, by omega, a, b, c, ?_⟩
        intro j hj
        have : j = 0 ∨ j = 1 := by omega
        rcases this with rfl | rfl
        · exact h0
        · exact h1
    · obtain ⟨a, b, c⟩ := key 1 (by omega) (by
        intro j hj
        have : j = 0 := by omega
        subst this
        exact h0) (by omega)
      refine ⟨2, by omega, by omega, a, b, c, ?_⟩
      intro j hj
      have : j = 0 := by omega
      subst this
      exact h0
  · obtain ⟨a, b, c⟩ := key 0 (by omega) (by intro j hj; omega)
      (by rw [Nat.add_zero]; omega)
    exact ⟨1, by omega, by omega, a, b, c, by intro j hj; omega⟩

/-- C25: a performed QSFP status refresh (the cache is stale or invalid) in
which every read succeeds, that is, which returns the record and no error, on
a transport that delivers as many bytes as it counts, issues exactly six
single-byte EEPROM reads, each of 1 to 3 attempts (`n0` to `n5`), at the
addresses 4, 86, 3 (latch pass) and then 4, 86, 3 again, and nothing else; it
stores in `status[i]` the low 4 bits of the byte delivered by the last attempt
of the i-th read of the second pass, so that the bytes of the first pass do not
reach the cache; the block is then valid and stamped with the current tick. -/
theorem qsfp_refresh_six_reads (HZ jiffies : Nat) (bus : Nat → Resp) (data : sfp_port_data)
    (log : List BusOp)
    (hwf : ∀ k, (bus k).status.toNat ≤ (bus k).data.length)
    (hdue : (time_before jiffies (ulong (data.qsfp.last_updated + HZ + HZ / 2))
      && data.qsfp.valid != 0) = false)
    (hok : (qsfp_update_tx_rx_status HZ jiffies bus data log).1 = none) :
    ∃ n0 n1 n2 n3 n4 n5,
      (1 ≤ n0 ∧ n0 ≤ 3) ∧ (1 ≤ n1 ∧ n1 ≤ 3) ∧ (1 ≤ n2 ∧ n2 ≤ 3) ∧
      (1 ≤ n3 ∧ n3 ≤ 3) ∧ (1 ≤ n4 ∧ n4 ≤ 3) ∧ (1 ≤ n5 ∧ n5 ≤ 3) ∧
      (qsfp_update_tx_rx_status HZ jiffies bus data log).2.2
        = log ++ List.replicate n0 (BusOp.read_block data.client 4 1)
            ++ List.replicate n1 (BusOp.read_block data.client 86 1)
            ++ List.replicate n2 (BusOp.read_block data.client 3 1)
            ++ List.replicate n3 (BusOp.read_block data.client 4 1)
            ++ List.replicate n4 (BusOp.read_block data.client 86 1)
            ++ List.replicate n5 (BusOp.read_block data.client 3 1) ∧
      (qsfp_update_tx_rx_status HZ jiffies bus data log).2.1.qsfp.status
        = [(bus (log.length + n0 + n1 + n2 + (n3 - 1))).data.headD 0 % 256 &&& 0xF,
           (bus (log.length + n0 + n1 + n2 + n3 + (n4 - 1))).data.headD 0 % 256 &&& 0xF,
           (bus (log.length + n0 + n1 + n2 + n3 + n4 + (n5 - 1))).data.headD 0 % 256
             &&& 0xF] ∧
      (bus (log.length + n0 + n1 + n2 + (n3 - 1))).status = 1 ∧
      (bus (log.length + n0 + n1 + n2 + n3 + (n4 - 1))).status = 1 ∧
      (bus (log.length + n0 + n1 + n2 + n3 + n4 + (n5 - 1))).status = 1 ∧
      (qsfp_update_tx_rx_status HZ jiffies bus data log).2.1.qsfp.valid = 1 ∧
      (qsfp_update_tx_rx_status HZ jiffies bus data log).2.1.qsfp.last_updated = jiffies := by
  unfold qsfp_update_tx_rx_status at hok ⊢
  rw [hdue] at hok ⊢
  simp only [Bool.false_eq_true, if_false, qsfp_latch_loop, qsfp_store_loop,
    List.getD_cons_zero, List.getD_cons_succ, SFF8436_TX_FAULT_ADDR, SFF8436_TX_DISABLE_ADDR,
    SFF8436_RX_LOS_ADDR] at hok ⊢
  by_cases c0 : (sfp_eeprom_read bus log data.client 4 [0] 1).status < 0
  · simp only [c0, if_true] at hok
    exact absurd hok (by simp)
  obtain ⟨n0, a0, b0, l0, d0, _, _⟩ := sfp_eeprom_read_byte bus log data.client 4 0 hwf c0
  simp only [c0, if_false, l0, d0] at hok ⊢
  generalize (bus (log.length + (n0 - 1))).data.headD 0 % 256 = x0 at hok ⊢
  by_cases c1 : (sfp_eeprom_read bus (log ++ List.replicate n0 (BusOp.read_block data.client 4 1))
      data.client 86 [x0] 1).status < 0
  · simp only [c1, if_true] at hok
    exact absurd hok (by simp)
  obtain ⟨n1, a1, b1, l1, d1, _, _⟩ := sfp_eeprom_read_byte bus _ data.client 86 x0 hwf c1
  simp only [c1, if_false, l1, d1] at hok ⊢
  generalize (bus ((log ++ List.replicate n0 (BusOp.read_block data.client 4 1)).length
    + (n1 - 1))).data.headD 0 % 256 = x1 at hok ⊢
  by_cases c2 : (sfp_eeprom_read bus (log ++ List.replicate n0 (BusOp.read_block data.client 4 1)
      ++ List.replicate n1 (BusOp.read_block data.client 86 1))
      data.client 3 [x1] 1).status < 0
  · simp only [c2, if_true] at hok
    exact absurd hok (by simp)
  obtain ⟨n2, a2, b2, l2, d2, _, _⟩ := sfp_eeprom_read_byte bus _ data.client 3 x1 hwf c2
  simp only [c2, if_false, l2, d2] at hok ⊢
  generalize (bus ((log ++ List.replicate n0 (BusOp.read_block data.client 4 1)
      ++ List.replicate n1 (BusOp.read_block data.client 86 1)).length
    + (n2 - 1))).data.headD 0 % 256 = x2 at hok ⊢
  by_cases c3 : (sfp_eeprom_read bus (log ++ List.replicate n0 (BusOp.read_block data.client 4 1)
      ++ List.replicate n1 (BusOp.read_block data.client 86 1)
      ++ List.replicate n2 (BusOp.read_block data.client 3 1))
      data.client 4 [x2] 1).status < 0
  · simp only [c3, if_true] at hok
    exact absurd hok (by simp)
  obtain ⟨n3, a3, b3, l3, d3, s3, _⟩ := sfp_eeprom_read_byte bus _ data.client 4 x2 hwf c3
  simp only [c3, if_false, l3, d3] at hok ⊢
  by_cases c4 : (sfp_eeprom_read bus (log ++ List.replicate n0 (BusOp.read_block data.client 4 1)
      ++ List.replicate n1 (BusOp.read_block data.client 86 1)
      ++ List.replicate n2 (BusOp.read_block data.client 3 1)
      ++ List.replicate n3 (BusOp.read_block data.client 4 1))
      data.client 86 [(bus ((log ++ List.replicate n0 (BusOp.read_block data.client 4 1)
      ++ List.replicate n1 (BusOp.read_block data.client 86 1)
      ++ List.replicate n2 (BusOp.read_block data.client 3 1)).length
        + (n3 - 1))).data.headD 0 % 256] 1).status < 0
  · simp only [c4, if_true] at hok
    exact absurd hok (by simp)
  obtain ⟨n4, a4, b4, l4, d4, s4, _⟩ := sfp_eeprom_read_byte bus _ data.client 86 _ hwf c4
  simp only [c4, if_false, l4, d4] at hok ⊢
  by_cases c5 : (sfp_eeprom_read bus (log ++ List.replicate n0 (BusOp.read_block data.client 4 1)
      ++ List.replicate n1 (BusOp.read_block data.client 86 1)
      ++ List.replicate n2 (BusOp.read_block data.client 3 1)
      ++ List.replicate n3 (BusOp.read_block data.client 4 1)
      ++ List.replicate n4 (BusOp.read_block data.client 86 1))
      data.client 3 [(bus ((log ++ List.replicate n0 (BusOp.read_block data.client 4 1)
      ++ List.replicate n1 (BusOp.read_block data.client 86 1)
      ++ List.replicate n2 (BusOp.read_block data.client 3 1)
      ++ List.replicate n3 (BusOp.read_block data.client 4 1)).length
        + (n4 - 1))).data.headD 0 % 256] 1).status < 0
  · simp only [c5, if_true] at hok
    exact absurd hok (by simp)
  obtain ⟨n5, a5, b5, l5, d5, s5, _⟩ := sfp_eeprom_read_byte bus _ data.client 3 _ hwf c5
  simp only [c5, if_false, l5, d5] at hok ⊢
  have p3 : (log ++ List.replicate n0 (BusOp.read_block data.client 4 1)
      ++ List.replicate n1 (BusOp.read_block data.client 86 1)
      ++ List.replicate n2 (BusOp.read_block data.client 3 1)).length
      = log.length + n0 + n1 + n2 := by
    simp only [List.length_append, List.length_replicate]
  have p4 : (log ++ List.replicate n0 (BusOp.read_block data.client 4 1)
      ++ List.replicate n1 (BusOp.read_block data.client 86 1)
      ++ List.replicate n2 (BusOp.read_block data.client 3 1)
      ++ List.replicate n3 (BusOp.read_block data.client 4 1)).length
      = log.length + n0 + n1 + n2 + n3 := by
    simp only [List.length_append, List.length_replicate]
  have p5 : (log ++ List.replicate n0 (BusOp.read_block data.client 4 1)
      ++ List.replicate n1 (BusOp.read_block data.client 86 1)
      ++ List.replicate n2 (BusOp.read_block data.client 3 1)
      ++ List.replicate n3 (BusOp.read_block data.client 4 1)
      ++ List.replicate n4 (BusOp.read_block data.client 86 1)).length
      = log.length + n0 + n1 + n2 + n3 + n4 := by
    simp only [List.length_append, List.length_replicate]
  rw [p3] at s3
  rw [p4] at s4
  rw [p5] at s5
  simp only [p3, p4, p5]
  refine ⟨n0, n1, n2, n3, n4, n5, ⟨a0, b0⟩, ⟨a1, b1⟩, ⟨a2, b2⟩, ⟨a3, b3⟩, ⟨a4, b4⟩, ⟨a5, b5⟩,
    ?_, ?_, s3, s4, s5, ?_, ?_⟩
  all_goals trivial

/-- C25, at a concrete input: the refresh of a never-refreshed block on a bus
whose first attempt fails, whose latch pass then delivers `0xFF` three times
and whose second pass delivers `0x01`, `0x02`, `0x04`: seven transactions for
the six reads, and the block `[1, 2, 4]`. -/
theorem qsfp_refresh_six_reads_witness :
    (∃ n0 n1 n2 n3 n4 n5,
      (1 ≤ n0 ∧ n0 ≤ 3) ∧ (1 ≤ n1 ∧ n1 ≤ 3) ∧ (1 ≤ n2 ∧ n2 ≤ 3) ∧
      (1 ≤ n3 ∧ n3 ≤ 3) ∧ (1 ≤ n4 ∧ n4 ≤ 3) ∧ (1 ≤ n5 ∧ n5 ≤ 3) ∧
      (qsfp_update_tx_rx_status 100 1000 busQsfpStatusRetry qsfpPortFresh []).2.2
        = [] ++ List.replicate n0 (BusOp.read_block qsfpPortFresh.client 4 1)
            ++ List.replicate n1 (BusOp.read_block qsfpPortFresh.client 86 1)
            ++ List.replicate n2 (BusOp.read_block qsfpPortFresh.client 3 1)
            ++ List.replicate n3 (BusOp.read_block qsfpPortFresh.client 4 1)
            ++ List.replicate n4 (BusOp.read_block qsfpPortFresh.client 86 1)
            ++ List.replicate n5 (BusOp.read_block qsfpPortFresh.client 3 1) ∧
      (qsfp_update_tx_rx_status 100 1000 busQsfpStatusRetry qsfpPortFresh []).2.1.qsfp.status
        = [(busQsfpStatusRetry (([] : List BusOp).length + n0 + n1 + n2
              + (n3 - 1))).data.headD 0 % 256 &&& 0xF,
           (busQsfpStatusRetry (([] : List BusOp).length + n0 + n1 + n2 + n3
              + (n4 - 1))).data.headD 0 % 256 &&& 0xF,
           (busQsfpStatusRetry (([] : List BusOp).length + n0 + n1 + n2 + n3 + n4
              + (n5 - 1))).data.headD 0 % 256 &&& 0xF] ∧
      (busQsfpStatusRetry (([] : List BusOp).length + n0 + n1 + n2 + (n3 - 1))).status = 1 ∧
      (busQsfpStatusRetry (([] : List BusOp).length + n0 + n1 + n2 + n3
        + (n4 - 1))).status = 1 ∧
      (busQsfpStatusRetry (([] : List BusOp).length + n0 + n1 + n2 + n3 + n4
        + (n5 - 1))).status = 1 ∧
      (qsfp_update_tx_rx_status 100 1000 busQsfpStatusRetry qsfpPortFresh []).2.1.qsfp.valid
        = 1 ∧
      (qsfp_update_tx_rx_status 100 1000 busQsfpStatusRetry qsfpPortFresh
        []).2.1.qsfp.last_updated = 1000) ∧
    (qsfp_update_tx_rx_status 100 1000 busQsfpStatusRetry qsfpPortFresh []).2.2
      = [BusOp.read_block sfpClient 4 1, BusOp.read_block sfpClient 4 1,
         BusOp.read_block sfpClient 86 1, BusOp.read_block sfpClient 3 1,
         BusOp.read_block sfpClient 4 1, BusOp.read_block sfpClient 86 1,
         BusOp.read_block sfpClient 3 1] ∧
    (qsfp_update_tx_rx_status 100 1000 busQsfpStatusRetry qsfpPortFresh []).2.1.qsfp.status
      = [1, 2, 4] :=
  ⟨qsfp_refresh_six_reads 100 1000 busQsfpStatusRetry qsfpPortFresh []
      (fun k => by unfold busQsfpStatusRetry; split_ifs <;> decide) (by decide) (by decide),
    by decide, by decide⟩

end Omp800
